import Mathlib

/-!
# Chaos lifecycle coordinator of litmus-go: a shallow embedding

The Go sequencers call external collaborators (cloud APIs, the probe engine,
the clock, the logger).  Every such call is recorded as an `Event` in a trace
and its result is read from an environment `Env`, a family of oracles indexed
by the history of calls made so far.  A theorem quantified over `Env` therefore
speaks about every behaviour of the collaborators.

Conventions of the embedding:

* a Go function `f(..) error` becomes `f : .. → World → Option GoError × World`
  (`none` is the nil error); a function that may end the process returns an
  `Outcome`;
* the clock is a natural number of nanoseconds; every call takes the time the
  environment gives it, and a wait takes at least the time asked for;
  `int(time.Since(t).Seconds())` is the number of whole seconds elapsed;
* the duration loops `for duration < ChaosDuration` need not terminate (a pass
  may take no time), so they take a number of passes as fuel and report
  `Outcome.outOfFuel` when it is used up;
* a `for .. range` loop is a recursive function over the list, its body a
  function of its own; the line numbers of the source are given with each;
* informational logging (`log.Info`, `log.Infof`, `log.Warn`,
  `log.InfoWithValues`) is not recorded, `log.Errorf` is.
-/

namespace Litmus

/-- The error codes of package `cerrors` that the sources name (the package is
not part of the sources, so the codes are kept symbolic). -/
inductive ErrorType where
  | ErrorTypeGeneric
  | ErrorTypeTargetSelection
  | ErrorTypeChaosInject
  | ErrorTypeChaosRevert
  | ErrorTypeExperimentAborted
  | ErrorTypeHttpProbe
  | FailureTypeHttpProbe
  | FailureTypeProbeTimeout
  deriving DecidableEq, Repr

/-- Go `error` values that the sequencers build or pass on. -/
inductive GoError where
  /-- an error value produced by an external collaborator, with its text -/
  | external (msg : String)
  /-- `stacktrace.Propagate(cause, msg)` -/
  | propagate (cause : GoError) (msg : String)
  /-- `cerrors.Error{ErrorCode, Target, Reason}` -/
  | cerror (ErrorCode : ErrorType) (Target Reason : String)
  /-- `cerrors.PreserveError{ErrString}` -/
  | preserve (ErrString : String)
  deriving DecidableEq, Repr

/-- One call made by the main function of an experiment, with the arguments the
source passes. -/
inductive ExperimentCall where
  /-- `experimentEnv.GetENV(&experimentsDetails)` -/
  | getENV
  /-- `types.InitialiseChaosVariables(&chaosDetails)` -/
  | initialiseChaosVariables
  /-- `types.SetResultAttributes(&resultDetails, chaosDetails)` -/
  | setResultAttributes
  /-- `types.GetValuesFromChaosEngine(&chaosDetails, clients, &resultDetails)` -/
  | getValuesFromChaosEngine
  /-- `result.SetResultUID(&resultDetails, clients, &chaosDetails)` -/
  | setResultUID
  /-- `result.RecordAfterFailure(&chaosDetails, &resultDetails, err, ..)`, with the
  value of `chaosDetails.Phase` at the call -/
  | recordAfterFailure (phase : String) (err : GoError)
  /-- `types.SetResultEventAttributes(.., reason, msg, eventType, ..)` followed by
  `events.GenerateEvents(.., "ChaosResult")` -/
  | resultEvent (reason msg eventType : String)
  /-- `types.SetEngineEventAttributes(.., reason, msg, eventType, ..)` followed by
  `events.GenerateEvents(.., "ChaosEngine")` -/
  | engineEvent (reason msg eventType : String)
  /-- `go common.AbortWatcher(experimentName, ..)` -/
  | goCommonAbortWatcher (experimentName : String)
  /-- `status.AUTStatusCheck(clients, &chaosDetails)` -/
  | autStatusCheck
  /-- `litmusLIB.PreparePodDelete(..)`, with the value of `chaosDetails.Phase` at
  the call -/
  | preparePodDelete (phase : String)
  /-- `log.Errorf(format, arg)` with an argument that is not an error value -/
  | logErrorText (format arg : String)
  deriving DecidableEq, Repr

/-- One call of an external collaborator, with the arguments the source passes. -/
inductive Event where
  /-- `time.Now()` -/
  | timeNow
  /-- `time.Since(ChaosStartTimeStamp)` -/
  | timeSince
  /-- `time.Sleep(d)`, `d` in nanoseconds -/
  | sleep (d : Int)
  /-- `common.WaitForDuration(seconds)` -/
  | waitForDuration (seconds : Int)
  /-- `types.SetEngineEventAttributes(.., msg, "Normal", ..)` followed by
  `events.GenerateEvents(.., "ChaosEngine")` -/
  | generateEvents (msg : String)
  /-- `common.SetTargets(target, chaosStatus, kind, chaosDetails)` -/
  | setTargets (target chaosStatus kind : String)
  /-- `probe.RunProbes(.., phase, ..)` -/
  | runProbes (phase : String)
  /-- `log.Errorf(format, err)`: the format string and the error logged -/
  | logErrorf (format : String) (err : GoError)
  /-- `awslib.EC2Stop(id, region)` -/
  | ec2Stop (id region : String)
  /-- `awslib.EC2Start(id, region)` -/
  | ec2Start (id region : String)
  /-- `awslib.WaitForEC2Down(timeout, delay, managedNodegroup, region, id)` -/
  | waitForEC2Down (timeout delay : Int) (managedNodegroup region id : String)
  /-- `awslib.WaitForEC2Up(timeout, delay, managedNodegroup, region, id)` -/
  | waitForEC2Up (timeout delay : Int) (managedNodegroup region id : String)
  /-- `ebs.GetVolumeAttachmentDetails(volumeID, volumeTag, region)` -/
  | getVolumeAttachmentDetails (volumeID volumeTag region : String)
  /-- `ebs.EBSVolumeDetach(volumeID, region)` -/
  | ebsVolumeDetach (volumeID region : String)
  /-- `ebs.CheckEBSDetachmentInitialisation(volumeIDs, instanceIDs, region)` -/
  | checkEBSDetachmentInitialisation (volumeIDs instanceIDs : List String) (region : String)
  /-- `ebs.WaitForVolumeDetachment(volumeID, ec2InstanceID, region, delay, timeout)` -/
  | waitForVolumeDetachment (volumeID ec2InstanceID region : String) (delay timeout : Int)
  /-- `ebs.GetEBSStatus(volumeID, ec2InstanceID, region)` -/
  | getEBSStatus (volumeID ec2InstanceID region : String)
  /-- `ebs.EBSVolumeAttach(volumeID, ec2InstanceID, device, region)` -/
  | ebsVolumeAttach (volumeID ec2InstanceID device region : String)
  /-- `ebs.WaitForVolumeAttachment(volumeID, ec2InstanceID, region, delay, timeout)` -/
  | waitForVolumeAttachment (volumeID ec2InstanceID region : String) (delay timeout : Int)
  /-- `litmusexec.Exec` on pod `podName`, container `container`, namespace `ns` -/
  | exec (podName container ns : String) (command : List String)
  /-- `signal.Notify(signChan, os.Interrupt, syscall.SIGTERM)` -/
  | signalNotify
  /-- `go stressCPU(.., podName, ns, ..)`: one stress goroutine is started -/
  | goStressCPU (podName ns container : String)
  /-- `time.After(d)`: the timer armed at the top of a wait loop, `d` in nanoseconds -/
  | timeAfter (d : Int)
  /-- `types.SetResultAfterCompletion(resultDetails, verdict, phase, failStep, errCode)`
  with `failStep, errCode := cerrors.GetRootCauseAndErrorCode(cause, chaosPhase)` -/
  | setResultAfterCompletion (verdict phase : String) (cause : GoError) (chaosPhase : String)
  /-- `result.ChaosResult(.., state)` -/
  | chaosResult (state : String)
  /-- `signal.Notify(channel, os.Interrupt, syscall.SIGTERM)` on the package-level
  channel named `channel` -/
  | notify (channel : String)
  /-- `go ebsloss.AbortWatcher(.., volumeIDList, ..)`: the abort watcher is started -/
  | goAbortWatcher (volumeIDList : List String)
  /-- `awslib.GetInstanceList(instanceTag, region)` -/
  | getInstanceList (instanceTag region : String)
  /-- `awslib.GetEC2InstanceStatus(id, region)` -/
  | getEC2InstanceStatus (id region : String)
  /-- `parseCommand(url, resultDetails)` -/
  | parseCommand (url : String)
  /-- `client.Get(url)` -/
  | clientGet (url : String)
  /-- `client.Post(url, contentType, strings.NewReader(body))` -/
  | clientPost (url contentType body : String)
  /-- `exec.Command("/bin/sh", "-c", command)` run to its end -/
  | execCommand (command : String)
  /-- `getAndIncrementRunCount(resultDetails, name)` -/
  | getAndIncrementRunCount (name : String)
  /-- `setProbeDescription(resultDetails, probe, description)` -/
  | setProbeDescription (name description : String)
  /-- `markedVerdictInEnd(err, resultDetails, probe, phase)` -/
  | markedVerdictInEnd (err : Option GoError) (name phase : String)
  /-- `checkForErrorInContinuousProbe(resultDetails, name, delay, timeout)` -/
  | checkForErrorInContinuousProbe (name : String) (delay timeout : Int)
  /-- `stopChaosEngine(probe, clients, chaosresult, chaosDetails)` -/
  | stopChaosEngine (name : String)
  /-- `go triggerContinuousHTTPProbe(probe, ..)` -/
  | goTriggerContinuousHTTPProbe (name : String)
  /-- `go triggerOnChaosHTTPProbe(probe, ..)` -/
  | goTriggerOnChaosHTTPProbe (name : String)
  /-- a call made by the main function of an experiment -/
  | experiment (call : ExperimentCall)
  deriving DecidableEq, Repr

/-- The case taken by the `select` of the pod-cpu-hog-exec wait loops. -/
inductive Selected where
  /-- `case err := <-stressErr`: a stress command ended with this result -/
  | stressErr (err : Option GoError)
  /-- `case <-signChan`: an abort signal arrived -/
  | signChan
  /-- `case <-endTime`: the chaos duration is over -/
  | endTime
  deriving DecidableEq, Repr

/-- The collaborators, as oracles over the history of calls (newest call first,
the call being answered at the head). -/
structure Env where
  /-- the error the call returns, `none` for a nil error -/
  err : List Event → Option GoError
  /-- nanoseconds the call takes, besides any requested sleep -/
  cost : List Event → Nat
  /-- whether an interrupt is delivered to the process during the call -/
  signal : List Event → Bool
  /-- the `(ec2InstanceID, device)` returned by `GetVolumeAttachmentDetails` -/
  attachment : List Event → String × String
  /-- the state returned by `GetEBSStatus` -/
  ebsState : List Event → String
  /-- the standard output returned by `litmusexec.Exec` -/
  execOut : List Event → String
  /-- which case of a `select` over `stressErr`, `signChan` and `endTime` is
  taken by the wait that follows the history -/
  selected : List Event → Selected
  /-- the text `err.Error()` of an error value (the error types are declared
  outside the sources) -/
  errorText : GoError → String
  /-- the instance ids returned by `GetInstanceList` -/
  instanceList : List Event → List String := fun _ => []
  /-- the state returned by `GetEC2InstanceStatus` -/
  instanceState : List Event → String := fun _ => ""

/-- The observable state of a run. -/
structure World where
  /-- calls made so far, newest first -/
  trace : List Event := []
  /-- monotonic clock, in nanoseconds -/
  clock : Nat := 0
  /-- a signal is buffered on the `inject` channel (capacity 1) -/
  inject : Bool := false
  deriving DecidableEq, Repr

/-- How a sequencer run ends. -/
inductive Outcome where
  /-- the function returned this error (`none` is nil) -/
  | returned (err : Option GoError)
  /-- `os.Exit(code)` -/
  | exited (code : Nat)
  /-- the model ran out of fuel: the duration loop was still running -/
  | outOfFuel
  /-- a run-time panic (a nil pointer is dereferenced) -/
  | panicked
  deriving DecidableEq, Repr

/-- Perform the external call `e`: it is appended to the trace, the clock moves
by the time the call takes, and an interrupt delivered meanwhile is buffered. -/
def World.step (env : Env) (e : Event) (w : World) : World :=
  { trace := e :: w.trace
    clock := w.clock + env.cost (e :: w.trace)
    inject := w.inject || env.signal (e :: w.trace) }

/-- An external call that returns an `error`. -/
def World.call (env : Env) (e : Event) (w : World) : Option GoError × World :=
  (env.err (e :: w.trace), w.step env e)

/-- Go `int64` wrap-around. -/
def wrapInt64 (x : Int) : Int := (x + 2 ^ 63) % 2 ^ 64 - 2 ^ 63

/-- Nanoseconds in `time.Second`. -/
def Second : Int := 1000000000

/-- `time.Sleep(d)`: pauses for at least `d`; returns at once when `d <= 0`. -/
def World.sleep (env : Env) (d : Int) (w : World) : World :=
  let w1 := w.step env (.sleep d)
  { w1 with clock := w1.clock + d.toNat }

/-- Modelled from the spec: `common.WaitForDuration` (package `pkg/utils/common`
is not part of the sources); it waits the given number of seconds, as
`time.Sleep(time.Duration(seconds) * time.Second)`. -/
def World.waitForDuration (env : Env) (seconds : Int) (w : World) : World :=
  let w1 := w.step env (.waitForDuration seconds)
  { w1 with clock := w1.clock + (wrapInt64 (seconds * Second)).toNat }

/-- `ChaosStartTimeStamp := time.Now()`: the stamp read and the world after. -/
def World.timeNow (env : Env) (w : World) : Nat × World :=
  ((w.step env .timeNow).clock, w.step env .timeNow)

/-- `int(time.Since(start).Seconds())`: whole seconds elapsed since `start`. -/
def World.timeSince (env : Env) (start : Nat) (w : World) : Int × World :=
  ((((w.step env .timeSince).clock - start) / 1000000000 : Nat), w.step env .timeSince)

/-- Log the error of a call whose failure is not returned: `log.Errorf(format, err)`
under `if err != nil`. -/
def logIfError (env : Env) (format : String) (r : Option GoError × World) : World :=
  match r with
  | (some err, w) => w.step env (.logErrorf format err)
  | (none, w) => w

/-- The chaos status most recently recorded for `id` by `common.SetTargets`
in the trace `t` (newest first), if any. -/
def lastState : List Event → String → Option String
  | [], _ => none
  | .setTargets target chaosStatus _ :: rest, id =>
    if target = id then some chaosStatus else lastState rest id
  | _ :: rest, id => lastState rest id

/-- The pieces of `s` between the occurrences of the character `sep`, with the
piece `cur` read so far in front of the first one. -/
def splitChars (sep : Char) : List Char → List Char → List (List Char)
  | cur, [] => [cur]
  | cur, c :: cs => if c = sep then cur :: splitChars sep [] cs else splitChars sep (cur ++ [c]) cs

/-- Go `strings.Split(s, sep)` for a separator `sep` of one character: the
substrings of `s` between the separators (one substring, `s` itself, when the
separator does not occur). -/
def stringsSplit (s : String) (sep : Char) : List String :=
  (splitChars sep [] s.toList).map String.mk

/-- Go `strings.ToLower(s)`, on ASCII letters. -/
def stringsToLower (s : String) : String := String.mk (s.toList.map Char.toLower)

/-- Entries of `resultDetails.ProbeDetails`. -/
structure ProbeDetails where
  Name : String := ""
  HasProbeCompleted : Bool := false
  IsProbeFailedWithError : Option GoError := none
  Description : String := ""
  deriving DecidableEq, Repr

/-- The part of `types.ResultDetails` the sequencers read. -/
structure ResultDetails where
  ProbeDetails : List ProbeDetails := []

/-! ## ec2-terminate-by-tag -/

namespace EC2TerminateByTag

/-- The fields of `experimentTypes.ExperimentDetails` the sequencers read. -/
structure ExperimentDetails where
  ExperimentName : String := ""
  EngineName : String := ""
  ChaosDuration : Int := 0
  ChaosInterval : Int := 0
  Timeout : Int := 0
  Delay : Int := 0
  ManagedNodegroup : String := ""
  Region : String := ""
  InstanceTag : String := ""
  TargetInstanceIDList : List String := []

/-- Lines 88-92: the ChaosInject event, generated when an engine is set. -/
def injectEvent (env : Env) (exp : ExperimentDetails) (w : World) : World :=
  if exp.EngineName ≠ "" then
    w.step env (.generateEvents ("Injecting " ++ exp.ExperimentName ++ " chaos on ec2 instance"))
  else w

/-- Lines 123-136 of `injectChaosInSerialMode`: start the instance back, unless
the node group is managed, and record the target as reverted. -/
def serialRevert (env : Env) (exp : ExperimentDetails) (id : String) (w : World) :
    Option GoError × World :=
  if exp.ManagedNodegroup ≠ "enable" then
    match w.call env (.ec2Start id exp.Region) with
    | (some err, w1) => (some (.propagate err "ec2 instance failed to start"), w1)
    | (none, w1) =>
      match w1.call env (.waitForEC2Up exp.Timeout exp.Delay exp.ManagedNodegroup exp.Region id) with
      | (some err, w2) => (some (.propagate err "ec2 instance failed to start"), w2)
      | (none, w2) => (none, w2.step env (.setTargets id "reverted" "EC2"))
  else (none, w.step env (.setTargets id "reverted" "EC2"))

/-- Lines 96-136: the body of `for i, id := range instanceIDList` in
`injectChaosInSerialMode`. -/
def serialTarget (env : Env) (exp : ExperimentDetails) (resultDetails : ResultDetails)
    (i : Nat) (id : String) (w : World) : Option GoError × World :=
  match w.call env (.ec2Stop id exp.Region) with
  | (some err, w1) => (some (.propagate err "ec2 instance failed to stop"), w1)
  | (none, w1) =>
    let w2 := w1.step env (.setTargets id "injected" "EC2")
    match w2.call env (.waitForEC2Down exp.Timeout exp.Delay exp.ManagedNodegroup exp.Region id) with
    | (some err, w3) => (some (.propagate err "ec2 instance failed to stop"), w3)
    | (none, w3) =>
      if resultDetails.ProbeDetails.length ≠ 0 ∧ i = 0 then
        match w3.call env (.runProbes "DuringChaos") with
        | (some err, w4) => (some (.propagate err "failed to run probes"), w4)
        | (none, w4) =>
          serialRevert env exp id (w4.sleep env (wrapInt64 (exp.ChaosInterval * Second)))
      else
        serialRevert env exp id (w3.sleep env (wrapInt64 (exp.ChaosInterval * Second)))

/-- Lines 95-137: `for i, id := range instanceIDList`, from index `i` on. -/
def serialTargets (env : Env) (exp : ExperimentDetails) (resultDetails : ResultDetails) :
    Nat → List String → World → Option GoError × World
  | _, [], w => (none, w)
  | i, id :: rest, w =>
    match serialTarget env exp resultDetails i id w with
    | (some err, w1) => (some err, w1)
    | (none, w1) => serialTargets env exp resultDetails (i + 1) rest w1

/-- Lines 84-139: `for duration < experimentsDetails.ChaosDuration`, entered
with the current value of `duration`; `fuel` bounds the number of passes. -/
def serialLoop (env : Env) (exp : ExperimentDetails) (resultDetails : ResultDetails)
    (instanceIDList : List String) (start : Nat) (fuel : Nat) (duration : Int) (w : World) :
    Outcome × World :=
    if duration < exp.ChaosDuration then
      match fuel with
      | 0 => (.outOfFuel, w)
      | fuel + 1 =>
        match serialTargets env exp resultDetails 0 instanceIDList (injectEvent env exp w) with
        | (some err, w1) => (.returned (some err), w1)
        | (none, w1) =>
          serialLoop env exp resultDetails instanceIDList start fuel
            (w1.timeSince env start).1 (w1.timeSince env start).2
    else (.returned none, w)

/-- Function `injectChaosInSerialMode` (lines 73-142). -/
def injectChaosInSerialMode (env : Env) (exp : ExperimentDetails)
    (instanceIDList : List String) (resultDetails : ResultDetails) (fuel : Nat) (w : World) :
    Outcome × World :=
  if w.inject then (.exited 0, { w with inject := false })
  else
    let start := (w.timeNow env).1
    let w1 := (w.timeNow env).2
    serialLoop env exp resultDetails instanceIDList start fuel
      (w1.timeSince env start).1 (w1.timeSince env start).2

/-- Lines 166-173 of `injectChaosInParallelMode`: stop every instance. -/
def parallelStop (env : Env) (exp : ExperimentDetails) :
    List String → World → Option GoError × World
  | [], w => (none, w)
  | id :: rest, w =>
    match w.call env (.ec2Stop id exp.Region) with
    | (some err, w1) => (some (.propagate err "ec2 instance failed to stop"), w1)
    | (none, w1) => parallelStop env exp rest (w1.step env (.setTargets id "injected" "EC2"))

/-- Lines 175-181: wait for every instance to be stopped. -/
def parallelWaitDown (env : Env) (exp : ExperimentDetails) :
    List String → World → Option GoError × World
  | [], w => (none, w)
  | id :: rest, w =>
    match w.call env (.waitForEC2Down exp.Timeout exp.Delay exp.ManagedNodegroup exp.Region id) with
    | (some err, w1) => (some (.propagate err "ec2 instance failed to stop"), w1)
    | (none, w1) => parallelWaitDown env exp rest w1

/-- Lines 197-202: start every instance. -/
def parallelStart (env : Env) (exp : ExperimentDetails) :
    List String → World → Option GoError × World
  | [], w => (none, w)
  | id :: rest, w =>
    match w.call env (.ec2Start id exp.Region) with
    | (some err, w1) => (some (.propagate err "ec2 instance failed to start"), w1)
    | (none, w1) => parallelStart env exp rest w1

/-- Lines 204-210: wait for every instance to be running. -/
def parallelWaitUp (env : Env) (exp : ExperimentDetails) :
    List String → World → Option GoError × World
  | [], w => (none, w)
  | id :: rest, w =>
    match w.call env (.waitForEC2Up exp.Timeout exp.Delay exp.ManagedNodegroup exp.Region id) with
    | (some err, w1) => (some (.propagate err "ec2 instance failed to start"), w1)
    | (none, w1) => parallelWaitUp env exp rest w1

/-- Lines 212-214: record every instance as reverted. -/
def parallelSetReverted (env : Env) : List String → World → World
  | [], w => w
  | id :: rest, w => parallelSetReverted env rest (w.step env (.setTargets id "reverted" "EC2"))

/-- Lines 194-214: the revert phase of one pass. -/
def parallelRevert (env : Env) (exp : ExperimentDetails) (instanceIDList : List String)
    (w : World) : Option GoError × World :=
  if exp.ManagedNodegroup ≠ "enable" then
    match parallelStart env exp instanceIDList w with
    | (some err, w1) => (some err, w1)
    | (none, w1) =>
      match parallelWaitUp env exp instanceIDList w1 with
      | (some err, w2) => (some err, w2)
      | (none, w2) => (none, parallelSetReverted env instanceIDList w2)
  else (none, parallelSetReverted env instanceIDList w)

/-- Lines 157-214: one pass of the duration loop of `injectChaosInParallelMode`. -/
def parallelPass (env : Env) (exp : ExperimentDetails) (resultDetails : ResultDetails)
    (instanceIDList : List String) (w : World) : Option GoError × World :=
  match parallelStop env exp instanceIDList (injectEvent env exp w) with
  | (some err, w1) => (some err, w1)
  | (none, w1) =>
    match parallelWaitDown env exp instanceIDList w1 with
    | (some err, w2) => (some err, w2)
    | (none, w2) =>
      if resultDetails.ProbeDetails.length ≠ 0 then
        match w2.call env (.runProbes "DuringChaos") with
        | (some err, w3) => (some (.propagate err "failed to run probes"), w3)
        | (none, w3) =>
          parallelRevert env exp instanceIDList
            (w3.sleep env (wrapInt64 (exp.ChaosInterval * Second)))
      else
        parallelRevert env exp instanceIDList
          (w2.sleep env (wrapInt64 (exp.ChaosInterval * Second)))

/-- Lines 156-216: the duration loop of `injectChaosInParallelMode`. -/
def parallelLoop (env : Env) (exp : ExperimentDetails) (resultDetails : ResultDetails)
    (instanceIDList : List String) (start : Nat) (fuel : Nat) (duration : Int) (w : World) :
    Outcome × World :=
    if duration < exp.ChaosDuration then
      match fuel with
      | 0 => (.outOfFuel, w)
      | fuel + 1 =>
        match parallelPass env exp resultDetails instanceIDList w with
        | (some err, w1) => (.returned (some err), w1)
        | (none, w1) =>
          parallelLoop env exp resultDetails instanceIDList start fuel
            (w1.timeSince env start).1 (w1.timeSince env start).2
    else (.returned none, w)

/-- Function `injectChaosInParallelMode` (lines 145-219). -/
def injectChaosInParallelMode (env : Env) (exp : ExperimentDetails)
    (instanceIDList : List String) (resultDetails : ResultDetails) (fuel : Nat) (w : World) :
    Outcome × World :=
  if w.inject then (.exited 0, { w with inject := false })
  else
    let start := (w.timeNow env).1
    let w1 := (w.timeNow env).2
    parallelLoop env exp resultDetails instanceIDList start fuel
      (w1.timeSince env start).1 (w1.timeSince env start).2

/-- Lines 235-243 of `SetTargetInstance`: `for _, id := range instanceIDList`,
with the `TargetInstanceIDList` built so far. -/
def selectRunning (env : Env) (exp : ExperimentDetails) :
    List String → List String → World → Option GoError × List String × World
  | [], targets, w => (none, targets, w)
  | id :: rest, targets, w =>
    let instanceState := env.instanceState (.getEC2InstanceStatus id exp.Region :: w.trace)
    match w.call env (.getEC2InstanceStatus id exp.Region) with
    | (some err, w1) =>
      (some (.propagate err
        "failed to get the instance status while selecting the target instances"), targets, w1)
    | (none, w1) =>
      if instanceState = "running" then selectRunning env exp rest (targets ++ [id]) w1
      else selectRunning env exp rest targets w1

/-- Function `SetTargetInstance` (lines 222-257); the experiment details are
returned as the function leaves them. -/
def SetTargetInstance (env : Env) (exp : ExperimentDetails) (w : World) :
    Option GoError × ExperimentDetails × World :=
  let instanceIDList := env.instanceList (.getInstanceList exp.InstanceTag exp.Region :: w.trace)
  match w.call env (.getInstanceList exp.InstanceTag exp.Region) with
  | (some err, w1) => (some (.propagate err "failed to get the instance id list"), exp, w1)
  | (none, w1) =>
    if instanceIDList.length = 0 then
      (some (.cerror .ErrorTypeTargetSelection ""
        ("no instance found with the given tag " ++ exp.InstanceTag ++ ", in region "
          ++ exp.Region)), exp, w1)
    else
      match selectRunning env exp instanceIDList exp.TargetInstanceIDList w1 with
      | (some err, targets, w2) => (some err, { exp with TargetInstanceIDList := targets }, w2)
      | (none, targets, w2) =>
        if targets.length = 0 then
          (some (.cerror .ErrorTypeChaosInject ("EC2 Instance Tag: " ++ exp.InstanceTag)
            "failed to get any running instance"), { exp with TargetInstanceIDList := targets }, w2)
        else (none, { exp with TargetInstanceIDList := targets }, w2)

end EC2TerminateByTag

/-! ## ebs-loss -/

namespace EBSLoss

/-- The fields of `experimentTypes.ExperimentDetails` the sequencers read. -/
structure ExperimentDetails where
  ExperimentName : String := ""
  EngineName : String := ""
  ChaosDuration : Int := 0
  ChaosInterval : Int := 0
  Timeout : Int := 0
  Delay : Int := 0
  Region : String := ""
  VolumeTag : String := ""
  EBSVolumeID : String := ""
  Sequence : String := ""
  RampTime : Int := 0

/-- Lines 29-33 and 108-112: the ChaosInject event, generated when an engine is set. -/
def injectEvent (env : Env) (exp : ExperimentDetails) (w : World) : World :=
  if exp.EngineName ≠ "" then
    w.step env (.generateEvents ("Injecting " ++ exp.ExperimentName ++ " chaos on ec2 instance"))
  else w

/-- Lines 68-90 of `InjectChaosInSerialMode` and the body, lines 166-188, of the
revert loop of `InjectChaosInParallelMode`: query the status of the volume,
attach it back unless it is reported `attached`, record it as reverted. -/
def revertVolume (env : Env) (exp : ExperimentDetails) (volumeID ec2InstanceID device : String)
    (w : World) : Option GoError × World :=
  let ebsState := env.ebsState (.getEBSStatus volumeID ec2InstanceID exp.Region :: w.trace)
  match w.call env (.getEBSStatus volumeID ec2InstanceID exp.Region) with
  | (some err, w1) => (some (.propagate err "failed to get the ebs status"), w1)
  | (none, w1) =>
    if ebsState = "attached" then
      (none, w1.step env (.setTargets volumeID "reverted" "EBS"))
    else
      match w1.call env (.ebsVolumeAttach volumeID ec2InstanceID device exp.Region) with
      | (some err, w2) => (some (.propagate err "ebs attachment failed"), w2)
      | (none, w2) =>
        match w2.call env
            (.waitForVolumeAttachment volumeID ec2InstanceID exp.Region exp.Delay exp.Timeout) with
        | (some err, w3) => (some (.propagate err "ebs attachment failed"), w3)
        | (none, w3) => (none, w3.step env (.setTargets volumeID "reverted" "EBS"))

/-- Lines 35-90: the body of `for i, volumeID := range targetEBSVolumeIDList` in
`InjectChaosInSerialMode`. -/
def serialTarget (env : Env) (exp : ExperimentDetails) (resultDetails : ResultDetails)
    (i : Nat) (volumeID : String) (w : World) : Option GoError × World :=
  let ec2InstanceID :=
    (env.attachment (.getVolumeAttachmentDetails volumeID exp.VolumeTag exp.Region :: w.trace)).1
  let device :=
    (env.attachment (.getVolumeAttachmentDetails volumeID exp.VolumeTag exp.Region :: w.trace)).2
  match w.call env (.getVolumeAttachmentDetails volumeID exp.VolumeTag exp.Region) with
  | (some err, w1) => (some (.propagate err "failed to get the attachment info"), w1)
  | (none, w1) =>
    match w1.call env (.ebsVolumeDetach volumeID exp.Region) with
    | (some err, w2) => (some (.propagate err "ebs detachment failed"), w2)
    | (none, w2) =>
      let w3 := w2.step env (.setTargets volumeID "injected" "EBS")
      match w3.call env
          (.waitForVolumeDetachment volumeID ec2InstanceID exp.Region exp.Delay exp.Timeout) with
      | (some err, w4) => (some (.propagate err "ebs detachment failed"), w4)
      | (none, w4) =>
        if resultDetails.ProbeDetails.length ≠ 0 ∧ i = 0 then
          match w4.call env (.runProbes "DuringChaos") with
          | (some err, w5) => (some (.propagate err "failed to run probes"), w5)
          | (none, w5) =>
            revertVolume env exp volumeID ec2InstanceID device
              (w5.waitForDuration env exp.ChaosInterval)
        else
          revertVolume env exp volumeID ec2InstanceID device
            (w4.waitForDuration env exp.ChaosInterval)

/-- Lines 34-91: `for i, volumeID := range targetEBSVolumeIDList`, from index `i` on. -/
def serialTargets (env : Env) (exp : ExperimentDetails) (resultDetails : ResultDetails) :
    Nat → List String → World → Option GoError × World
  | _, [], w => (none, w)
  | i, volumeID :: rest, w =>
    match serialTarget env exp resultDetails i volumeID w with
    | (some err, w1) => (some err, w1)
    | (none, w1) => serialTargets env exp resultDetails (i + 1) rest w1

/-- Lines 27-93: `for duration < experimentsDetails.ChaosDuration`, entered with
the current value of `duration`; `fuel` bounds the number of passes. -/
def serialLoop (env : Env) (exp : ExperimentDetails) (resultDetails : ResultDetails)
    (targetEBSVolumeIDList : List String) (start : Nat) (fuel : Nat) (duration : Int)
    (w : World) : Outcome × World :=
    if duration < exp.ChaosDuration then
      match fuel with
      | 0 => (.outOfFuel, w)
      | fuel + 1 =>
        match serialTargets env exp resultDetails 0 targetEBSVolumeIDList
            (injectEvent env exp w) with
        | (some err, w1) => (.returned (some err), w1)
        | (none, w1) =>
          serialLoop env exp resultDetails targetEBSVolumeIDList start fuel
            (w1.timeSince env start).1 (w1.timeSince env start).2
    else (.returned none, w)

/-- Function `InjectChaosInSerialMode` (lines 21-95). -/
def InjectChaosInSerialMode (env : Env) (exp : ExperimentDetails)
    (targetEBSVolumeIDList : List String) (resultDetails : ResultDetails) (fuel : Nat)
    (w : World) : Outcome × World :=
  let start := (w.timeNow env).1
  let w1 := (w.timeNow env).2
  serialLoop env exp resultDetails targetEBSVolumeIDList start fuel
    (w1.timeSince env start).1 (w1.timeSince env start).2

/-- The slices `ec2InstanceIDList` and `deviceList` of `InjectChaosInParallelMode`. -/
structure Attachments where
  ec2InstanceIDList : List String := []
  deviceList : List String := []
  deriving DecidableEq, Repr

/-- Lines 115-129: fetch the attachment details of every volume and append them
to the two slices. -/
def parallelPrepare (env : Env) (exp : ExperimentDetails) :
    List String → Attachments → World → Option GoError × Attachments × World
  | [], att, w => (none, att, w)
  | volumeID :: rest, att, w =>
    let ec2InstanceID :=
      (env.attachment (.getVolumeAttachmentDetails volumeID exp.VolumeTag exp.Region :: w.trace)).1
    let device :=
      (env.attachment (.getVolumeAttachmentDetails volumeID exp.VolumeTag exp.Region :: w.trace)).2
    match w.call env (.getVolumeAttachmentDetails volumeID exp.VolumeTag exp.Region) with
    | (some err, w1) => (some (.propagate err "failed to get the attachment info"), att, w1)
    | (none, w1) =>
      if ec2InstanceID = "" ∨ device = "" then
        (some (.cerror .ErrorTypeChaosInject ("EBS Volume ID: " ++ volumeID)
          "Volume not attached to any instance"), att, w1)
      else
        parallelPrepare env exp rest
          { ec2InstanceIDList := att.ec2InstanceIDList ++ [ec2InstanceID]
            deviceList := att.deviceList ++ [device] } w1

/-- Lines 131-138: detach every volume. -/
def parallelDetach (env : Env) (exp : ExperimentDetails) :
    List String → World → Option GoError × World
  | [], w => (none, w)
  | volumeID :: rest, w =>
    match w.call env (.ebsVolumeDetach volumeID exp.Region) with
    | (some err, w1) => (some (.propagate err "ebs detachment failed"), w1)
    | (none, w1) =>
      parallelDetach env exp rest (w1.step env (.setTargets volumeID "injected" "EBS"))

/-- Lines 145-151: wait for the detachment of every volume; `ec2InstanceIDList[i]`
is in range because the slice has at least one entry per target once the
prepare loop has succeeded (an index out of range reads as the empty string). -/
def parallelWaitDetach (env : Env) (exp : ExperimentDetails) (att : Attachments) :
    Nat → List String → World → Option GoError × World
  | _, [], w => (none, w)
  | i, volumeID :: rest, w =>
    match w.call env (.waitForVolumeDetachment volumeID (att.ec2InstanceIDList.getD i "")
        exp.Region exp.Delay exp.Timeout) with
    | (some err, w1) => (some (.propagate err "ebs detachment failed"), w1)
    | (none, w1) => parallelWaitDetach env exp att (i + 1) rest w1

/-- Lines 164-189: the revert loop `for i, volumeID := range targetEBSVolumeIDList`,
from index `i` on. -/
def parallelRevert (env : Env) (exp : ExperimentDetails) (att : Attachments) :
    Nat → List String → World → Option GoError × World
  | _, [], w => (none, w)
  | i, volumeID :: rest, w =>
    match revertVolume env exp volumeID (att.ec2InstanceIDList.getD i "")
        (att.deviceList.getD i "") w with
    | (some err, w1) => (some err, w1)
    | (none, w1) => parallelRevert env exp att (i + 1) rest w1

/-- Lines 108-189: one pass of the duration loop of `InjectChaosInParallelMode`;
the slices are carried from pass to pass. -/
def parallelPass (env : Env) (exp : ExperimentDetails) (resultDetails : ResultDetails)
    (targetEBSVolumeIDList : List String) (att : Attachments) (w : World) :
    Option GoError × Attachments × World :=
  match parallelPrepare env exp targetEBSVolumeIDList att (injectEvent env exp w) with
  | (some err, att1, w1) => (some err, att1, w1)
  | (none, att1, w1) =>
    match parallelDetach env exp targetEBSVolumeIDList w1 with
    | (some err, w2) => (some err, att1, w2)
    | (none, w2) =>
      match w2.call env (.checkEBSDetachmentInitialisation targetEBSVolumeIDList
          att1.ec2InstanceIDList exp.Region) with
      | (some err, w3) => (some (.propagate err "failed to initialise the detachment"), att1, w3)
      | (none, w3) =>
        match parallelWaitDetach env exp att1 0 targetEBSVolumeIDList w3 with
        | (some err, w4) => (some err, att1, w4)
        | (none, w4) =>
          if resultDetails.ProbeDetails.length ≠ 0 then
            match w4.call env (.runProbes "DuringChaos") with
            | (some err, w5) => (some (.propagate err "failed to run probes"), att1, w5)
            | (none, w5) =>
              match parallelRevert env exp att1 0 targetEBSVolumeIDList
                  (w5.waitForDuration env exp.ChaosInterval) with
              | (err, w6) => (err, att1, w6)
          else
            match parallelRevert env exp att1 0 targetEBSVolumeIDList
                (w4.waitForDuration env exp.ChaosInterval) with
            | (err, w6) => (err, att1, w6)

/-- Lines 106-191: the duration loop of `InjectChaosInParallelMode`. -/
def parallelLoop (env : Env) (exp : ExperimentDetails) (resultDetails : ResultDetails)
    (targetEBSVolumeIDList : List String) (start : Nat) (fuel : Nat) (duration : Int)
    (att : Attachments) (w : World) : Outcome × World :=
    if duration < exp.ChaosDuration then
      match fuel with
      | 0 => (.outOfFuel, w)
      | fuel + 1 =>
        match parallelPass env exp resultDetails targetEBSVolumeIDList att w with
        | (some err, _, w1) => (.returned (some err), w1)
        | (none, att1, w1) =>
          parallelLoop env exp resultDetails targetEBSVolumeIDList start fuel
            (w1.timeSince env start).1 att1 (w1.timeSince env start).2
    else (.returned none, w)

/-- Function `InjectChaosInParallelMode` (lines 98-193). -/
def InjectChaosInParallelMode (env : Env) (exp : ExperimentDetails)
    (targetEBSVolumeIDList : List String) (resultDetails : ResultDetails) (fuel : Nat)
    (w : World) : Outcome × World :=
  let start := (w.timeNow env).1
  let w1 := (w.timeNow env).2
  parallelLoop env exp resultDetails targetEBSVolumeIDList start fuel
    (w1.timeSince env start).1 {} (w1.timeSince env start).2

/-- Lines 202-228: the body of `for _, volumeID := range volumeIDList` in
`AbortWatcher`. -/
def abortVolume (env : Env) (exp : ExperimentDetails) (volumeID : String) (w : World) : World :=
  let instanceID :=
    (env.attachment (.getVolumeAttachmentDetails volumeID exp.VolumeTag exp.Region :: w.trace)).1
  let deviceName :=
    (env.attachment (.getVolumeAttachmentDetails volumeID exp.VolumeTag exp.Region :: w.trace)).2
  let w1 := logIfError env "Failed to get the attachment info: %v"
    (w.call env (.getVolumeAttachmentDetails volumeID exp.VolumeTag exp.Region))
  let ebsState := env.ebsState (.getEBSStatus exp.EBSVolumeID instanceID exp.Region :: w1.trace)
  let w2 := logIfError env "Failed to get the ebs status when an abort signal is received: %v"
    (w1.call env (.getEBSStatus exp.EBSVolumeID instanceID exp.Region))
  if ebsState ≠ "attached" then
    let w3 := logIfError env "Unable to detach the ebs volume: %v"
      (w2.call env
        (.waitForVolumeDetachment exp.EBSVolumeID instanceID exp.Region exp.Delay exp.Timeout))
    let w4 := logIfError env "EBS attachment failed when an abort signal is received: %v"
      (w3.call env (.ebsVolumeAttach exp.EBSVolumeID instanceID deviceName exp.Region))
    w4.step env (.setTargets volumeID "reverted" "EBS")
  else
    w2.step env (.setTargets volumeID "reverted" "EBS")

/-- Lines 201-229: `for _, volumeID := range volumeIDList`. -/
def abortVolumes (env : Env) (exp : ExperimentDetails) : List String → World → World
  | [], w => w
  | volumeID :: rest, w => abortVolumes env exp rest (abortVolume env exp volumeID w)

/-- Function `AbortWatcher` (lines 196-232), from the moment the abort signal
has been received on `abort`. -/
def AbortWatcher (env : Env) (exp : ExperimentDetails) (volumeIDList : List String)
    (w : World) : Outcome × World :=
  (.exited 1, abortVolumes env exp volumeIDList w)

/-- Lines 38-42 and 72-75 of `PrepareEBSLossByID`: the ramp time is waited for
when it is not zero. -/
def rampWait (env : Env) (exp : ExperimentDetails) (w : World) : World :=
  if exp.RampTime ≠ 0 then w.waitForDuration env exp.RampTime else w

/-- Lines 58-75 of `PrepareEBSLossByID`: the outcome of the sequencer is wrapped
with `msg` when it is an error, and followed by the ramp wait when it is nil. -/
def afterSequence (env : Env) (exp : ExperimentDetails) (msg : String) (r : Outcome × World) :
    Outcome × World :=
  match r with
  | (.returned (some err), w) => (.returned (some (.propagate err msg)), w)
  | (.returned none, w) => (.returned none, rampWait env exp w)
  | (o, w) => (o, w)

/-- Function `PrepareEBSLossByID` (ebs-loss-by-id.go, lines 26-78). -/
def PrepareEBSLossByID (env : Env) (exp : ExperimentDetails) (resultDetails : ResultDetails)
    (fuel : Nat) (w : World) : Outcome × World :=
  let w1 := rampWait env exp ((w.step env (.notify "inject")).step env (.notify "abort"))
  if w1.inject then (.exited 0, { w1 with inject := false })
  else
    let volumeIDList := stringsSplit exp.EBSVolumeID ','
    if volumeIDList.length = 0 then
      (.returned (some (.cerror .ErrorTypeTargetSelection "" "no volume id found to detach")), w1)
    else
      let w2 := w1.step env (.goAbortWatcher volumeIDList)
      if stringsToLower exp.Sequence = "serial" then
        afterSequence env exp "could not run chaos in serial mode"
          (InjectChaosInSerialMode env exp volumeIDList resultDetails fuel w2)
      else if stringsToLower exp.Sequence = "parallel" then
        afterSequence env exp "could not run chaos in parallel mode"
          (InjectChaosInParallelMode env exp volumeIDList resultDetails fuel w2)
      else
        (.returned (some (.cerror .ErrorTypeTargetSelection ""
          ("'" ++ exp.Sequence ++ "' sequence is not supported"))), w2)

end EBSLoss

/-! ## pod-cpu-hog-exec -/

namespace PodCPUHogExec

/-- The fields of `experimentTypes.ExperimentDetails` the sequencers read;
`TargetContainer` is written by them. -/
structure ExperimentDetails where
  ExperimentName : String := ""
  EngineName : String := ""
  ChaosDuration : Int := 0
  CPUcores : Int := 0
  ChaosInjectCmd : String := ""
  ChaosKillCmd : String := ""
  TargetContainer : String := ""
  IsTargetContainerProvided : Bool := false

/-- The fields of a `corev1.Pod` the sequencers read; `Containers` holds the
names of `pod.Spec.Containers`. -/
structure Pod where
  Name : String := ""
  Namespace : String := ""
  Containers : List String := []
  deriving DecidableEq, Repr

/-- The field of `types.ChaosDetails` the sequencers read. -/
structure ChaosDetails where
  Phase : String := ""

/-- Function `killStressCPUSerial` (lines 292-305). -/
def killStressCPUSerial (env : Env) (exp : ExperimentDetails) (podName ns : String) (w : World) :
    Option GoError × World :=
  let out := env.execOut
    (.exec podName exp.TargetContainer ns ["/bin/sh", "-c", exp.ChaosKillCmd] :: w.trace)
  match w.call env (.exec podName exp.TargetContainer ns ["/bin/sh", "-c", exp.ChaosKillCmd]) with
  | (some _, w1) =>
    (some (.cerror .ErrorTypeChaosRevert
      ("\x7bpodName: " ++ podName ++ ", namespace: " ++ ns ++ "\x7d")
      ("failed to revert chaos: " ++ out)), w1)
  | (none, w1) => (none, w1.step env (.setTargets podName "reverted" "pod"))

/-- Lines 311-315 of `killStressCPUParallel`: `for _, pod := range
targetPodList.Items`, with the `errList` collected so far. -/
def killStressCPULoop (env : Env) (exp : ExperimentDetails) :
    List Pod → List String → World → List String × World
  | [], errList, w => (errList, w)
  | pod :: rest, errList, w =>
    match killStressCPUSerial env exp pod.Name pod.Namespace w with
    | (some err, w1) => killStressCPULoop env exp rest (errList ++ [env.errorText err]) w1
    | (none, w1) => killStressCPULoop env exp rest errList w1

/-- Function `killStressCPUParallel` (lines 309-320). -/
def killStressCPUParallel (env : Env) (exp : ExperimentDetails) (targetPodList : List Pod)
    (w : World) : Option GoError × World :=
  let errList := (killStressCPULoop env exp targetPodList [] w).1
  let w1 := (killStressCPULoop env exp targetPodList [] w).2
  if errList.length ≠ 0 then
    (some (.preserve ("[" ++ String.intercalate "," errList ++ "]")), w1)
  else (none, w1)

/-- Lines 131-135 and 227-231: the ChaosInject event, generated when an engine is set. -/
def injectEvent (env : Env) (exp : ExperimentDetails) (pod : Pod) (w : World) : World :=
  if exp.EngineName ≠ "" then
    w.step env (.generateEvents
      ("Injecting " ++ exp.ExperimentName ++ " chaos on " ++ pod.Name ++ " pod"))
  else w

/-- Lines 138-140 and 233-235: the target container defaults to the first
container of the pod.  On a pod that lists no container the index expression
`pod.Spec.Containers[0]` is out of range and the function panics: the result
is `none`. -/
def setTargetContainer (exp : ExperimentDetails) (pod : Pod) : Option ExperimentDetails :=
  if !exp.IsTargetContainerProvided then
    match pod.Containers with
    | [] => none
    | container :: _ => some { exp with TargetContainer := container }
  else some exp

/-- Lines 148-150 and 242-244: `go stressCPU(..)` once per core, `n` cores left. -/
def startStress (env : Env) (exp : ExperimentDetails) (pod : Pod) : Nat → World → World
  | 0, w => w
  | n + 1, w =>
    startStress env exp pod n (w.step env (.goStressCPU pod.Name pod.Namespace exp.TargetContainer))

/-- Lines 171-184 and 266-279, after the revert: the verdict `Stopped` is set
from an aborted-experiment error, the chaos result is written, and the process
exits with code 1. -/
def stopAfterAbort (env : Env) (chaosDetails : ChaosDetails) (target : String) (w : World) :
    Outcome × World :=
  let w1 := w.step env (.setResultAfterCompletion "Stopped" "Stopped"
    (.cerror .ErrorTypeExperimentAborted target "experiment is aborted") chaosDetails.Phase)
  (.exited 1, logIfError env "failed to update chaos result %s" (w1.call env (.chaosResult "EOT")))

/-- Lines 156-190: the wait loop of `injectChaosInSerialMode` on pod `pod`.
`pending` is the number of stress goroutines that have not yet sent their result
on `stressErr`; with none left only the signal or the timer can be selected.
The result is `none` when the loop is left by `break loop`. -/
def serialWait (env : Env) (exp : ExperimentDetails) (chaosDetails : ChaosDetails) (pod : Pod)
    (pending : Nat) (w : World) : Option Outcome × World :=
    let w1 := w.step env (.timeAfter (wrapInt64 (exp.ChaosDuration * Second)))
    match env.selected w1.trace, pending with
    | .stressErr (some err), _ + 1 =>
      if "137".toList <:+: (env.errorText err).toList then (some (.returned none), w1)
      else
        (some (.returned (some (.cerror .ErrorTypeChaosInject
          ("podName: " ++ pod.Name ++ ", namespace: " ++ pod.Namespace ++ ", container: "
            ++ exp.TargetContainer)
          ("failed to stress cpu of target pod: " ++ env.errorText err)))), w1)
    | .stressErr none, pending + 1 => serialWait env exp chaosDetails pod pending w1
    | .signChan, _ =>
      let w2 := logIfError env "Error in Kill stress after abortion, err: %v"
        (killStressCPUSerial env exp pod.Name pod.Namespace w1)
      let r := stopAfterAbort env chaosDetails
        ("\x7bpodName: " ++ pod.Name ++ ", namespace: " ++ pod.Namespace ++ ", container: "
          ++ exp.TargetContainer ++ "\x7d") w2
      (some r.1, r.2)
    | _, _ => (none, w1)

/-- Lines 126-194: `for _, pod := range targetPodList.Items` of
`injectChaosInSerialMode`. -/
def serialPods (env : Env) (chaosDetails : ChaosDetails) :
    List Pod → ExperimentDetails → World → Outcome × World
  | [], _, w => (.returned none, w)
  | pod :: rest, exp, w =>
    let w1 := injectEvent env exp pod w
    match setTargetContainer exp pod with
    | none => (.panicked, w1)
    | some exp1 =>
      let w2 := startStress env exp1 pod exp1.CPUcores.toNat w1
      let w3 := w2.step env (.setTargets pod.Name "injected" "pod")
      match serialWait env exp1 chaosDetails pod exp1.CPUcores.toNat w3 with
      | (some o, w4) => (o, w4)
      | (none, w4) =>
        match killStressCPUSerial env exp1 pod.Name pod.Namespace w4 with
        | (some err, w5) => (.returned (some (.propagate err "could not revert cpu stress")), w5)
        | (none, w5) => serialPods env chaosDetails rest exp1 w5

/-- Lines 105-110 and 204-209: the DuringChaos probes are run when there are
probes; the result is the error returned, if any. -/
def runProbesDuringChaos (env : Env) (resultDetails : ResultDetails) (w : World) :
    Option GoError × World :=
  if resultDetails.ProbeDetails.length ≠ 0 then w.call env (.runProbes "DuringChaos")
  else (none, w)

/-- Function `injectChaosInSerialMode` (lines 103-197). -/
def injectChaosInSerialMode (env : Env) (exp : ExperimentDetails) (targetPodList : List Pod)
    (resultDetails : ResultDetails) (chaosDetails : ChaosDetails) (w : World) : Outcome × World :=
  match runProbesDuringChaos env resultDetails w with
  | (some err, w1) => (.returned (some err), w1)
  | (none, w1) =>
    let w2 := w1.step env .signalNotify
    if w2.inject then
      (.exited 0, World.sleep env (10 * Second) { w2 with inject := false })
    else serialPods env chaosDetails targetPodList exp w2

/-- Lines 225-246: `for _, pod := range targetPodList.Items` of
`injectChaosInParallelMode`; the experiment details as left by the loop are
returned with the world, and `none` when the loop panics. -/
def parallelPods (env : Env) :
    List Pod → ExperimentDetails → World → Option ExperimentDetails × World
  | [], exp, w => (some exp, w)
  | pod :: rest, exp, w =>
    let w1 := injectEvent env exp pod w
    match setTargetContainer exp pod with
    | none => (none, w1)
    | some exp1 =>
      let w2 := startStress env exp1 pod exp1.CPUcores.toNat w1
      parallelPods env rest exp1 (w2.step env (.setTargets pod.Name "injected" "pod"))

/-- Lines 251-285: the wait loop of `injectChaosInParallelMode`; `pending` and
the result are as in `serialWait`. -/
def parallelWait (env : Env) (exp : ExperimentDetails) (chaosDetails : ChaosDetails)
    (targetPodList : List Pod) (pending : Nat) (w : World) : Option Outcome × World :=
    let w1 := w.step env (.timeAfter (wrapInt64 (exp.ChaosDuration * Second)))
    match env.selected w1.trace, pending with
    | .stressErr (some err), _ + 1 =>
      if "137".toList <:+: (env.errorText err).toList then (some (.returned none), w1)
      else
        (some (.returned (some (.cerror .ErrorTypeChaosInject ""
          ("failed to stress cpu of target pod: " ++ env.errorText err)))), w1)
    | .stressErr none, pending + 1 => parallelWait env exp chaosDetails targetPodList pending w1
    | .signChan, _ =>
      let w2 := logIfError env "Error in Kill stress after abortion, err: %v"
        (killStressCPUParallel env exp targetPodList w1)
      let r := stopAfterAbort env chaosDetails "" w2
      (some r.1, r.2)
    | _, _ => (none, w1)

/-- Function `injectChaosInParallelMode` (lines 200-287). -/
def injectChaosInParallelMode (env : Env) (exp : ExperimentDetails) (targetPodList : List Pod)
    (resultDetails : ResultDetails) (chaosDetails : ChaosDetails) (w : World) : Outcome × World :=
  match runProbesDuringChaos env resultDetails w with
  | (some err, w1) => (.returned (some err), w1)
  | (none, w1) =>
    let w2 := w1.step env .signalNotify
    if w2.inject then
      (.exited 0, World.sleep env (10 * Second) { w2 with inject := false })
    else
      match parallelPods env targetPodList exp w2 with
      | (none, w3) => (.panicked, w3)
      | (some exp1, w3) =>
        match parallelWait env exp1 chaosDetails targetPodList
            (exp1.CPUcores.toNat * targetPodList.length) w3 with
        | (some o, w4) => (o, w4)
        | (none, w4) =>
          (.returned (killStressCPUParallel env exp1 targetPodList w4).1,
            (killStressCPUParallel env exp1 targetPodList w4).2)

end PodCPUHogExec

/-! ## The HTTP probe (pkg/probe/httpprobe.go) -/

namespace HTTPProbe

/-- `v1alpha1.GetMethod`. -/
structure GetMethod where
  Criteria : String := ""
  ResponseCode : String := ""
  deriving DecidableEq, Repr

/-- `v1alpha1.PostMethod`. -/
structure PostMethod where
  ContentType : String := ""
  Body : String := ""
  BodyPath : String := ""
  Criteria : String := ""
  ResponseCode : String := ""
  deriving DecidableEq, Repr

/-- `v1alpha1.HTTPMethod`.  The declaration is outside the sources; `Post` is a
pointer, since `httpPost` hands it to `getHTTPBody(httpBody *v1alpha1.PostMethod, ..)`,
and `Get` is taken to be one as well (`none` is the nil pointer: the method is
not configured). -/
structure HTTPMethod where
  Get : Option GetMethod := none
  Post : Option PostMethod := none
  deriving DecidableEq, Repr

/-- `v1alpha1.HTTPProbeInputs`. -/
structure HTTPProbeInputs where
  URL : String := ""
  InsecureSkipVerify : Bool := false
  Method : HTTPMethod := {}
  deriving DecidableEq, Repr

/-- The fields of `v1alpha1.RunProperty` the file reads. -/
structure RunProperty where
  Attempt : Int := 0
  Retry : Int := 0
  StopOnFailure : Bool := false
  Verbosity : String := ""
  deriving DecidableEq, Repr

/-- The fields of `v1alpha1.ProbeAttributes` the file reads. -/
structure ProbeAttributes where
  Name : String := ""
  Mode : String := ""
  Inputs : HTTPProbeInputs := {}
  RunProperties : RunProperty := {}
  deriving DecidableEq, Repr

/-- `types.ProbeTimeouts`, as returned by `getProbeTimeouts`: durations in
nanoseconds. -/
structure ProbeTimeouts where
  ProbeTimeout : Int := 0
  Interval : Int := 0
  ProbePollingInterval : Int := 0
  InitialDelay : Int := 0
  deriving DecidableEq, Repr

/-- The fields of `types.ChaosDetails` the file reads. -/
structure ChaosDetails where
  Phase : String := ""
  ChaosDuration : Int := 0
  Delay : Int := 0
  Timeout : Int := 0

/-- The collaborators of the HTTP probe: the oracles of `Env`, the values
returned by the calls recorded in the trace, and the pure helpers of package
`probe`, `cerrors`, `utils` and `comparator` that are declared outside the
sources. -/
structure ProbeEnv extends Env where
  /-- the command returned by `parseCommand` -/
  parsed : List Event → String
  /-- the status code of the response to `client.Get` or `client.Post` -/
  statusCode : List Event → Int
  /-- the run count returned by `getAndIncrementRunCount` -/
  runCount : List Event → Int
  /-- the standard output of the command run by `getHTTPBody` -/
  commandOut : List Event → String
  /-- the error output of the command run by `getHTTPBody` -/
  commandErrOut : List Event → String
  /-- whether `chaosDetails.ProbeContext.Ctx` is cancelled when a `select` reads
  `Ctx.Done()` after the history -/
  ctxDone : List Event → Bool
  /-- `getProbeTimeouts(name, probeDetails)` -/
  getProbeTimeouts : String → List ProbeDetails → ProbeTimeouts
  /-- `getAttempts(attempt, retry)` -/
  getAttempts : Int → Int → Int
  /-- `addProbePhase(err, phase)` -/
  addProbePhase : GoError → String → GoError
  /-- `getDescription(err)` -/
  getDescription : GoError → String
  /-- `cerrors.GetErrorType(err)` -/
  getErrorType : GoError → ErrorType
  /-- `utils.HttpTimeout(err)` -/
  httpTimeout : GoError → Bool
  /-- the comparison `cmp.RunCount(rc).FirstValue(first).SecondValue(second)
  .Criteria(criteria).ProbeName(name).ProbeVerbosity(verbosity)
  .CompareInt(cerrors.FailureTypeHttpProbe)` -/
  compareInt : Int → String → String → String → String → String → Option GoError

/-- The state the functions of the file work on. -/
structure State where
  /-- the trace, the clock and the signal channel -/
  world : World := {}
  /-- `resultDetails.ProbeDetails`, as written by the code of this file (the
  writes of helpers declared elsewhere are calls in the trace) -/
  ProbeDetails : List ProbeDetails := []
  /-- the package-level variable `err` -/
  err : Option GoError := none

/-- Perform an external call in the world of the state. -/
def State.step (penv : ProbeEnv) (e : Event) (s : State) : State :=
  { s with world := s.world.step penv.toEnv e }

/-- `time.Sleep(d)` in the world of the state. -/
def State.sleep (penv : ProbeEnv) (d : Int) (s : State) : State :=
  { s with world := s.world.sleep penv.toEnv d }

/-- The Go values handed to `reflect.DeepEqual` in the file, with their types. -/
inductive GoValue where
  /-- a value of type `*v1alpha1.GetMethod` -/
  | getMethodPtr (p : Option GetMethod)
  /-- a value of type `v1alpha1.GetMethod` -/
  | getMethod (v : GetMethod)

/-- `reflect.DeepEqual(x, y)`: values of distinct types are never deeply equal;
structs are deeply equal when their fields are; pointers when both are nil or
they point to deeply equal values. -/
def deepEqual : GoValue → GoValue → Bool
  | .getMethod a, .getMethod b => a = b
  | .getMethodPtr a, .getMethodPtr b => a = b
  | _, _ => false

/-- Function `getHTTPMethodType` (lines 98-103). -/
def getHTTPMethodType (httpMethod : HTTPMethod) : String :=
  if !deepEqual (.getMethodPtr httpMethod.Get) (.getMethod {}) then "Get" else "Post"

/-- `fmt.Sprintf("{name: %v}", name)`. -/
def nameTarget (name : String) : String := "\x7bname: " ++ name ++ "\x7d"

/-- The description of a successful request (lines 139 and 185). -/
def successDescription (url code expected : String) : String :=
  "The URL " ++ url ++ " did respond with correct status code. Actual code: '" ++ code
    ++ "'. Expected code: '" ++ expected ++ "'"

/-- Lines 118-123 and 165-170: the error returned when the request fails. -/
def requestError (penv : ProbeEnv) (name : String) (err : GoError) : GoError :=
  if penv.httpTimeout err then
    .cerror .FailureTypeHttpProbe (nameTarget name) (penv.errorText err)
  else .cerror .ErrorTypeHttpProbe (nameTarget name) (penv.errorText err)

/-- Go `uint(x)` of an `int`. -/
def uintOf (x : Int) : Nat := (x % 2 ^ 64).toNat

/-- Modelled from the spec: `retry.Times(n).Wait(wait).Try(action)` (package
`pkg/utils/retry` is not part of the sources): up to `n` attempts, separated by
a wait of `wait`; the result is nil at the first attempt that succeeds, and the
error of the last attempt once all of them are exhausted.  An attempt yields
its result and the description it has set. -/
def retryTry (penv : ProbeEnv) (wait : Int) (action : State → Outcome × String × State) :
    Nat → State → Outcome × String × State
  | 0, s => (.returned none, "", s)
  | 1, s => action s
  | n + 2, s =>
    match action s with
    | (.returned (some _), _, s1) => retryTry penv wait action (n + 1) (s1.sleep penv wait)
    | r => r

/-- Lines 116-140: one attempt of `httpGet`. -/
def httpGetAttempt (penv : ProbeEnv) (probe : ProbeAttributes) (s : State) :
    Outcome × String × State :=
  let code := toString (penv.statusCode (.clientGet probe.Inputs.URL :: s.world.trace))
  match s.world.call penv.toEnv (.clientGet probe.Inputs.URL) with
  | (some err, w1) => (.returned (some (requestError penv probe.Name err)), "", { s with world := w1 })
  | (none, w1) =>
    let rc := penv.runCount (.getAndIncrementRunCount probe.Name :: w1.trace)
    let w2 := w1.step penv.toEnv (.getAndIncrementRunCount probe.Name)
    match probe.Inputs.Method.Get with
    | none => (.panicked, "", { s with world := w2 })
    | some get =>
      match penv.compareInt rc code get.ResponseCode get.Criteria probe.Name
          probe.RunProperties.Verbosity with
      | some err =>
        (.returned (some err), "",
          State.step penv (.logErrorf "The %v http probe get method has Failed, err: %v" err)
            { s with world := w2 })
      | none =>
        (.returned none, successDescription probe.Inputs.URL code get.ResponseCode,
          { s with world := w2 })

/-- Lines 144-145 and 190-191, after the retries: the description is set when
they succeeded, the error is returned otherwise. -/
def afterRetry (penv : ProbeEnv) (probe : ProbeAttributes) (r : Outcome × String × State) :
    Outcome × State :=
  match r with
  | (.returned none, description, s) =>
    (.returned none, s.step penv (.setProbeDescription probe.Name description))
  | (o, _, s) => (o, s)

/-- Function `httpGet` (lines 106-146). -/
def httpGet (penv : ProbeEnv) (probe : ProbeAttributes) (s : State) : Outcome × State :=
  afterRetry penv probe
    (retryTry penv (penv.getProbeTimeouts probe.Name s.ProbeDetails).Interval
      (httpGetAttempt penv probe)
      (uintOf (penv.getAttempts probe.RunProperties.Attempt probe.RunProperties.Retry)) s)

/-- Function `getHTTPBody` (lines 197-220), on a non-nil `httpBody`: the body
and the error, with the world after. -/
def getHTTPBody (penv : ProbeEnv) (httpBody : PostMethod) (probeName : String) (w : World) :
    String × Option GoError × World :=
  if httpBody.Body ≠ "" then (httpBody.Body, none, w)
  else if httpBody.BodyPath ≠ "" then
    let out := penv.commandOut (.execCommand ("cat " ++ httpBody.BodyPath) :: w.trace)
    let errOut := penv.commandErrOut (.execCommand ("cat " ++ httpBody.BodyPath) :: w.trace)
    match w.call penv.toEnv (.execCommand ("cat " ++ httpBody.BodyPath)) with
    | (some err, w1) =>
      ("", some (.cerror .ErrorTypeHttpProbe (nameTarget probeName)
        ("unable to run command, err: " ++ penv.errorText err ++ "; error output: "
          ++ errOut)), w1)
    | (none, w1) => (out, none, w1)
  else
    ("", some (.cerror .ErrorTypeHttpProbe (nameTarget probeName)
      "[Probe]: Any one of body or bodyPath is required"), w)

/-- Lines 164-186: one attempt of `httpPost`, with the body `body` and the
Post method `post`. -/
def httpPostAttempt (penv : ProbeEnv) (probe : ProbeAttributes) (post : PostMethod)
    (body : String) (s : State) : Outcome × String × State :=
  let code := toString (penv.statusCode
    (.clientPost probe.Inputs.URL post.ContentType body :: s.world.trace))
  match s.world.call penv.toEnv (.clientPost probe.Inputs.URL post.ContentType body) with
  | (some err, w1) => (.returned (some (requestError penv probe.Name err)), "", { s with world := w1 })
  | (none, w1) =>
    let rc := penv.runCount (.getAndIncrementRunCount probe.Name :: w1.trace)
    let w2 := w1.step penv.toEnv (.getAndIncrementRunCount probe.Name)
    match penv.compareInt rc code post.ResponseCode post.Criteria probe.Name
        probe.RunProperties.Verbosity with
    | some err =>
      (.returned (some err), "",
        State.step penv (.logErrorf "The %v http probe post method has Failed, err: %v" err)
          { s with world := w2 })
    | none =>
      match probe.Inputs.Method.Get with
      | none => (.panicked, "", { s with world := w2 })
      | some get =>
        (.returned none, successDescription probe.Inputs.URL code get.ResponseCode,
          { s with world := w2 })

/-- Function `httpPost` (lines 149-192); a nil `Method.Post` is dereferenced by
`getHTTPBody`. -/
def httpPost (penv : ProbeEnv) (probe : ProbeAttributes) (s : State) : Outcome × State :=
  match probe.Inputs.Method.Post with
  | none => (.panicked, s)
  | some post =>
    match getHTTPBody penv post probe.Name s.world with
    | (_, some err, w1) => (.returned (some err), { s with world := w1 })
    | (body, none, w1) =>
      afterRetry penv probe
        (retryTry penv (penv.getProbeTimeouts probe.Name s.ProbeDetails).Interval
          (httpPostAttempt penv probe post body)
          (uintOf (penv.getAttempts probe.RunProperties.Attempt probe.RunProperties.Retry))
          { s with world := w1 })

/-- Function `triggerHTTPProbe` (lines 49-94).  The result of `parseCommand` is
assigned to the package-level `err`; the fields of the configured method are
read for the log line before the request is made, which dereferences the
method pointer. -/
def triggerHTTPProbe (penv : ProbeEnv) (probe : ProbeAttributes) (s : State) : Outcome × State :=
  let url := penv.parsed (.parseCommand probe.Inputs.URL :: s.world.trace)
  match s.world.call penv.toEnv (.parseCommand probe.Inputs.URL) with
  | (some err, w1) => (.returned (some err), { s with world := w1, err := some err })
  | (none, w1) =>
    if getHTTPMethodType probe.Inputs.Method = "Get" then
      match probe.Inputs.Method.Get with
      | none => (.panicked, { s with world := w1, err := none })
      | some _ =>
        httpGet penv { probe with Inputs := { probe.Inputs with URL := url } }
          { s with world := w1, err := none }
    else if getHTTPMethodType probe.Inputs.Method = "Post" then
      match probe.Inputs.Method.Post with
      | none => (.panicked, { s with world := w1, err := none })
      | some _ =>
        httpPost penv { probe with Inputs := { probe.Inputs with URL := url } }
          { s with world := w1, err := none }
    else (.returned none, { s with world := w1, err := none })

/-- Lines 240-244, 392-396 and 417-421: every entry of the probe is marked as
completed. -/
def markCompleted (name : String) (details : List ProbeDetails) : List ProbeDetails :=
  details.map fun d => if d.Name = name then { d with HasProbeCompleted := true } else d

/-- Lines 251-260 and 403-411: the first entry of the probe, if there is one,
receives the error, the completion flag and the description; `none` when no
entry carries the name of the probe. -/
def recordFailure (name : String) (err : GoError) (description : String) :
    List ProbeDetails → Option (List ProbeDetails)
  | [] => none
  | d :: rest =>
    if d.Name = name then
      some ({ d with IsProbeFailedWithError := some err, HasProbeCompleted := true,
                     Description := description } :: rest)
    else (recordFailure name err description rest).map (d :: ·)

/-- Lines 227-230, 293-296, 341-344 and 376-378: the initial delay is waited for
when it is not zero. -/
def waitInitialDelay (penv : ProbeEnv) (probe : ProbeAttributes) (s : State) : State :=
  if (penv.getProbeTimeouts probe.Name s.ProbeDetails).InitialDelay ≠ 0 then
    s.sleep penv (penv.getProbeTimeouts probe.Name s.ProbeDetails).InitialDelay
  else s

/-- Lines 236-265: the loop of `triggerContinuousHTTPProbe`; the result holds
`isExperimentFailed`.  The polling interval is the one read at entry. -/
def continuousLoop (penv : ProbeEnv) (probe : ProbeAttributes) (chaosDetails : ChaosDetails)
    (pollingInterval : Int) (fuel : Nat) (s : State) : Outcome × Bool × State :=
  if penv.ctxDone s.world.trace then
    (.returned none, false, { s with ProbeDetails := markCompleted probe.Name s.ProbeDetails })
  else
    match fuel with
    | 0 => (.outOfFuel, false, s)
    | fuel + 1 =>
      match triggerHTTPProbe penv probe s with
      | (.returned (some err), s1) =>
        match recordFailure probe.Name (penv.addProbePhase err chaosDetails.Phase)
            (penv.getDescription (penv.addProbePhase err chaosDetails.Phase)) s1.ProbeDetails with
        | some details =>
          (.returned none, true,
            State.step penv (.logErrorf "The %v http probe has been Failed, err: %v"
                (penv.addProbePhase err chaosDetails.Phase))
              { s1 with ProbeDetails := details,
                        err := some (penv.addProbePhase err chaosDetails.Phase) })
        | none =>
          continuousLoop penv probe chaosDetails pollingInterval fuel
            (State.sleep penv pollingInterval
              { s1 with err := some (penv.addProbePhase err chaosDetails.Phase) })
      | (.returned none, s1) =>
        continuousLoop penv probe chaosDetails pollingInterval fuel
          (State.sleep penv pollingInterval { s1 with err := none })
      | (o, s1) => (o, false, s1)

/-- Lines 269-273 and 432-436: the chaos engine is patched to stop when the
experiment failed and `StopOnFailure` is set; an error of the patch is logged. -/
def stopOnFailure (penv : ProbeEnv) (probe : ProbeAttributes) (format : String)
    (r : Outcome × Bool × State) : Outcome × State :=
  match r with
  | (.returned none, isExperimentFailed, s) =>
    if isExperimentFailed && probe.RunProperties.StopOnFailure then
      (.returned none,
        { s with world :=
            (logIfError penv.toEnv format (s.world.call penv.toEnv (.stopChaosEngine probe.Name))) })
    else (.returned none, s)
  | (o, _, s) => (o, s)

/-- Function `triggerContinuousHTTPProbe` (lines 223-274). -/
def triggerContinuousHTTPProbe (penv : ProbeEnv) (probe : ProbeAttributes)
    (chaosDetails : ChaosDetails) (fuel : Nat) (s : State) : Outcome × State :=
  stopOnFailure penv probe "Unable to patch chaosengine to stop, err: %v"
    (continuousLoop penv probe chaosDetails
      (penv.getProbeTimeouts probe.Name s.ProbeDetails).ProbePollingInterval fuel
      (waitInitialDelay penv probe s))

/-- Lines 298-306 and 347-355: the probe is evaluated once; an error that is
not a probe failure is returned, any other result is handed to
`markedVerdictInEnd`, whose error is returned. -/
def evaluateOnce (penv : ProbeEnv) (probe : ProbeAttributes) (phase : String) (s : State) :
    Outcome × State :=
  match triggerHTTPProbe penv probe s with
  | (.returned (some err), s1) =>
    if penv.getErrorType err ≠ .FailureTypeHttpProbe then
      (.returned (some err), { s1 with err := some err })
    else
      (.returned (penv.err (.markedVerdictInEnd (some err) probe.Name phase :: s1.world.trace)),
        { s1 with
          world := s1.world.step penv.toEnv (.markedVerdictInEnd (some err) probe.Name phase),
          err := penv.err (.markedVerdictInEnd (some err) probe.Name phase :: s1.world.trace) })
  | (.returned none, s1) =>
    (.returned (penv.err (.markedVerdictInEnd none probe.Name phase :: s1.world.trace)),
      { s1 with
        world := s1.world.step penv.toEnv (.markedVerdictInEnd none probe.Name phase),
        err := penv.err (.markedVerdictInEnd none probe.Name phase :: s1.world.trace) })
  | (o, s1) => (o, s1)

/-- Function `preChaosHTTPProbe` (lines 277-322). -/
def preChaosHTTPProbe (penv : ProbeEnv) (probe : ProbeAttributes) (s : State) : Outcome × State :=
  if probe.Mode = "SOT" ∨ probe.Mode = "Edge" then
    evaluateOnce penv probe "PreChaos" (waitInitialDelay penv probe s)
  else if probe.Mode = "Continuous" then
    (.returned none, s.step penv (.goTriggerContinuousHTTPProbe probe.Name))
  else (.returned none, s)

/-- Lines 356-364 of `postChaosHTTPProbe`: the error met by a continuous probe
during the chaos is fetched and handed to `markedVerdictInEnd`. -/
def checkContinuous (penv : ProbeEnv) (probe : ProbeAttributes) (delay timeout : Int)
    (s : State) : Outcome × State :=
  match s.world.call penv.toEnv (.checkForErrorInContinuousProbe probe.Name delay timeout) with
  | (some err, w1) =>
    if penv.getErrorType err ≠ .FailureTypeHttpProbe ∧
        penv.getErrorType err ≠ .FailureTypeProbeTimeout then
      (.returned (some err), { s with world := w1, err := some err })
    else
      (.returned (penv.err (.markedVerdictInEnd (some err) probe.Name "PostChaos" :: w1.trace)),
        { s with
          world := w1.step penv.toEnv (.markedVerdictInEnd (some err) probe.Name "PostChaos"),
          err := penv.err (.markedVerdictInEnd (some err) probe.Name "PostChaos" :: w1.trace) })
  | (none, w1) =>
    (.returned (penv.err (.markedVerdictInEnd none probe.Name "PostChaos" :: w1.trace)),
      { s with
        world := w1.step penv.toEnv (.markedVerdictInEnd none probe.Name "PostChaos"),
        err := penv.err (.markedVerdictInEnd none probe.Name "PostChaos" :: w1.trace) })

/-- Function `postChaosHTTPProbe` (lines 325-367). -/
def postChaosHTTPProbe (penv : ProbeEnv) (probe : ProbeAttributes) (delay timeout : Int)
    (s : State) : Outcome × State :=
  if probe.Mode = "EOT" ∨ probe.Mode = "Edge" then
    evaluateOnce penv probe "PostChaos" (waitInitialDelay penv probe s)
  else if probe.Mode = "Continuous" ∨ probe.Mode = "OnChaos" then
    checkContinuous penv probe delay timeout s
  else (.returned none, s)

/-- Modelled from the spec: `math.Maximum(a, b)` (package `pkg/math` is not part
of the sources), the larger of two integers. -/
def Maximum (a b : Int) : Int := if a > b then a else b

/-- `int(d.Seconds())` for a `time.Duration` `d`: the whole seconds of `d`,
truncated toward zero (the rounding of the intermediate `float64` is left out). -/
def wholeSeconds (d : Int) : Int := d.tdiv 1000000000

/-- Lines 374-380 of `triggerOnChaosHTTPProbe`: the value of `duration` when the
end timer is armed. -/
def remainingDuration (ChaosDuration InitialDelay : Int) : Int :=
  if InitialDelay ≠ 0 then Maximum 0 (wrapInt64 (ChaosDuration - wholeSeconds InitialDelay))
  else ChaosDuration

/-- Line 382: the duration of the end timer, `time.Duration(duration) * time.Second`,
in nanoseconds. -/
def endTimer (ChaosDuration InitialDelay : Int) : Int :=
  wrapInt64 (remainingDuration ChaosDuration InitialDelay * Second)

/-- Lines 387-428: the loop of `triggerOnChaosHTTPProbe`; `deadline` is the
clock value at which the end timer fires, and the result holds
`isExperimentFailed`. -/
def onChaosLoop (penv : ProbeEnv) (probe : ProbeAttributes) (chaosDetails : ChaosDetails)
    (pollingInterval : Int) (deadline : Nat) (fuel : Nat) (s : State) : Outcome × Bool × State :=
  if deadline ≤ s.world.clock then
    (.returned none, false, { s with ProbeDetails := markCompleted probe.Name s.ProbeDetails })
  else
    match fuel with
    | 0 => (.outOfFuel, false, s)
    | fuel + 1 =>
      match triggerHTTPProbe penv probe s with
      | (.returned (some err), s1) =>
        match recordFailure probe.Name (penv.addProbePhase err chaosDetails.Phase)
            (penv.getDescription (penv.addProbePhase err chaosDetails.Phase)) s1.ProbeDetails with
        | some details =>
          (.returned none, true,
            { s1 with ProbeDetails := details,
                      err := some (penv.addProbePhase err chaosDetails.Phase) })
        | none =>
          if penv.ctxDone s1.world.trace then
            (.returned none, false,
              { s1 with ProbeDetails := markCompleted probe.Name s1.ProbeDetails,
                        err := some (penv.addProbePhase err chaosDetails.Phase) })
          else
            onChaosLoop penv probe chaosDetails pollingInterval deadline fuel
              (State.sleep penv pollingInterval
                { s1 with err := some (penv.addProbePhase err chaosDetails.Phase) })
      | (.returned none, s1) =>
        if penv.ctxDone s1.world.trace then
          (.returned none, false,
            { s1 with ProbeDetails := markCompleted probe.Name s1.ProbeDetails, err := none })
        else
          onChaosLoop penv probe chaosDetails pollingInterval deadline fuel
            (State.sleep penv pollingInterval { s1 with err := none })
      | (o, s1) => (o, false, s1)

/-- Line 382: the end timer is armed; the state after, and the clock value at
which the timer fires. -/
def armEndTimer (penv : ProbeEnv) (d : Int) (s : State) : State × Nat :=
  (s.step penv (.timeAfter d), (s.step penv (.timeAfter d)).world.clock + d.toNat)

/-- Function `triggerOnChaosHTTPProbe` (lines 370-437). -/
def triggerOnChaosHTTPProbe (penv : ProbeEnv) (probe : ProbeAttributes)
    (chaosDetails : ChaosDetails) (fuel : Nat) (s : State) : Outcome × State :=
  let timer := endTimer chaosDetails.ChaosDuration
    (penv.getProbeTimeouts probe.Name s.ProbeDetails).InitialDelay
  let armed := armEndTimer penv timer (waitInitialDelay penv probe s)
  stopOnFailure penv probe "unable to patch chaosengine to stop, err: %v"
    (onChaosLoop penv probe chaosDetails
      (penv.getProbeTimeouts probe.Name s.ProbeDetails).ProbePollingInterval armed.2 fuel armed.1)

/-- Function `onChaosHTTPProbe` (lines 440-456). -/
def onChaosHTTPProbe (penv : ProbeEnv) (probe : ProbeAttributes) (s : State) : State :=
  if probe.Mode = "OnChaos" then s.step penv (.goTriggerOnChaosHTTPProbe probe.Name) else s

/-- Function `prepareHTTPProbe` (lines 29-46). -/
def prepareHTTPProbe (penv : ProbeEnv) (probe : ProbeAttributes) (chaosDetails : ChaosDetails)
    (phase : String) (s : State) : Outcome × State :=
  if stringsToLower phase = "prechaos" then preChaosHTTPProbe penv probe s
  else if stringsToLower phase = "postchaos" then
    postChaosHTTPProbe penv probe chaosDetails.Delay chaosDetails.Timeout s
  else if stringsToLower phase = "duringchaos" then (.returned none, onChaosHTTPProbe penv probe s)
  else
    (.returned (some (.cerror .ErrorTypeHttpProbe (nameTarget probe.Name)
      ("phase '" ++ phase ++ "' not supported in the http probe"))), s)

end HTTPProbe

/-! ## Fixtures: concrete environments used to run the model -/

/-- A plain rendering of error values, used by the concrete environments. -/
def plainText : GoError → String
  | .external msg => msg
  | .propagate cause msg => msg ++ ": " ++ plainText cause
  | .cerror _ _ reason => reason
  | .preserve errString => errString

/-- An environment in which every call succeeds, only the requested waits take
time, no interrupt is delivered, every volume is attached to instance `i-0` as
`/dev/sdf` and is reported `detached`, and the chaos duration of a wait loop
runs out before any stress command ends. -/
def quietEnv : Env where
  err := fun _ => none
  cost := fun _ => 0
  signal := fun _ => false
  attachment := fun _ => ("i-0", "/dev/sdf")
  ebsState := fun _ => "detached"
  execOut := fun _ => ""
  selected := fun _ => .endTime
  errorText := plainText

/-- As `quietEnv`, except that `EC2Stop` fails on instance `i-2`. -/
def stopFailsEnv : Env :=
  { quietEnv with
    err := fun h =>
      match h with
      | .ec2Stop "i-2" _ :: _ => some (.external "stop failed")
      | _ => none }

/-- As `quietEnv`, except that `EBSVolumeAttach` fails on volume `vol-1`. -/
def attachFailsEnv : Env :=
  { quietEnv with
    err := fun h =>
      match h with
      | .ebsVolumeAttach "vol-1" _ _ _ :: _ => some (.external "attach failed")
      | _ => none }

/-- As `quietEnv`, except that every volume is reported `attached`. -/
def attachedEnv : Env :=
  { quietEnv with ebsState := fun _ => "attached" }

/-- A probe environment in which every call succeeds and only the requested
waits take time: every request is answered with status 200, the probe context
is never cancelled, no timeout is configured, the attempts are those of the
`Attempt` field, and a comparison succeeds when the two codes are equal. -/
def quietProbeEnv : HTTPProbe.ProbeEnv where
  toEnv := quietEnv
  parsed := fun h =>
    match h with
    | .parseCommand url :: _ => url
    | _ => ""
  statusCode := fun _ => 200
  runCount := fun _ => 1
  commandOut := fun _ => ""
  commandErrOut := fun _ => ""
  ctxDone := fun _ => false
  getProbeTimeouts := fun _ _ => {}
  getAttempts := fun attempt _ => attempt
  addProbePhase := fun err phase => .propagate err phase
  getDescription := plainText
  getErrorType := fun err =>
    match err with
    | .cerror code _ _ => code
    | _ => .ErrorTypeGeneric
  httpTimeout := fun _ => false
  compareInt := fun _ first second _ name _ =>
    if first = second then none
    else some (.cerror .FailureTypeHttpProbe (HTTPProbe.nameTarget name) "unexpected status code")

/-- A probe with a Get method that expects the status 200, evaluated once per
evaluation. -/
def getProbe : HTTPProbe.ProbeAttributes :=
  { Name := "p", Inputs := { URL := "http://svc", Method := { Get := some { Criteria := "==", ResponseCode := "200" } } },
    RunProperties := { Attempt := 1 } }

/-- The attachment details of two volumes attached to instance `i-0`. -/
def twoAttachments : EBSLoss.Attachments :=
  ⟨["i-0", "i-0"], ["/dev/sdf", "/dev/sdf"]⟩

/-! ## Observations on traces -/

/-- The calls of the trace `t` that `f` selects, renamed by `f`, in
chronological order (oldest first). -/
def chrono {α : Type} (f : Event → Option α) (t : List Event) : List α :=
  t.reverse.filterMap f

namespace EC2TerminateByTag

/-- What is observed of an ec2-terminate-by-tag run: the duration checks and,
per instance, the stop, the start and the record of the revert. -/
inductive Mark where
  /-- `time.Since(ChaosStartTimeStamp)`: the elapsed time is read for the loop test -/
  | check
  /-- `EC2Stop(id, ..)` -/
  | stop (id : String)
  /-- `EC2Start(id, ..)` -/
  | start (id : String)
  /-- `SetTargets(id, "reverted", ..)` -/
  | reverted (id : String)
  deriving DecidableEq, Repr

/-- The observation made of one call. -/
def mark : Event → Option Mark
  | .timeSince => some .check
  | .ec2Stop id _ => some (.stop id)
  | .ec2Start id _ => some (.start id)
  | .setTargets id chaosStatus _ => if chaosStatus = "reverted" then some (.reverted id) else none
  | _ => none

/-- What a whole treatment of instance `id` in serial mode shows: it is stopped,
started back unless the node group is managed, and recorded as reverted. -/
def targetMarks (exp : ExperimentDetails) (id : String) : List Mark :=
  [.stop id] ++ (if exp.ManagedNodegroup ≠ "enable" then [.start id] else []) ++ [.reverted id]

/-- What a whole serial pass over the list shows, with the duration check that ends it. -/
def passMarks (exp : ExperimentDetails) (instanceIDList : List String) : List Mark :=
  instanceIDList.flatMap (targetMarks exp) ++ [.check]

/-- The calls made, in chronological order, by the stop loop of
`injectChaosInParallelMode` on instances that are all stopped successfully. -/
def stopCalls (exp : ExperimentDetails) (ids : List String) : List Event :=
  ids.flatMap fun id => [.ec2Stop id exp.Region, .setTargets id "injected" "EC2"]

/-- What `k` whole serial passes show, one after the other. -/
def passesMarks (exp : ExperimentDetails) (instanceIDList : List String) : Nat → List Mark
  | 0 => []
  | k + 1 => passMarks exp instanceIDList ++ passesMarks exp instanceIDList k

end EC2TerminateByTag

namespace EBSLoss

/-- What is observed of an ebs-loss run: the duration checks, the waits for the
detachment of a volume, and the runs of the DuringChaos probes. -/
inductive Mark where
  /-- `time.Since(ChaosStartTimeStamp)`: the elapsed time is read for the loop test -/
  | check
  /-- `WaitForVolumeDetachment(volumeID, ..)` -/
  | waited (volumeID : String)
  /-- `probe.RunProbes(.., "DuringChaos", ..)` -/
  | probes
  deriving DecidableEq, Repr

/-- The observation made of one call. -/
def mark : Event → Option Mark
  | .timeSince => some .check
  | .waitForVolumeDetachment volumeID _ _ _ _ => some (.waited volumeID)
  | .runProbes phase => if phase = "DuringChaos" then some .probes else none
  | _ => none

/-- What a whole serial pass over the volumes shows when there are probes, with
the duration check that ends it. -/
def passMarks : List String → List Mark
  | [] => [.check]
  | volumeID :: rest => [.waited volumeID, .probes] ++ rest.map .waited ++ [.check]

/-- Selects the calls that attach a volume back or wait for its attachment. -/
def attachMark : Event → Option Event
  | .ebsVolumeAttach volumeID ec2InstanceID device region =>
    some (.ebsVolumeAttach volumeID ec2InstanceID device region)
  | .waitForVolumeAttachment volumeID ec2InstanceID region delay timeout =>
    some (.waitForVolumeAttachment volumeID ec2InstanceID region delay timeout)
  | _ => none

/-- The calls, in chronological order, of a whole revert of volume `volumeID`
that is not reported `attached`. -/
def revertCalls (exp : ExperimentDetails) (volumeID ec2InstanceID device : String) : List Event :=
  [.getEBSStatus volumeID ec2InstanceID exp.Region,
   .ebsVolumeAttach volumeID ec2InstanceID device exp.Region,
   .waitForVolumeAttachment volumeID ec2InstanceID exp.Region exp.Delay exp.Timeout]

/-- What `k` whole serial passes show, one after the other. -/
def passesMarks (targetEBSVolumeIDList : List String) : Nat → List Mark
  | 0 => []
  | k + 1 => passMarks targetEBSVolumeIDList ++ passesMarks targetEBSVolumeIDList k

end EBSLoss

namespace PodCPUHogExec

/-- The revert (`killStressCPUSerial`) attempted on every pod of the list, in
list order, whatever the outcome for the earlier pods: the outcomes pod by pod,
and the world after the last attempt. -/
def revertEveryPod (env : Env) (exp : ExperimentDetails) :
    List Pod → World → List (Option GoError) × World
  | [], w => ([], w)
  | pod :: rest, w =>
    ((killStressCPUSerial env exp pod.Name pod.Namespace w).1 ::
        (revertEveryPod env exp rest (killStressCPUSerial env exp pod.Name pod.Namespace w).2).1,
      (revertEveryPod env exp rest (killStressCPUSerial env exp pod.Name pod.Namespace w).2).2)

/-- The error messages of the failed outcomes, in order. -/
def failedTexts (env : Env) (outcomes : List (Option GoError)) : List String :=
  outcomes.filterMap fun o => o.map env.errorText

/-- Selects the `litmusexec.Exec` calls: the pod and namespace they run in. -/
def execMark : Event → Option (String × String)
  | .exec podName _ ns _ => some (podName, ns)
  | _ => none

end PodCPUHogExec

/-- At most one target has `injected` as its most recently recorded state in `t`. -/
def AtMostOneInjected (t : List Event) : Prop :=
  ∀ a b, lastState t a = some "injected" → lastState t b = some "injected" → a = b

/-- Every target whose most recently recorded state in `t` is `injected` is in `S`. -/
def InjectedWithin (S : List String) (t : List Event) : Prop :=
  ∀ id, lastState t id = some "injected" → id ∈ S

/-- The trace `t` extends `t0`, at every point from `t0` to `t` at most one
target was `injected`, and at `t` the injected targets are within `S`, a list
of at most one target. -/
def Track (t0 : List Event) (S : List String) (t : List Event) : Prop :=
  S.length ≤ 1 ∧ t0 <:+ t ∧ (∀ s, t0 <:+ s → s <:+ t → AtMostOneInjected s) ∧ InjectedWithin S t

/-- As `quietEnv`, except that every wait of a stress loop is ended by the
abort signal. -/
def abortEnv : Env :=
  { quietEnv with selected := fun _ => .signChan }

namespace PodCPUHogExec

/-- Selects the calls of an abort: the exec calls, the verdict and the write of
the chaos result. -/
def abortMark : Event → Option Event
  | .exec podName container ns command => some (.exec podName container ns command)
  | .setResultAfterCompletion verdict phase cause chaosPhase =>
    some (.setResultAfterCompletion verdict phase cause chaosPhase)
  | .chaosResult state => some (.chaosResult state)
  | _ => none

end PodCPUHogExec

/-- An ebs-loss experiment in which no volume id is configured: `EBSVolumeID` is
the empty string, with a chaos duration and interval of one second. -/
def noVolumeExperiment (sequence : String) : EBSLoss.ExperimentDetails :=
  { EBSVolumeID := "", Sequence := sequence, ChaosDuration := 1, ChaosInterval := 1 }

/-- An environment in which the instance tag selects `i-1`, `i-2` and `i-3`, of
which `i-2` is reported `stopped` and the others `running`. -/
def taggedEnv : Env :=
  { quietEnv with
    instanceList := fun _ => ["i-1", "i-2", "i-3"]
    instanceState := fun h =>
      match h with
      | .getEC2InstanceStatus "i-2" _ :: _ => "stopped"
      | _ => "running" }

/-- An environment in which the instance tag selects the single instance `i-1`,
which is reported `stopped`. -/
def stoppedEnv : Env :=
  { quietEnv with
    instanceList := fun _ => ["i-1"]
    instanceState := fun _ => "stopped" }

namespace EC2TerminateByTag

/-- The state reported for each instance of the list by `GetEC2InstanceStatus`,
the calls being made one after the other, in list order, from the world `w`. -/
def observedStates (env : Env) (exp : ExperimentDetails) : List String → World →
    List (String × String)
  | [], _ => []
  | id :: rest, w =>
    (id, env.instanceState (.getEC2InstanceStatus id exp.Region :: w.trace)) ::
      observedStates env exp rest (w.step env (.getEC2InstanceStatus id exp.Region))

/-- The instances of the list that are reported `running`, in list order. -/
def runningInstances (env : Env) (exp : ExperimentDetails) (ids : List String) (w : World) :
    List String :=
  ((observedStates env exp ids w).filter (fun p => p.2 = "running")).map Prod.fst

end EC2TerminateByTag

namespace HTTPProbe

/-- The calls an evaluation of the probe makes once the URL is parsed: the
request, the command that reads the body, the run count, the log of a failed
comparison, the wait between two attempts and the write of the description. -/
def requestEvent : Event → Bool
  | .clientGet _ => true
  | .clientPost _ _ _ => true
  | .execCommand _ => true
  | .getAndIncrementRunCount _ => true
  | .logErrorf _ _ => true
  | .sleep _ => true
  | .setProbeDescription _ _ => true
  | _ => false

/-- An observation of the trace that does not look at the calls made inside an
evaluation of the probe. -/
def IgnoresRequests {α : Type} (m : Event → Option α) : Prop :=
  ∀ e, requestEvent e = true → m e = none

/-- Selects the evaluations of a probe: `triggerHTTPProbe` starts by parsing the
URL of the probe, once per call; the URL parsed is kept. -/
def evalMark : Event → Option String
  | .parseCommand url => some url
  | _ => none

/-- The three phases of a run on one probe, in order: `PreChaos`, `DuringChaos`
and `PostChaos`; the run ends at the first phase that does not return nil. -/
def wholeRun (penv : ProbeEnv) (probe : ProbeAttributes) (chaosDetails : ChaosDetails)
    (s : State) : Outcome × State :=
  match prepareHTTPProbe penv probe chaosDetails "PreChaos" s with
  | (.returned none, s1) =>
    match prepareHTTPProbe penv probe chaosDetails "DuringChaos" s1 with
    | (.returned none, s2) => prepareHTTPProbe penv probe chaosDetails "PostChaos" s2
    | r => r
  | r => r

/-- As `getProbe`, in mode `Edge`. -/
def edgeProbe : ProbeAttributes := { getProbe with Mode := "Edge" }

end HTTPProbe

namespace HTTPProbe

/-- The entry of the probe `name` in `ProbeDetails`: the first one that carries
the name, if any. -/
def probeEntry (name : String) (details : List ProbeDetails) : Option ProbeDetails :=
  details.find? (fun d => d.Name = name)

/-- The probe `name` has an entry in `ProbeDetails`. -/
def Named (name : String) (details : List ProbeDetails) : Prop :=
  ∃ d ∈ details, d.Name = name

/-- A probe environment in which every request is answered with status 500, so
that a probe expecting another status fails at every evaluation. -/
def failingProbeEnv : ProbeEnv :=
  { quietProbeEnv with statusCode := fun _ => 500 }

/-- A state in which the probe `p` has an entry in `ProbeDetails`. -/
def namedState : State := { ProbeDetails := [{ Name := "p" }] }

end HTTPProbe

namespace HTTPProbe

/-- Selects the calls of `stopChaosEngine`: the name of the probe they are made for. -/
def stopMark : Event → Option String
  | .stopChaosEngine name => some name
  | _ => none

/-- As `getProbe`, with `StopOnFailure` set. -/
def stopProbe : ProbeAttributes :=
  { getProbe with RunProperties := { Attempt := 1, StopOnFailure := true } }

/-- As `failingProbeEnv`, the probe context being cancelled once four calls
have been made. -/
def cancelledLaterEnv : ProbeEnv :=
  { failingProbeEnv with ctxDone := fun t => decide (4 ≤ t.length) }

/-- The value of `isExperimentFailed` when the loop of
`triggerContinuousHTTPProbe` is left. -/
def continuousFlag (penv : ProbeEnv) (probe : ProbeAttributes) (chaosDetails : ChaosDetails)
    (fuel : Nat) (s : State) : Bool :=
  (continuousLoop penv probe chaosDetails
    (penv.getProbeTimeouts probe.Name s.ProbeDetails).ProbePollingInterval fuel
    (waitInitialDelay penv probe s)).2.1

/-- The value of `isExperimentFailed` when the loop of `triggerOnChaosHTTPProbe`
is left. -/
def onChaosFlag (penv : ProbeEnv) (probe : ProbeAttributes) (chaosDetails : ChaosDetails)
    (fuel : Nat) (s : State) : Bool :=
  (onChaosLoop penv probe chaosDetails
    (penv.getProbeTimeouts probe.Name s.ProbeDetails).ProbePollingInterval
    (armEndTimer penv
      (endTimer chaosDetails.ChaosDuration
        (penv.getProbeTimeouts probe.Name s.ProbeDetails).InitialDelay)
      (waitInitialDelay penv probe s)).2 fuel
    (armEndTimer penv
      (endTimer chaosDetails.ChaosDuration
        (penv.getProbeTimeouts probe.Name s.ProbeDetails).InitialDelay)
      (waitInitialDelay penv probe s)).1).2.1

end HTTPProbe

namespace HTTPProbe

/-- As `quietProbeEnv`, the probe context being cancelled from the start. -/
def cancelledEnv : ProbeEnv :=
  { quietProbeEnv with ctxDone := fun _ => true }

end HTTPProbe

namespace HTTPProbe

/-- A probe on which only the Post method is configured: `Get` is left unset. -/
def postProbe : ProbeAttributes :=
  { Name := "p",
    Inputs := { URL := "http://svc",
                Method := { Post := some { ContentType := "text/plain", Body := "ping",
                                           Criteria := "==", ResponseCode := "200" } } },
    RunProperties := { Attempt := 1 } }

end HTTPProbe

/-! ## node-memory-hog -/

namespace NodeMemoryHog

/-- The fields of `experimentTypes.ExperimentDetails` that
`calculateMemoryConsumption` reads. -/
structure ExperimentDetails where
  MemoryConsumptionMebibytes : String := ""
  MemoryConsumptionPercentage : String := ""

/-- Go `float64` values.  A finite value is kept as the rational number it
stands for; the sign of zero is not kept.  The operations round their exact
result to the nearest `float64` (`Float64.round`). -/
inductive Float64 where
  /-- a finite value -/
  | finite (q : ℚ)
  /-- `+Inf` -/
  | posInf
  /-- `-Inf` -/
  | negInf
  /-- `NaN` -/
  | nan
  deriving DecidableEq

/-- The integer nearest to `x`; of two integers equally near, the even one. -/
def roundHalfEven (x : ℚ) : Int :=
  if x - ⌊x⌋ < 1 / 2 then ⌊x⌋
  else if 1 / 2 < x - ⌊x⌋ then ⌊x⌋ + 1
  else if ⌊x⌋ % 2 = 0 then ⌊x⌋ else ⌊x⌋ + 1

/-- The exponent of the unit in the last place of the `float64` values around
`q`: 52 below the binary exponent of `q`, and `-1074` in the subnormal range. -/
def ulpExponent (q : ℚ) : Int := max (Int.log 2 |q|) (-1022) - 52

/-- The multiple of the unit in the last place that is nearest to `q` (ties to
even): the `float64` nearest to `q` when it is below `2 ^ 1024`. -/
def nearest (q : ℚ) : ℚ := roundHalfEven (q / 2 ^ ulpExponent q) * 2 ^ ulpExponent q

/-- The rounding of the exact result `q` of an operation to `float64` (IEEE 754
round to nearest, ties to even): an infinity when the nearest value is beyond
the largest finite `float64`. -/
def Float64.round (q : ℚ) : Float64 :=
  if (2 : ℚ) ^ 1024 ≤ nearest q then .posInf
  else if nearest q ≤ -(2 : ℚ) ^ 1024 then .negInf
  else .finite (nearest q)

/-- The conversion `float64(n)` of an `int`: the nearest `float64`, which is
finite. -/
def ofInt (n : Int) : ℚ := nearest n

/-- The value `r` is a multiple of its own unit in the last place: below
`2 ^ 1024` it is a `float64`. -/
def OnGrid (r : ℚ) : Prop := ∃ z : Int, r = z * 2 ^ ulpExponent r

/-- The product `x * c` of a `float64` with a finite one. -/
def Float64.mulFinite (x : Float64) (c : ℚ) : Float64 :=
  match x with
  | .finite q => Float64.round (q * c)
  | .posInf => if 0 < c then .posInf else if c < 0 then .negInf else .nan
  | .negInf => if 0 < c then .negInf else if c < 0 then .posInf else .nan
  | .nan => .nan

/-- The quotient `x / c` of a `float64` by a finite one that is not the
negative zero (the divisors of the source are a constant and converted
integers). -/
def Float64.divFinite (x : Float64) (c : ℚ) : Float64 :=
  match x with
  | .finite q =>
    if c ≠ 0 then Float64.round (q / c)
    else if 0 < q then .posInf else if q < 0 then .negInf else .nan
  | .posInf => if 0 ≤ c then .posInf else .negInf
  | .negInf => if 0 ≤ c then .negInf else .posInf
  | .nan => .nan

/-- The integer part of a rational number, rounded toward zero. -/
def truncate (q : ℚ) : Int := q.num.tdiv q.den

/-- What the function takes from outside the sources. -/
structure Platform where
  /-- the value returned by `strconv.ParseFloat(s, 64)`; the error it returns
  with it is dropped by the source -/
  parseFloat : String → Float64
  /-- the result of the conversion `int(f)` of a value that `int` cannot
  represent (`NaN`, an infinity, or a finite value whose integer part is
  outside 64 bits): Go leaves it to the implementation -/
  convert : Float64 → Int

/-- The conversion `int(f)` of a `float64` to the 64-bit `int`: the fraction is
discarded (truncation toward zero). -/
def toInt (pf : Platform) (f : Float64) : Int :=
  match f with
  | .finite q =>
    if -9223372036854775808 ≤ truncate q ∧ truncate q ≤ 9223372036854775807 then truncate q
    else pf.convert f
  | _ => pf.convert f

/-- Lines 259-272 of `calculateMemoryConsumption`: the value given to `selector`;
`none` when neither value is provided and the function returns `30%` at once. -/
def selectUnit (exp : ExperimentDetails) : Option String :=
  if exp.MemoryConsumptionMebibytes = "0" then
    if exp.MemoryConsumptionPercentage = "0" then none
    else some "percentage"
  else
    if exp.MemoryConsumptionPercentage = "0" then some "mebibytes"
    else some "percentage"

/-- Lines 279-280: the value of `memoryForChaos`,
`(memoryConsumptionPercentage / 100) * float64(memoryCapacity)`. -/
def memoryForChaos (pf : Platform) (exp : ExperimentDetails) (memoryCapacity : Int) : Float64 :=
  ((pf.parseFloat exp.MemoryConsumptionPercentage).divFinite 100).mulFinite
    (ofInt memoryCapacity)

/-- Line 283: the `float64` that is converted to `totalMemoryConsumption`,
`(memoryForChaos / float64(memoryAllocatable)) * 100`. -/
def percentageOfAllocatable (pf : Platform) (exp : ExperimentDetails)
    (memoryCapacity memoryAllocatable : Int) : Float64 :=
  ((memoryForChaos pf exp memoryCapacity).divFinite (ofInt memoryAllocatable)).mulFinite 100

/-- Lines 276-291: the case `percentage` of the switch. -/
def percentageCase (pf : Platform) (exp : ExperimentDetails)
    (memoryCapacity memoryAllocatable : Int) : String :=
  let totalMemoryConsumption :=
    toInt pf (percentageOfAllocatable pf exp memoryCapacity memoryAllocatable)
  if totalMemoryConsumption > 100 then "100%"
  else toString totalMemoryConsumption ++ "%"

/-- Lines 293-309: the case `mebibytes` of the switch; `1025.390625` is
`65625 / 64`. -/
def mebibytesCase (pf : Platform) (exp : ExperimentDetails) (memoryAllocatable : Int) :
    String :=
  let memoryConsumptionMebibytes := pf.parseFloat exp.MemoryConsumptionMebibytes
  let TotalMemoryConsumption := memoryConsumptionMebibytes.mulFinite (65625 / 64)
  let memoryAllocatableKi := memoryAllocatable.tdiv 1024
  if memoryAllocatableKi < toInt pf TotalMemoryConsumption then
    toString memoryAllocatableKi ++ "k"
  else exp.MemoryConsumptionMebibytes ++ "m"

/-- Function `calculateMemoryConsumption` (lines 253-312): the amount and the
error returned. -/
def calculateMemoryConsumption (pf : Platform) (exp : ExperimentDetails)
    (memoryCapacity memoryAllocatable : Int) : String × Option GoError :=
  match selectUnit exp with
  | none => ("30%", none)
  | some selector =>
    if selector = "percentage" then
      (percentageCase pf exp memoryCapacity memoryAllocatable, none)
    else if selector = "mebibytes" then
      (mebibytesCase pf exp memoryAllocatable, none)
    else
      ("", some (.cerror .ErrorTypeGeneric ""
        ("specify the memory consumption value either in percentage or mebibytes in a " ++
          "non-decimal format using respective envs")))

/-- The string `s` ends with the character `c`. -/
def EndsIn (s : String) (c : Char) : Prop := s.toList.getLast? = some c

end NodeMemoryHog

/-- The number written by a string of decimal digits, read from the left with
`n` the number read so far. -/
def digitsValue : Nat → List Char → Nat
  | n, [] => n
  | n, c :: cs => digitsValue (10 * n + (c.toNat - 48)) cs

/-- A platform for concrete runs: `strconv.ParseFloat` on the strings of decimal
digits, which yields the `float64` nearest to the number written (the only
strings used with it; any other string reads as 0), and the out-of-range
conversion of amd64, which yields the smallest 64-bit integer. -/
def amd64 : NodeMemoryHog.Platform where
  parseFloat := fun s =>
    if s.toList.all Char.isDigit then
      NodeMemoryHog.Float64.round (digitsValue 0 s.toList : Nat)
    else .finite 0
  convert := fun _ => -9223372036854775808

/-- A request for `100000000000000000000` percent of the memory capacity. -/
def hugePercentage : NodeMemoryHog.ExperimentDetails :=
  { MemoryConsumptionMebibytes := "0", MemoryConsumptionPercentage := "100000000000000000000" }

/-- A request for `10000000000000000000` mebibytes. -/
def hugeMebibytes : NodeMemoryHog.ExperimentDetails :=
  { MemoryConsumptionMebibytes := "10000000000000000000", MemoryConsumptionPercentage := "0" }

/-- A request for 29 percent of the memory capacity. -/
def twentyNinePercent : NodeMemoryHog.ExperimentDetails :=
  { MemoryConsumptionMebibytes := "0", MemoryConsumptionPercentage := "29" }

/-- A request for 30 mebibytes. -/
def thirtyMebibytes : NodeMemoryHog.ExperimentDetails :=
  { MemoryConsumptionMebibytes := "30", MemoryConsumptionPercentage := "0" }

/-! ## The pod-delete experiment (experiments/generic/pod-delete)

The reasons of the events (`types.AwaitedVerdict`, `types.PreChaosCheck`,
`types.PostChaosCheck`, `types.Summary`) are constants declared outside the
sources; an event carries the name of the constant. -/

namespace PodDeleteExperiment

/-- What the helper calls that are declared outside the sources leave in the
details of the experiment, and the pure helpers the experiment calls. -/
structure Setup where
  /-- `experimentsDetails.ExperimentName`, as `GetENV` sets it -/
  ExperimentName : String
  /-- `experimentsDetails.EngineName`, as `GetENV` sets it -/
  EngineName : String
  /-- `chaosDetails.DefaultHealthCheck`, as `InitialiseChaosVariables` sets it -/
  DefaultHealthCheck : Bool
  /-- `chaosDetails.Phase`, as `InitialiseChaosVariables` sets it -/
  Phase : String
  /-- `resultDetails.ProbeDetails`, as `GetValuesFromChaosEngine` leaves it -/
  ProbeDetails : List ProbeDetails
  /-- `common.GetStatusMessage(defaultHealthCheck, defaultMsg, probeStatus)` -/
  getStatusMessage : Bool → String → String → String
  /-- the text of `resultDetails.Verdict` when it is read after the history: the
  collaborators hold a pointer to the result details and may rewrite it -/
  verdict : List Event → String
  /-- `types.GetChaosResultVerdictEvent(verdict)`: the reason and the type of
  the event -/
  getChaosResultVerdictEvent : String → String × String

/-- The state of a run of `PodDelete`. -/
structure Run where
  /-- the calls made so far and the clock -/
  world : World := {}
  /-- `chaosDetails.Phase`; no collaborator is taken to write it -/
  Phase : String := ""
  /-- whether `resultDetails.Verdict = v1alpha1.ResultVerdictPassed` (line 123)
  has been executed -/
  passed : Bool := false

/-- Where the function stands after a block of statements. -/
inductive Flow where
  /-- the function goes on with the next statement -/
  | next (r : Run)
  /-- the function has returned -/
  | done (r : Run)

/-- The statements `k` follow, unless the function has returned. -/
def Flow.andThen (f : Flow) (k : Run → Flow) : Flow :=
  match f with
  | .next r => k r
  | .done r => .done r

/-- The state in which the function ends. -/
def Flow.run : Flow → Run
  | .next r => r
  | .done r => r

/-- `result.RecordAfterFailure(&chaosDetails, &resultDetails, err, ..)` followed
by `return`. -/
def recordAndReturn (env : Env) (err : GoError) (r : Run) : Flow :=
  .done { r with world := r.world.step env (.experiment (.recordAfterFailure r.Phase err)) }

/-- An event of the chaos engine whose failure is logged: lines 82-85, 101-104
and 147-150. -/
def engineEventLogged (env : Env) (reason msg eventType : String) (w : World) : World :=
  match w.call env (.experiment (.engineEvent reason msg eventType)) with
  | (some _, w1) =>
    w1.step env
      (.experiment (.logErrorText "failed to create %v event inside chaosengine" reason))
  | (none, w1) => w1

/-- Lines 23-44: the details are initialised and, with an engine, the values of
the chaos engine are fetched. -/
def initialise (env : Env) (setup : Setup) : Flow :=
  let w := (((({} : World).step env (.experiment .getENV)).step env
    (.experiment .initialiseChaosVariables)).step env (.experiment .setResultAttributes))
  if setup.EngineName ≠ "" then
    match w.call env (.experiment .getValuesFromChaosEngine) with
    | (some err, w1) =>
      .done { world := w1.step env (.logErrorf "Unable to initialize the probes, err: %v" err),
              Phase := setup.Phase }
    | (none, w1) => .next { world := w1, Phase := setup.Phase }
  else .next { world := w, Phase := setup.Phase }

/-- Lines 46-59: the chaos result is created and its uid is set. -/
def startResult (env : Env) (r : Run) : Flow :=
  match r.world.call env (.chaosResult "SOT") with
  | (some err, w1) =>
    recordAndReturn env err
      { r with world := w1.step env (.logErrorf "Unable to create the chaosresult, err: %v" err) }
  | (none, w1) =>
    match w1.call env (.experiment .setResultUID) with
    | (some err, w2) =>
      recordAndReturn env err
        { r with world := w2.step env (.logErrorf "Unable to set the result uid, err: %v" err) }
    | (none, w2) => .next { r with world := w2 }

/-- Lines 61-75: the verdict is announced as awaited and the abort watcher is
started. -/
def announce (env : Env) (setup : Setup) (r : Run) : Flow :=
  let w1 :=
    match r.world.call env (.experiment (.resultEvent "AwaitedVerdict"
        ("experiment: " ++ setup.ExperimentName ++ ", Result: Awaited") "Normal")) with
    | (some _, w) =>
      w.step env (.experiment
        (.logErrorText "failed to create %v event inside chaosresult" "AwaitedVerdict"))
    | (none, w) => w
  .next { r with
    world := (w1.step env (.experiment (.goCommonAbortWatcher setup.ExperimentName))) }

/-- Lines 77-89: the status check of the application before the chaos. -/
def preChaosStatus (env : Env) (setup : Setup) (r : Run) : Flow :=
  if setup.DefaultHealthCheck then
    match r.world.call env (.experiment .autStatusCheck) with
    | (some err, w1) =>
      let w2 := engineEventLogged env "PreChaosCheck" "AUT: Not Running" "Warning"
        (w1.step env (.logErrorf "Application status check failed, err: %v" err))
      recordAndReturn env err { r with world := w2 }
    | (none, w1) => .next { r with world := w1 }
  else .next r

/-- Lines 91-113: with an engine, the probes are run before the chaos and the
event of the pre-chaos check is generated. -/
def preChaosProbes (env : Env) (setup : Setup) (r : Run) : Flow :=
  if setup.EngineName ≠ "" then
    if setup.ProbeDetails.length ≠ 0 then
      match r.world.call env (.runProbes "PreChaos") with
      | (some err, w1) =>
        let w2 := engineEventLogged env "PreChaosCheck"
          (setup.getStatusMessage setup.DefaultHealthCheck "AUT: Running" "Unsuccessful")
          "Warning" (w1.step env (.logErrorf "Probe Failed, err: %v" err))
        recordAndReturn env err { r with world := w2 }
      | (none, w1) =>
        let w2 := w1.step env (.experiment (.engineEvent "PreChaosCheck"
          (setup.getStatusMessage setup.DefaultHealthCheck "AUT: Running" "Successful")
          "Normal"))
        .next { r with world := w2 }
    else
      let w1 := r.world.step env (.experiment (.engineEvent "PreChaosCheck"
        (setup.getStatusMessage setup.DefaultHealthCheck "AUT: Running" "") "Normal"))
      .next { r with world := w1 }
  else .next r

/-- Modelled from the spec: the constant `types.ChaosInjectPhase` (package
`types` is not part of the sources), the phase in which the chaos is injected. -/
def ChaosInjectPhase : String := "ChaosInject"

/-- Modelled from the spec: the constant `types.PostChaosPhase`, the phase that
follows the injection. -/
def PostChaosPhase : String := "PostChaos"

/-- Lines 115-124: the phase is set to `ChaosInjectPhase` and the chaos is
injected; when the injection succeeds the verdict is set to passed and the
phase to `PostChaosPhase`. -/
def inject (env : Env) (r : Run) : Flow :=
  match r.world.call env (.experiment (.preparePodDelete ChaosInjectPhase)) with
  | (some err, w1) =>
    recordAndReturn env err
      { r with world := w1.step env (.logErrorf "Chaos injection failed, err: %v" err),
               Phase := ChaosInjectPhase }
  | (none, w1) => .next { world := w1, Phase := PostChaosPhase, passed := true }

/-- Lines 126-136: the status check of the application after the chaos. -/
def postChaosStatus (env : Env) (setup : Setup) (r : Run) : Flow :=
  if setup.DefaultHealthCheck then
    match r.world.call env (.experiment .autStatusCheck) with
    | (some err, w1) =>
      let w2 := (w1.step env (.logErrorf "Application status check failed, err: %v" err)).step
        env (.experiment (.engineEvent "PostChaosCheck" "AUT: Not Running" "Warning"))
      recordAndReturn env err { r with world := w2 }
    | (none, w1) => .next { r with world := w1 }
  else .next r

/-- Lines 138-160: with an engine, the probes are run after the chaos and the
event of the post-chaos check is generated. -/
def postChaosProbes (env : Env) (setup : Setup) (r : Run) : Flow :=
  if setup.EngineName ≠ "" then
    if setup.ProbeDetails.length ≠ 0 then
      match r.world.call env (.runProbes "PostChaos") with
      | (some err, w1) =>
        let w2 := engineEventLogged env "PostChaosCheck"
          (setup.getStatusMessage setup.DefaultHealthCheck "AUT: Running" "Unsuccessful")
          "Warning" (w1.step env (.logErrorf "Probes Failed, err: %v" err))
        recordAndReturn env err { r with world := w2 }
      | (none, w1) =>
        let w2 := w1.step env (.experiment (.engineEvent "PostChaosCheck"
          (setup.getStatusMessage setup.DefaultHealthCheck "AUT: Running" "Successful")
          "Normal"))
        .next { r with world := w2 }
    else
      let w1 := r.world.step env (.experiment (.engineEvent "PostChaosCheck"
        (setup.getStatusMessage setup.DefaultHealthCheck "AUT: Running" "") "Normal"))
      .next { r with world := w1 }
  else .next r

/-- Lines 162-180: the chaos result is updated and the verdict is announced. -/
def conclude (env : Env) (setup : Setup) (r : Run) : Flow :=
  match r.world.call env (.chaosResult "EOT") with
  | (some err, w1) =>
    recordAndReturn env err
      { r with world := w1.step env (.logErrorf "Unable to update the chaosresult, err: %v" err) }
  | (none, w1) =>
    let w2 := w1.step env (.experiment (.resultEvent
      (setup.getChaosResultVerdictEvent (setup.verdict w1.trace)).1
      ("experiment: " ++ setup.ExperimentName ++ ", Result: " ++ setup.verdict w1.trace)
      (setup.getChaosResultVerdictEvent (setup.verdict w1.trace)).2))
    if setup.EngineName ≠ "" then
      let w3 := w2.step env (.experiment (.engineEvent "Summary"
        (setup.ExperimentName ++ " experiment has been " ++ setup.verdict w2.trace ++ "ed")
        "Normal"))
      .done { r with world := w3 }
    else .done { r with world := w2 }

/-- Lines 23-89 of `PodDelete`: what comes before the pre-chaos probes. -/
def beforeProbes (env : Env) (setup : Setup) : Flow :=
  (((initialise env setup).andThen (startResult env)).andThen (announce env setup)).andThen
    (preChaosStatus env setup)

/-- Function `PodDelete` (lines 21-181): the state in which it returns. -/
def PodDelete (env : Env) (setup : Setup) : Run :=
  ((((((beforeProbes env setup).andThen (preChaosProbes env setup)).andThen
    (inject env)).andThen (postChaosStatus env setup)).andThen
    (postChaosProbes env setup)).andThen (conclude env setup)).run

/-- Selects the calls that show how far an experiment went: the runs of the
probes, the injection of the chaos and the record of a failure. -/
def lifeMark : Event → Option Event
  | .runProbes phase => some (.runProbes phase)
  | .experiment (.preparePodDelete phase) => some (.experiment (.preparePodDelete phase))
  | .experiment (.recordAfterFailure phase err) =>
    some (.experiment (.recordAfterFailure phase err))
  | _ => none

end PodDeleteExperiment

/-- A pod-delete experiment run by the engine `engine`, with one probe, the
default health check, the phase `PreChaos` left by the initialisation, and
plain renderings of the messages. -/
def probedSetup : PodDeleteExperiment.Setup where
  ExperimentName := "pod-delete"
  EngineName := "engine"
  DefaultHealthCheck := true
  Phase := "PreChaos"
  ProbeDetails := [{ Name := "p" }]
  getStatusMessage := fun _ defaultMsg probeStatus => defaultMsg ++ ", Probes: " ++ probeStatus
  verdict := fun _ => "Pass"
  getChaosResultVerdictEvent := fun v => (v, "Normal")

/-- As `quietEnv`, except that the run of the probes before the chaos fails. -/
def probeFailsEnv : Env :=
  { quietEnv with
    err := fun h =>
      match h with
      | .runProbes "PreChaos" :: _ => some (.external "probe failed")
      | _ => none }

namespace HTTPProbe

/-- A probe on which both methods are configured: Get expects the status 200,
Post expects the status 201. -/
def bothProbe : ProbeAttributes :=
  { Name := "p",
    Inputs := { URL := "http://svc",
                Method := { Get := some { Criteria := "==", ResponseCode := "200" },
                            Post := some { ContentType := "text/plain", Body := "ping",
                                           Criteria := "==", ResponseCode := "201" } } },
    RunProperties := { Attempt := 1 } }

/-- As `quietProbeEnv`, every request being answered with status 201. -/
def createdEnv : ProbeEnv :=
  { quietProbeEnv with statusCode := fun _ => 201 }

end HTTPProbe

namespace HTTPProbe

/-- The entries of `ProbeDetails` that belong to other probes than `name`. -/
def others (name : String) (details : List ProbeDetails) : List ProbeDetails :=
  details.filter (fun d => d.Name ≠ name)

/-- A state in which the probes `p` and `q` have an entry and the package-level
`err` holds an error left by the evaluator of `q`. -/
def sharedState : State :=
  { ProbeDetails := [{ Name := "p" }, { Name := "q" }],
    err := some (.external "failure of probe q") }

/-- As `quietProbeEnv`, the probe context being cancelled once four calls have
been made. -/
def cancelledAfterEnv : ProbeEnv :=
  { quietProbeEnv with ctxDone := fun t => decide (4 ≤ t.length) }

/-- As `failingProbeEnv`, with a polling interval of one second. -/
def slowFailingEnv : ProbeEnv :=
  { failingProbeEnv with getProbeTimeouts := fun _ _ => { ProbePollingInterval := Second } }

end HTTPProbe

/-- As `quietEnv`, except that every wait of a stress loop is ended by a stress
command that was killed with exit code 137. -/
def oomEnv : Env :=
  { quietEnv with
    selected := fun _ => .stressErr (some (.external "command terminated with exit code 137")) }

/-- As `quietEnv`, except that every wait of a stress loop is ended by a stress
command that failed to start. -/
def stressFailsEnv : Env :=
  { quietEnv with selected := fun _ => .stressErr (some (.external "exec failed")) }

/-- Selects the `time.After` calls: the delay they arm. -/
def timerMark : Event → Option Int
  | .timeAfter d => some d
  | _ => none

/-- As `quietEnv`, except that the first wait of a stress loop is ended by a
stress command that returns nil; the later ones are ended by the timer. -/
def stressEndsEnv : Env :=
  { quietEnv with
    selected := fun h =>
      if (chrono timerMark h).length ≤ 1 then .stressErr none else .endTime }

/-- One target pod `p` with the container `c`. -/
def onePod : List PodCPUHogExec.Pod := [{ Name := "p", Namespace := "ns", Containers := ["c"] }]

/-- An experiment of ten seconds with one stress command per pod. -/
def oneCore : PodCPUHogExec.ExperimentDetails := { ChaosDuration := 10, CPUcores := 1 }

/-- As `quietEnv`, except that volume `vol-1`, attached to instance `i-0` as
`/dev/sdf` at first, is found attached to instance `i-9` as `/dev/sdg` once it
has been recorded as reverted. -/
def movedEnv : Env :=
  { quietEnv with
    attachment := fun h =>
      if Event.setTargets "vol-1" "reverted" "EBS" ∈ h then ("i-9", "/dev/sdg")
      else ("i-0", "/dev/sdf") }

/-- An ebs-loss experiment of thirty seconds with a chaos interval of twenty
seconds: the duration loop makes two passes. -/
def twoPassExperiment : EBSLoss.ExperimentDetails := { ChaosDuration := 30, ChaosInterval := 20 }

namespace EBSLoss

/-- Selects the calls that are given attachment details held in the slices
`ec2InstanceIDList` and `deviceList`. -/
def sliceMark : Event → Option Event
  | .checkEBSDetachmentInitialisation volumeIDs instanceIDs region =>
    some (.checkEBSDetachmentInitialisation volumeIDs instanceIDs region)
  | .waitForVolumeDetachment volumeID ec2InstanceID region delay timeout =>
    some (.waitForVolumeDetachment volumeID ec2InstanceID region delay timeout)
  | .ebsVolumeAttach volumeID ec2InstanceID device region =>
    some (.ebsVolumeAttach volumeID ec2InstanceID device region)
  | _ => none

end EBSLoss

/-! ## Lemmas -/

theorem chrono_nil {α : Type} (f : Event → Option α) : chrono f [] = [] := rfl

theorem chrono_cons {α : Type} (f : Event → Option α) (e : Event) (t : List Event) :
    chrono f (e :: t) = chrono f t ++ (f e).toList := by
  unfold chrono
  cases h : f e <;> simp [List.filterMap_append, h]

theorem atMostOne_of_within {S : List String} {t : List Event} (hS : S.length ≤ 1)
    (h : InjectedWithin S t) : AtMostOneInjected t := by
  intro a b ha hb
  have ha' := h a ha
  have hb' := h b hb
  match S, hS, ha', hb' with
  | [x], _, ha', hb' =>
    simp only [List.mem_singleton] at ha' hb'
    rw [ha', hb']

theorem track_start {t : List Event} (h : ∀ id, lastState t id ≠ some "injected") :
    Track t [] t := by
  refine ⟨by simp, List.suffix_refl t, ?_, ?_⟩
  · intro s h1 h2 a b ha
    have : s = t := List.IsSuffix.eq_of_length_le h2 (List.IsSuffix.length_le h1)
    subst this
    exact absurd ha (h a)
  · intro id hid
    exact absurd hid (h id)

theorem track_extend {t0 t : List Event} {S S' : List String} (e : Event) (h : Track t0 S t)
    (hS : S'.length ≤ 1) (hw : InjectedWithin S' (e :: t)) : Track t0 S' (e :: t) := by
  obtain ⟨_, h1, h2, _⟩ := h
  refine ⟨hS, h1.trans (List.suffix_cons e t), ?_, hw⟩
  intro s hs1 hs2
  rcases List.suffix_cons_iff.mp hs2 with rfl | hs
  · exact atMostOne_of_within hS hw
  · exact h2 s hs1 hs

theorem track_other {t0 t : List Event} {S : List String} {e : Event}
    (he : ∀ id, lastState (e :: t) id = lastState t id) (h : Track t0 S t) :
    Track t0 S (e :: t) := by
  refine track_extend e h h.1 ?_
  intro id hid
  rw [he] at hid
  exact h.2.2.2 id hid

theorem track_inject {t0 t : List Event} {id chaosStatus kind : String} (h : Track t0 [] t) :
    Track t0 [id] (.setTargets id chaosStatus kind :: t) := by
  refine track_extend _ h (by simp) ?_
  intro a ha
  simp only [lastState] at ha
  split at ha
  · simp_all
  · exact absurd (h.2.2.2 a ha) (by simp)

theorem track_revert {t0 t : List Event} {id kind : String} (h : Track t0 [id] t) :
    Track t0 [] (.setTargets id "reverted" kind :: t) := by
  refine track_extend _ h (by simp) ?_
  intro a ha
  simp only [lastState] at ha
  split at ha
  · simp at ha
  · have := h.2.2.2 a ha
    simp_all

theorem track_weaken {t0 t : List Event} {id : String} (h : Track t0 [] t) :
    Track t0 [id] t :=
  ⟨by simp, h.2.1, h.2.2.1, fun a ha => absurd (h.2.2.2 a ha) (by simp)⟩

theorem step_trace (env : Env) (e : Event) (w : World) :
    (w.step env e).trace = e :: w.trace := rfl

theorem sleep_trace (env : Env) (d : Int) (w : World) :
    (w.sleep env d).trace = .sleep d :: w.trace := rfl

theorem waitForDuration_trace (env : Env) (n : Int) (w : World) :
    (w.waitForDuration env n).trace = .waitForDuration n :: w.trace := rfl

namespace EBSLoss

theorem revertVolume_marks (env : Env) (exp : ExperimentDetails) (v inst dev : String)
    (w w' : World) (h : revertVolume env exp v inst dev w = (none, w')) :
    chrono mark w'.trace = chrono mark w.trace := by
  unfold revertVolume at h
  simp only [World.call] at h
  repeat' split at h
  all_goals simp only [Prod.mk.injEq, reduceCtorEq, false_and] at *
  all_goals casesm* _ ∧ _
  all_goals subst_vars
  all_goals simp [chrono_cons, mark, step_trace]

theorem ebs_serialTarget_marks (env : Env) (exp : ExperimentDetails) (rd : ResultDetails) (i : Nat)
    (v : String) (w w' : World) (h : serialTarget env exp rd i v w = (none, w')) :
    chrono mark w'.trace = chrono mark w.trace ++
      (.waited v :: if rd.ProbeDetails.length ≠ 0 ∧ i = 0 then [.probes] else []) := by
  unfold serialTarget at h
  simp only [World.call] at h
  repeat' split at h
  all_goals simp only [Prod.mk.injEq, reduceCtorEq, false_and] at *
  all_goals casesm* _ ∧ _
  all_goals subst_vars
  all_goals rw [revertVolume_marks _ _ _ _ _ _ _ h]
  all_goals simp_all [chrono_cons, mark, step_trace, waitForDuration_trace]

theorem ebs_serialTargets_marks_succ (env : Env) (exp : ExperimentDetails) (rd : ResultDetails)
    (ids : List String) : ∀ (i : Nat) (w w' : World),
    serialTargets env exp rd (i + 1) ids w = (none, w') →
    chrono mark w'.trace = chrono mark w.trace ++ ids.map .waited := by
  induction ids with
  | nil =>
    intro i w w' h
    simp only [serialTargets, Prod.mk.injEq, true_and] at h
    subst h
    simp
  | cons id rest ih =>
    intro i w w' h
    simp only [serialTargets] at h
    split at h
    · simp at h
    · rename_i w1 h1
      rw [ih _ _ _ h, ebs_serialTarget_marks _ _ _ _ _ _ _ h1]
      simp

theorem ebs_serialTargets_marks (env : Env) (exp : ExperimentDetails) (rd : ResultDetails)
    (hp : rd.ProbeDetails ≠ []) (ids : List String) (w w' : World)
    (h : serialTargets env exp rd 0 ids w = (none, w')) :
    chrono mark w'.trace ++ [.check] = chrono mark w.trace ++ passMarks ids := by
  cases ids with
  | nil =>
    simp only [serialTargets, Prod.mk.injEq, true_and] at h
    subst h
    simp [passMarks]
  | cons id rest =>
    simp only [serialTargets] at h
    split at h
    · simp at h
    · rename_i w1 h1
      rw [ebs_serialTargets_marks_succ _ _ _ _ _ _ _ h, ebs_serialTarget_marks _ _ _ _ _ _ _ h1]
      simp [passMarks, hp]

theorem ebs_injectEvent_marks (env : Env) (exp : ExperimentDetails) (w : World) :
    chrono mark (injectEvent env exp w).trace = chrono mark w.trace := by
  unfold injectEvent
  split <;> simp [chrono_cons, mark, step_trace]

theorem ebs_timeSince_marks (env : Env) (start : Nat) (w : World) :
    chrono mark (w.timeSince env start).2.trace = chrono mark w.trace ++ [.check] := by
  simp [World.timeSince, chrono_cons, mark, step_trace]

theorem ebs_serialLoop_marks (env : Env) (exp : ExperimentDetails) (rd : ResultDetails)
    (hp : rd.ProbeDetails ≠ []) (ids : List String) (start : Nat) :
    ∀ (fuel : Nat) (duration : Int) (w w' : World),
    serialLoop env exp rd ids start fuel duration w = (.returned none, w') →
    ∃ k, chrono mark w'.trace = chrono mark w.trace ++ passesMarks ids k := by
  intro fuel
  induction fuel with
  | zero =>
    intro duration w w' h
    unfold serialLoop at h
    split at h
    · simp at h
    · simp only [Prod.mk.injEq, true_and] at h
      subst h
      exact ⟨0, by simp [passesMarks]⟩
  | succ fuel ih =>
    intro duration w w' h
    unfold serialLoop at h
    split at h
    · simp only at h
      split at h
      · simp at h
      · rename_i w1 h1
        obtain ⟨k, hk⟩ := ih _ _ _ h
        refine ⟨k + 1, ?_⟩
        have := ebs_serialTargets_marks env exp rd hp ids _ _ h1
        rw [ebs_injectEvent_marks] at this
        rw [hk, ebs_timeSince_marks, this]
        simp [passesMarks]
    · simp only [Prod.mk.injEq, true_and] at h
      subst h
      exact ⟨0, by simp [passesMarks]⟩

theorem count_check (t : List Event) : (chrono mark t).count .check = t.count .timeSince := by
  induction t with
  | nil => rfl
  | cons e rest ih =>
    rw [chrono_cons, List.count_append, ih, List.count_cons]
    cases e <;> simp [mark]
    split <;> simp

theorem count_check_passMarks (ids : List String) : (passMarks ids).count .check = 1 := by
  have h : ∀ l : List String, (l.map Mark.waited).count .check = 0 := by
    intro l
    induction l with
    | nil => rfl
    | cons a l ih => simp [List.count_cons, ih]
  cases ids with
  | nil => simp [passMarks]
  | cons v rest => simp [passMarks, List.count_cons, h]

theorem count_check_passesMarks (ids : List String) (k : Nat) :
    (passesMarks ids k).count .check = k := by
  induction k with
  | zero => rfl
  | succ k ih => simp [passesMarks, count_check_passMarks, ih]; omega

theorem revertVolume_fails (env : Env) (exp : ExperimentDetails) (v inst dev : String)
    (w w' : World) (err : GoError) (h : revertVolume env exp v inst dev w = (some err, w')) :
    ∃ n, 1 ≤ n ∧ n ≤ 3 ∧ w'.trace = ((revertCalls exp v inst dev).take n).reverse ++ w.trace := by
  unfold revertVolume at h
  simp only [World.call] at h
  repeat' split at h
  all_goals simp only [Prod.mk.injEq, reduceCtorEq, false_and] at *
  all_goals casesm* _ ∧ _
  all_goals subst_vars
  all_goals first
    | exact ⟨1, by omega, by omega, rfl⟩
    | exact ⟨2, by omega, by omega, rfl⟩
    | exact ⟨3, by omega, by omega, rfl⟩

theorem parallelRevert_append (env : Env) (exp : ExperimentDetails) (att : Attachments)
    (l1 l2 : List String) : ∀ (i : Nat) (w w1 : World),
    parallelRevert env exp att i l1 w = (none, w1) →
    parallelRevert env exp att i (l1 ++ l2) w =
      parallelRevert env exp att (i + l1.length) l2 w1 := by
  induction l1 with
  | nil =>
    intro i w w1 h
    simp only [parallelRevert, Prod.mk.injEq, true_and] at h
    subst h
    rfl
  | cons id rest ih =>
    intro i w w1 h
    simp only [parallelRevert, List.cons_append] at h ⊢
    split at h
    · simp at h
    · refine (ih _ _ _ h).trans ?_
      rw [List.length_cons]
      congr 1
      omega

end EBSLoss

namespace EBSLoss

theorem revertVolume_attached (env : Env) (exp : ExperimentDetails) (v inst dev : String)
    (w : World)
    (hs : env.ebsState (.getEBSStatus v inst exp.Region :: w.trace) = "attached")
    (he : env.err (.getEBSStatus v inst exp.Region :: w.trace) = none) :
    revertVolume env exp v inst dev w =
      (none, (w.step env (.getEBSStatus v inst exp.Region)).step env
        (.setTargets v "reverted" "EBS")) := by
  simp only [revertVolume, World.call, he, hs, if_true]

theorem serialTarget_attached (env : Env) (exp : ExperimentDetails) (rd : ResultDetails)
    (i : Nat) (v : String) (w w' : World) (r : Option GoError)
    (H : ∀ inst t, env.ebsState (.getEBSStatus v inst exp.Region :: t) = "attached" ∧
      env.err (.getEBSStatus v inst exp.Region :: t) = none)
    (h : serialTarget env exp rd i v w = (r, w')) :
    chrono attachMark w'.trace = chrono attachMark w.trace ∧
      (r = none → lastState w'.trace v = some "reverted") := by
  unfold serialTarget at h
  simp only [World.call] at h
  repeat' split at h
  all_goals try rw [revertVolume_attached env exp v _ _ _ (H _ _).1 (H _ _).2] at h
  all_goals simp only [Prod.mk.injEq] at *
  all_goals casesm* _ ∧ _
  all_goals subst_vars
  all_goals simp [chrono_cons, attachMark, step_trace, waitForDuration_trace, lastState]

end EBSLoss

namespace PodCPUHogExec

theorem killStressCPUSerial_exec (env : Env) (exp : ExperimentDetails) (podName ns : String)
    (w : World) :
    chrono execMark (killStressCPUSerial env exp podName ns w).2.trace =
      chrono execMark w.trace ++ [(podName, ns)] := by
  unfold killStressCPUSerial
  simp only [World.call]
  split <;> rename_i h <;> simp only [Prod.mk.injEq] at h <;> obtain ⟨_, rfl⟩ := h <;>
    simp [chrono_cons, execMark, step_trace]

theorem revertEveryPod_length (env : Env) (exp : ExperimentDetails) (pods : List Pod) :
    ∀ w : World, (revertEveryPod env exp pods w).1.length = pods.length := by
  induction pods with
  | nil => intro w; rfl
  | cons pod rest ih => intro w; simp [revertEveryPod, ih]

theorem revertEveryPod_exec (env : Env) (exp : ExperimentDetails) (pods : List Pod) :
    ∀ w : World, chrono execMark (revertEveryPod env exp pods w).2.trace =
      chrono execMark w.trace ++ pods.map fun pod => (pod.Name, pod.Namespace) := by
  induction pods with
  | nil => intro w; simp [revertEveryPod]
  | cons pod rest ih =>
    intro w
    simp only [revertEveryPod]
    rw [ih, killStressCPUSerial_exec]
    simp

theorem killStressCPULoop_eq (env : Env) (exp : ExperimentDetails) (pods : List Pod) :
    ∀ (errList : List String) (w : World),
    killStressCPULoop env exp pods errList w =
      (errList ++ failedTexts env (revertEveryPod env exp pods w).1,
        (revertEveryPod env exp pods w).2) := by
  induction pods with
  | nil => intro errList w; simp [killStressCPULoop, revertEveryPod, failedTexts]
  | cons pod rest ih =>
    intro errList w
    simp only [killStressCPULoop, revertEveryPod]
    cases h : killStressCPUSerial env exp pod.Name pod.Namespace w with
    | mk r w1 =>
      cases r with
      | none => simp [ih, failedTexts]
      | some err => simp [ih, failedTexts]

theorem failedTexts_eq_nil (env : Env) (outcomes : List (Option GoError)) :
    failedTexts env outcomes = [] ↔ ∀ o ∈ outcomes, o = none := by
  induction outcomes with
  | nil => simp [failedTexts]
  | cons o rest ih =>
    cases o with
    | none =>
      have : failedTexts env (none :: rest) = failedTexts env rest := by simp [failedTexts]
      rw [this, ih]
      simp
    | some err => simp [failedTexts]

end PodCPUHogExec

namespace EC2TerminateByTag

theorem serialRevert_track (env : Env) (exp : ExperimentDetails) (id : String) (w w' : World)
    (r : Option GoError) (t0 : List Event) (h : Track t0 [id] w.trace)
    (hr : serialRevert env exp id w = (r, w')) :
    Track t0 (if r = none then [] else [id]) w'.trace := by
  unfold serialRevert at hr
  simp only [World.call] at hr
  repeat' split at hr
  all_goals simp only [Prod.mk.injEq] at *
  all_goals casesm* _ ∧ _
  all_goals subst_vars
  all_goals simp only [step_trace, sleep_trace, reduceCtorEq, if_false, if_true]
  all_goals repeat
    (first
      | exact h
      | exact track_weaken h
      | apply track_revert
      | apply track_inject
      | apply track_other (fun _ => rfl))

theorem serialTarget_track (env : Env) (exp : ExperimentDetails) (rd : ResultDetails) (i : Nat)
    (id : String) (w w' : World) (r : Option GoError) (t0 : List Event)
    (h : Track t0 [] w.trace) (hr : serialTarget env exp rd i id w = (r, w')) :
    Track t0 (if r = none then [] else [id]) w'.trace := by
  unfold serialTarget at hr
  simp only [World.call] at hr
  repeat' split at hr
  all_goals simp only [Prod.mk.injEq] at *
  all_goals casesm* _ ∧ _
  all_goals subst_vars
  all_goals first
    | refine serialRevert_track _ _ _ _ _ _ _ ?_ hr
    | simp only [step_trace, sleep_trace, reduceCtorEq, if_false, if_true]
  all_goals try simp only [step_trace, sleep_trace]
  all_goals repeat
    (first
      | exact h
      | exact track_weaken h
      | apply track_revert
      | apply track_inject
      | apply track_other (fun _ => rfl))

theorem serialTargets_track (env : Env) (exp : ExperimentDetails) (rd : ResultDetails)
    (t0 : List Event) (ids : List String) : ∀ (i : Nat) (w w' : World) (r : Option GoError),
    Track t0 [] w.trace → serialTargets env exp rd i ids w = (r, w') →
    ∃ S, Track t0 S w'.trace ∧ (r = none → S = []) := by
  induction ids with
  | nil =>
    intro i w w' r h hr
    simp only [serialTargets, Prod.mk.injEq] at hr
    obtain ⟨_, rfl⟩ := hr
    exact ⟨[], h, fun _ => rfl⟩
  | cons id rest ih =>
    intro i w w' r h hr
    simp only [serialTargets] at hr
    split at hr
    · rename_i err w1 h1
      simp only [Prod.mk.injEq] at hr
      obtain ⟨rfl, rfl⟩ := hr
      have := serialTarget_track env exp rd i id w _ _ t0 h h1
      exact ⟨_, this, by simp⟩
    · rename_i w1 h1
      have := serialTarget_track env exp rd i id w _ _ t0 h h1
      exact ih _ _ _ _ this hr

theorem injectEvent_track (env : Env) (exp : ExperimentDetails) (w : World) (t0 : List Event)
    (S : List String) (h : Track t0 S w.trace) : Track t0 S (injectEvent env exp w).trace := by
  unfold injectEvent
  split
  · exact track_other (fun _ => rfl) h
  · exact h

theorem serialLoop_track (env : Env) (exp : ExperimentDetails) (rd : ResultDetails)
    (ids : List String) (start : Nat) (t0 : List Event) : ∀ (fuel : Nat) (duration : Int)
    (w : World), Track t0 [] w.trace →
    ∃ S, Track t0 S (serialLoop env exp rd ids start fuel duration w).2.trace := by
  intro fuel
  induction fuel with
  | zero =>
    intro duration w h
    unfold serialLoop
    split <;> exact ⟨_, h⟩
  | succ fuel ih =>
    intro duration w h
    unfold serialLoop
    split
    · simp only
      split
      · rename_i err w1 h1
        obtain ⟨S, hS, _⟩ := serialTargets_track env exp rd t0 ids 0 _ _ _
          (injectEvent_track env exp w t0 [] h) h1
        exact ⟨S, hS⟩
      · rename_i w1 h1
        obtain ⟨S, hS, hnone⟩ := serialTargets_track env exp rd t0 ids 0 _ _ _
          (injectEvent_track env exp w t0 [] h) h1
        rw [hnone rfl] at hS
        exact ih _ _ (track_other (fun _ => rfl) hS)
    · exact ⟨_, h⟩

theorem suffix_cons_of {t0 t : List Event} (e : Event) (h : t0 <:+ t) : t0 <:+ e :: t :=
  h.trans (List.suffix_cons e t)

theorem parallelStop_injected (env : Env) (exp : ExperimentDetails)
    (hstop : ∀ id h, env.err (.ec2Stop id exp.Region :: h) = none) (ids : List String) :
    ∀ w : World, ∃ w', parallelStop env exp ids w = (none, w') ∧ w.trace <:+ w'.trace ∧
      (∀ id, lastState w.trace id = some "injected" → lastState w'.trace id = some "injected") ∧
      ∀ id ∈ ids, lastState w'.trace id = some "injected" := by
  induction ids with
  | nil => intro w; exact ⟨w, rfl, List.suffix_refl _, fun _ h => h, by simp⟩
  | cons id rest ih =>
    intro w
    obtain ⟨w', h1, h2, h3, h4⟩ := ih ((w.step env (.ec2Stop id exp.Region)).step env
      (.setTargets id "injected" "EC2"))
    refine ⟨w', ?_, ?_, ?_, ?_⟩
    · simp only [parallelStop, World.call, hstop, h1]
    · exact (suffix_cons_of _ (suffix_cons_of _ (List.suffix_refl _))).trans h2
    · intro a ha
      apply h3
      simp only [step_trace, lastState]
      split
      · rfl
      · exact ha
    · intro a ha
      rcases List.mem_cons.mp ha with rfl | ha
      · apply h3
        simp [step_trace, lastState]
      · exact h4 a ha

theorem parallelWaitDown_suffix (env : Env) (exp : ExperimentDetails) (ids : List String) :
    ∀ w : World, w.trace <:+ (parallelWaitDown env exp ids w).2.trace := by
  induction ids with
  | nil => intro w; exact List.suffix_refl _
  | cons id rest ih =>
    intro w
    simp only [parallelWaitDown, World.call]
    split
    · rename_i h1
      simp only [Prod.mk.injEq] at h1
      obtain ⟨_, rfl⟩ := h1
      exact suffix_cons_of _ (List.suffix_refl _)
    · rename_i h1
      simp only [Prod.mk.injEq] at h1
      obtain ⟨_, rfl⟩ := h1
      refine List.IsSuffix.trans ?_ (ih _)
      exact List.suffix_cons _ _

theorem parallelStart_suffix (env : Env) (exp : ExperimentDetails) (ids : List String) :
    ∀ w : World, w.trace <:+ (parallelStart env exp ids w).2.trace := by
  induction ids with
  | nil => intro w; exact List.suffix_refl _
  | cons id rest ih =>
    intro w
    simp only [parallelStart, World.call]
    split
    · rename_i h1
      simp only [Prod.mk.injEq] at h1
      obtain ⟨_, rfl⟩ := h1
      exact suffix_cons_of _ (List.suffix_refl _)
    · rename_i h1
      simp only [Prod.mk.injEq] at h1
      obtain ⟨_, rfl⟩ := h1
      refine List.IsSuffix.trans ?_ (ih _)
      exact List.suffix_cons _ _

theorem parallelWaitUp_suffix (env : Env) (exp : ExperimentDetails) (ids : List String) :
    ∀ w : World, w.trace <:+ (parallelWaitUp env exp ids w).2.trace := by
  induction ids with
  | nil => intro w; exact List.suffix_refl _
  | cons id rest ih =>
    intro w
    simp only [parallelWaitUp, World.call]
    split
    · rename_i h1
      simp only [Prod.mk.injEq] at h1
      obtain ⟨_, rfl⟩ := h1
      exact suffix_cons_of _ (List.suffix_refl _)
    · rename_i h1
      simp only [Prod.mk.injEq] at h1
      obtain ⟨_, rfl⟩ := h1
      refine List.IsSuffix.trans ?_ (ih _)
      exact List.suffix_cons _ _

theorem parallelSetReverted_suffix (env : Env) (ids : List String) :
    ∀ w : World, w.trace <:+ (parallelSetReverted env ids w).trace := by
  induction ids with
  | nil => intro w; exact List.suffix_refl _
  | cons id rest ih =>
    intro w
    refine List.IsSuffix.trans ?_ (ih _)
    exact List.suffix_cons _ _

theorem parallelRevert_suffix (env : Env) (exp : ExperimentDetails) (ids : List String)
    (w : World) : w.trace <:+ (parallelRevert env exp ids w).2.trace := by
  unfold parallelRevert
  split
  · split
    · rename_i h1
      have := parallelStart_suffix env exp ids w
      rw [h1] at this
      exact this
    · rename_i w1 h1
      have a := parallelStart_suffix env exp ids w
      rw [h1] at a
      split
      · rename_i h2
        have b := parallelWaitUp_suffix env exp ids w1
        rw [h2] at b
        exact a.trans b
      · rename_i w2 h2
        have b := parallelWaitUp_suffix env exp ids w1
        rw [h2] at b
        exact (a.trans b).trans (parallelSetReverted_suffix env ids w2)
  · exact parallelSetReverted_suffix env ids w

theorem parallelPass_after_stop (env : Env) (exp : ExperimentDetails) (rd : ResultDetails)
    (ids : List String) (w w1 : World)
    (h : parallelStop env exp ids (injectEvent env exp w) = (none, w1)) :
    w1.trace <:+ (parallelPass env exp rd ids w).2.trace := by
  unfold parallelPass
  simp only [h, World.call]
  have a := parallelWaitDown_suffix env exp ids w1
  split
  · rename_i h1
    rw [h1] at a
    exact a
  · rename_i w2 h1
    rw [h1] at a
    split
    · split
      · rename_i h2
        simp only [Prod.mk.injEq] at h2
        obtain ⟨_, rfl⟩ := h2
        exact a.trans (suffix_cons_of _ (List.suffix_refl _))
      · rename_i h2
        simp only [Prod.mk.injEq] at h2
        obtain ⟨_, rfl⟩ := h2
        refine (a.trans ?_).trans (parallelRevert_suffix env exp ids _)
        exact suffix_cons_of _ (suffix_cons_of _ (List.suffix_refl _))
    · refine (a.trans ?_).trans (parallelRevert_suffix env exp ids _)
      exact suffix_cons_of _ (List.suffix_refl _)

theorem parallelStop_suffix (env : Env) (exp : ExperimentDetails) (ids : List String) :
    ∀ w : World, w.trace <:+ (parallelStop env exp ids w).2.trace := by
  induction ids with
  | nil => intro w; exact List.suffix_refl _
  | cons id rest ih =>
    intro w
    simp only [parallelStop, World.call]
    split
    · rename_i h1
      simp only [Prod.mk.injEq] at h1
      obtain ⟨_, rfl⟩ := h1
      exact suffix_cons_of _ (List.suffix_refl _)
    · rename_i h1
      simp only [Prod.mk.injEq] at h1
      obtain ⟨_, rfl⟩ := h1
      refine List.IsSuffix.trans ?_ (ih _)
      exact suffix_cons_of _ (List.suffix_cons _ _)

theorem injectEvent_suffix (env : Env) (exp : ExperimentDetails) (w : World) :
    w.trace <:+ (injectEvent env exp w).trace := by
  unfold injectEvent
  split
  · exact List.suffix_cons _ _
  · exact List.suffix_refl _

theorem parallelPass_suffix (env : Env) (exp : ExperimentDetails) (rd : ResultDetails)
    (ids : List String) (w : World) : w.trace <:+ (parallelPass env exp rd ids w).2.trace := by
  have a := (injectEvent_suffix env exp w).trans
    (parallelStop_suffix env exp ids (injectEvent env exp w))
  cases h : parallelStop env exp ids (injectEvent env exp w) with
  | mk r w1 =>
    rw [h] at a
    cases r with
    | none => exact a.trans (parallelPass_after_stop env exp rd ids w w1 h)
    | some err =>
      unfold parallelPass
      simp only [h]
      exact a

theorem parallelLoop_suffix (env : Env) (exp : ExperimentDetails) (rd : ResultDetails)
    (ids : List String) (start : Nat) : ∀ (fuel : Nat) (duration : Int) (w : World),
    w.trace <:+ (parallelLoop env exp rd ids start fuel duration w).2.trace := by
  intro fuel
  induction fuel with
  | zero =>
    intro duration w
    unfold parallelLoop
    split <;> exact List.suffix_refl _
  | succ fuel ih =>
    intro duration w
    unfold parallelLoop
    split
    · simp only
      have a := parallelPass_suffix env exp rd ids w
      split
      · rename_i h1
        rw [h1] at a
        exact a
      · rename_i w1 h1
        rw [h1] at a
        refine (a.trans ?_).trans (ih _ _)
        exact List.suffix_cons _ _
    · exact List.suffix_refl _

theorem serialRevert_marks (env : Env) (exp : ExperimentDetails) (id : String) (w w' : World)
    (h : serialRevert env exp id w = (none, w')) :
    chrono mark w'.trace = chrono mark w.trace ++
      ((if exp.ManagedNodegroup ≠ "enable" then [.start id] else []) ++ [.reverted id]) := by
  unfold serialRevert at h
  simp only [World.call] at h
  repeat' split at h
  all_goals simp only [Prod.mk.injEq, reduceCtorEq, false_and] at *
  all_goals casesm* _ ∧ _
  all_goals subst_vars
  all_goals simp_all [chrono_cons, mark, step_trace]

theorem serialTarget_marks (env : Env) (exp : ExperimentDetails) (rd : ResultDetails) (i : Nat)
    (id : String) (w w' : World)
    (h : serialTarget env exp rd i id w = (none, w')) :
    chrono mark w'.trace = chrono mark w.trace ++ targetMarks exp id := by
  unfold serialTarget at h
  simp only [World.call] at h
  repeat' split at h
  all_goals simp only [Prod.mk.injEq, reduceCtorEq, false_and] at *
  all_goals casesm* _ ∧ _
  all_goals subst_vars
  all_goals rw [serialRevert_marks _ _ _ _ _ h]
  all_goals simp [chrono_cons, mark, step_trace, sleep_trace, targetMarks]

theorem serialTargets_marks (env : Env) (exp : ExperimentDetails) (rd : ResultDetails)
    (ids : List String) : ∀ (i : Nat) (w w' : World),
    serialTargets env exp rd i ids w = (none, w') →
    chrono mark w'.trace = chrono mark w.trace ++ ids.flatMap (targetMarks exp) := by
  induction ids with
  | nil =>
    intro i w w' h
    simp only [serialTargets, Prod.mk.injEq, true_and] at h
    subst h
    simp
  | cons id rest ih =>
    intro i w w' h
    simp only [serialTargets] at h
    split at h
    · simp at h
    · rename_i w1 h1
      rw [ih _ _ _ h, serialTarget_marks _ _ _ _ _ _ _ h1]
      simp [List.flatMap_cons]

theorem injectEvent_marks (env : Env) (exp : ExperimentDetails) (w : World) :
    chrono mark (injectEvent env exp w).trace = chrono mark w.trace := by
  unfold injectEvent
  split <;> simp [chrono_cons, mark, step_trace]

theorem timeSince_fst (env : Env) (start : Nat) (w : World) :
    (w.timeSince env start).1 = ((((w.timeSince env start).2.clock - start) / 1000000000 : Nat) : Int) :=
  rfl

theorem timeSince_marks (env : Env) (start : Nat) (w : World) :
    chrono mark (w.timeSince env start).2.trace = chrono mark w.trace ++ [.check] := by
  simp [World.timeSince, chrono_cons, mark, step_trace]

theorem serialLoop_marks (env : Env) (exp : ExperimentDetails) (rd : ResultDetails)
    (ids : List String) (start : Nat) : ∀ (fuel : Nat) (duration : Int) (w w' : World),
    duration = (((w.clock - start) / 1000000000 : Nat) : Int) →
    serialLoop env exp rd ids start fuel duration w = (.returned none, w') →
    exp.ChaosDuration ≤ (((w'.clock - start) / 1000000000 : Nat) : Int) ∧
    ∃ k, chrono mark w'.trace = chrono mark w.trace ++ passesMarks exp ids k := by
  intro fuel
  induction fuel with
  | zero =>
    intro duration w w' hd h
    unfold serialLoop at h
    split at h
    · simp at h
    · simp only [Prod.mk.injEq, true_and] at h
      subst h
      exact ⟨by omega, 0, by simp [passesMarks]⟩
  | succ fuel ih =>
    intro duration w w' hd h
    unfold serialLoop at h
    split at h
    · simp only at h
      split at h
      · simp at h
      · rename_i w1 h1
        obtain ⟨hle, k, hk⟩ := ih _ _ _ (timeSince_fst env start w1) h
        refine ⟨hle, k + 1, ?_⟩
        rw [hk, timeSince_marks, serialTargets_marks _ _ _ _ _ _ _ h1, injectEvent_marks]
        simp [passesMarks, passMarks]
    · simp only [Prod.mk.injEq, true_and] at h
      subst h
      exact ⟨by omega, 0, by simp [passesMarks]⟩

theorem quiet_serialRevert (env : Env) (exp : ExperimentDetails)
    (herr : ∀ h, env.err h = none) (hcost : ∀ h, env.cost h = 0) (id : String) (w : World) :
    ∃ w', serialRevert env exp id w = (none, w') ∧ w'.clock = w.clock := by
  unfold serialRevert
  simp only [World.call, herr]
  split <;> exact ⟨_, rfl, by simp [World.step, hcost]⟩

theorem quiet_serialTarget (env : Env) (exp : ExperimentDetails) (rd : ResultDetails)
    (herr : ∀ h, env.err h = none) (hcost : ∀ h, env.cost h = 0) (i : Nat) (id : String)
    (w : World) :
    ∃ w', serialTarget env exp rd i id w = (none, w') ∧
      w'.clock = w.clock + (wrapInt64 (exp.ChaosInterval * Second)).toNat := by
  unfold serialTarget
  simp only [World.call, herr]
  split
  · obtain ⟨w', h, c⟩ := quiet_serialRevert env exp herr hcost id
      (World.sleep env (wrapInt64 (exp.ChaosInterval * Second))
        (((w.step env (.ec2Stop id exp.Region)).step env (.setTargets id "injected" "EC2")).step env
          (.waitForEC2Down exp.Timeout exp.Delay exp.ManagedNodegroup exp.Region id) |>.step env
            (.runProbes "DuringChaos")))
    exact ⟨w', h, by rw [c]; simp [World.step, World.sleep, hcost]⟩
  · obtain ⟨w', h, c⟩ := quiet_serialRevert env exp herr hcost id
      (World.sleep env (wrapInt64 (exp.ChaosInterval * Second))
        (((w.step env (.ec2Stop id exp.Region)).step env (.setTargets id "injected" "EC2")).step env
          (.waitForEC2Down exp.Timeout exp.Delay exp.ManagedNodegroup exp.Region id)))
    exact ⟨w', h, by rw [c]; simp [World.step, World.sleep, hcost]⟩

theorem quiet_serialTargets (env : Env) (exp : ExperimentDetails) (rd : ResultDetails)
    (herr : ∀ h, env.err h = none) (hcost : ∀ h, env.cost h = 0) (ids : List String) :
    ∀ (i : Nat) (w : World), ∃ w', serialTargets env exp rd i ids w = (none, w') ∧
      w'.clock = w.clock + ids.length * (wrapInt64 (exp.ChaosInterval * Second)).toNat := by
  induction ids with
  | nil => intro i w; exact ⟨w, rfl, by simp⟩
  | cons id rest ih =>
    intro i w
    obtain ⟨w1, h1, c1⟩ := quiet_serialTarget env exp rd herr hcost i id w
    obtain ⟨w2, h2, c2⟩ := ih (i + 1) w1
    refine ⟨w2, ?_, ?_⟩
    · simp only [serialTargets, h1, h2]
    · rw [c2, c1, List.length_cons]; ring

theorem parallelStop_append (env : Env) (exp : ExperimentDetails) (l1 l2 : List String) :
    ∀ w w1 : World, parallelStop env exp l1 w = (none, w1) →
      parallelStop env exp (l1 ++ l2) w = parallelStop env exp l2 w1 := by
  induction l1 with
  | nil =>
    intro w w1 h
    simp only [parallelStop, Prod.mk.injEq, true_and] at h
    subst h
    rfl
  | cons id rest ih =>
    intro w w1 h
    simp only [parallelStop, List.cons_append] at h ⊢
    split at h
    · simp at h
    · exact ih _ _ h

theorem parallelStop_none (env : Env) (exp : ExperimentDetails) (ids : List String) :
    ∀ w w' : World, parallelStop env exp ids w = (none, w') →
      w'.trace = (stopCalls exp ids).reverse ++ w.trace ∧
      (∀ id, lastState w.trace id = some "injected" → lastState w'.trace id = some "injected") ∧
      ∀ id ∈ ids, lastState w'.trace id = some "injected" := by
  induction ids with
  | nil =>
    intro w w' h
    simp only [parallelStop, Prod.mk.injEq, true_and] at h
    subst h
    simp [stopCalls]
  | cons id rest ih =>
    intro w w' h
    simp only [parallelStop, World.call] at h
    split at h
    · simp at h
    · rename_i h1
      simp only [Prod.mk.injEq] at h1
      obtain ⟨_, rfl⟩ := h1
      obtain ⟨h2, h3, h4⟩ := ih _ _ h
      refine ⟨?_, ?_, ?_⟩
      · rw [h2]
        simp [stopCalls, step_trace, List.flatMap_cons]
      · intro a ha
        apply h3
        simp only [step_trace, lastState]
        split
        · rfl
        · exact ha
      · intro a ha
        rcases List.mem_cons.mp ha with rfl | ha
        · apply h3
          simp [step_trace, lastState]
        · exact h4 a ha

end EC2TerminateByTag

/-! ## Theorems -/

namespace EC2TerminateByTag

/-- C2: every run of ec2-terminate-by-tag `injectChaosInSerialMode` that returns
nil (with `ChaosDuration > 0` or not) has, at return, at least `ChaosDuration`
whole seconds elapsed since `ChaosStartTimeStamp`; and the elapsed time is read
only between whole passes: what the run shows is the first duration check
followed by `k` whole passes, each of which stops and reverts every instance of
the list, in order, before the next duration check, whatever the time the
environment lets pass in the middle of a pass. -/
theorem C2_duration_checked_between_whole_passes (env : Env) (exp : ExperimentDetails)
    (instanceIDList : List String) (resultDetails : ResultDetails) (fuel : Nat) (w w' : World)
    (h : injectChaosInSerialMode env exp instanceIDList resultDetails fuel w =
      (.returned none, w')) :
    exp.ChaosDuration ≤ (((w'.clock - (w.timeNow env).1) / 1000000000 : Nat) : Int) ∧
    ∃ k, chrono mark w'.trace =
      chrono mark w.trace ++ .check :: passesMarks exp instanceIDList k := by
  unfold injectChaosInSerialMode at h
  split at h
  · simp at h
  · obtain ⟨hle, k, hk⟩ := serialLoop_marks env exp resultDetails instanceIDList _ fuel _ _ _
      (timeSince_fst env _ _) h
    refine ⟨hle, k, ?_⟩
    rw [hk, timeSince_marks]
    simp [World.timeNow, chrono_cons, mark, step_trace]

/-- C3 (as amended): in a serial run of ec2-terminate-by-tag
`injectChaosInSerialMode` over the 2 targets `a`, `b` with `ChaosDuration = 30`
and `ChaosInterval = 10`, where every platform action succeeds and only the
chaos-interval waits consume time, the run returns nil after two whole passes
(the first pass ends after 20 s, which is less than the duration): each target
is stopped (`EC2Stop`) exactly twice and started back (`EC2Start`) exactly
twice, and the run lasts 40 s. -/
theorem C3_two_targets_are_treated_in_two_passes (env : Env) (exp : ExperimentDetails)
    (a b : String) (resultDetails : ResultDetails) (fuel : Nat) (w : World)
    (herr : ∀ h, env.err h = none) (hcost : ∀ h, env.cost h = 0)
    (hdur : exp.ChaosDuration = 30) (hint : exp.ChaosInterval = 10)
    (hm : exp.ManagedNodegroup ≠ "enable") (hinj : w.inject = false) (hfuel : 2 ≤ fuel) :
    ∃ w', injectChaosInSerialMode env exp [a, b] resultDetails fuel w = (.returned none, w') ∧
      w'.clock = w.clock + 40000000000 ∧
      chrono mark w'.trace = chrono mark w.trace ++
        [.check, .stop a, .start a, .reverted a, .stop b, .start b, .reverted b,
         .check, .stop a, .start a, .reverted a, .stop b, .start b, .reverted b, .check] := by
  have hw : (wrapInt64 (exp.ChaosInterval * Second)).toNat = 10000000000 := by rw [hint]; decide
  obtain ⟨fuel, rfl⟩ : ∃ f, fuel = f + 2 := ⟨fuel - 2, by omega⟩
  have hts : ∀ (s : Nat) (v : World), ((v.timeSince env s).2).clock = v.clock := by
    intro s v; simp [World.timeSince, World.step, hcost]
  have hie : ∀ v : World, (injectEvent env exp v).clock = v.clock := by
    intro v; unfold injectEvent; split <;> simp [World.step, hcost]
  have hstart : (w.timeNow env).1 = w.clock := by simp [World.timeNow, World.step, hcost]
  have hnow : (w.timeNow env).2.clock = w.clock := by simp [World.timeNow, World.step, hcost]
  obtain ⟨w1, h1, c1⟩ := quiet_serialTargets env exp resultDetails herr hcost [a, b] 0
    (injectEvent env exp ((w.timeNow env).2.timeSince env (w.timeNow env).1).2)
  obtain ⟨w2, h2, c2⟩ := quiet_serialTargets env exp resultDetails herr hcost [a, b] 0
    (injectEvent env exp (w1.timeSince env (w.timeNow env).1).2)
  rw [hw, hie, hts] at c1 c2
  rw [hnow] at c1
  simp only [List.length_cons, List.length_nil] at c1 c2
  have d0 : ((w.timeNow env).2.timeSince env (w.timeNow env).1).1 < exp.ChaosDuration := by
    rw [timeSince_fst, hts, hnow, hstart, hdur]; simp
  have d1 : (w1.timeSince env (w.timeNow env).1).1 < exp.ChaosDuration := by
    rw [timeSince_fst, hts, c1, hstart, hdur]
    have : (w.clock + (0 + 1 + 1) * 10000000000 - w.clock) / 1000000000 = 20 := by omega
    rw [this]; norm_num
  have d2 : ¬ (w2.timeSince env (w.timeNow env).1).1 < exp.ChaosDuration := by
    rw [timeSince_fst, hts, c2, c1, hstart, hdur]
    have : (w.clock + (0 + 1 + 1) * 10000000000 + (0 + 1 + 1) * 10000000000 - w.clock) / 1000000000
        = 40 := by omega
    rw [this]; norm_num
  refine ⟨(w2.timeSince env (w.timeNow env).1).2, ?_, ?_, ?_⟩
  · unfold injectChaosInSerialMode
    rw [if_neg (by simp [hinj])]
    simp only []
    rw [serialLoop.eq_def, if_pos d0]
    simp only [h1]
    rw [serialLoop.eq_def, if_pos d1]
    simp only [h2]
    rw [serialLoop.eq_def, if_neg d2]
  · have e := hts (w.timeNow env).1 w2
    omega
  · rw [timeSince_marks, serialTargets_marks _ _ _ _ _ _ _ h2, injectEvent_marks, timeSince_marks,
      serialTargets_marks _ _ _ _ _ _ _ h1, injectEvent_marks, timeSince_marks]
    simp [World.timeNow, chrono_cons, mark, step_trace, targetMarks, hm]

/-- C4: at every point of an execution of ec2-terminate-by-tag
`injectChaosInSerialMode` that starts with no target recorded as injected (every
trace `s` between the initial trace and the final one, whatever the outcome of
the run, error and fuel exhaustion included), at most one target has `injected`
as its most recently recorded state; this holds for every target list, with or
without duplicates.  In `injectChaosInParallelMode`, when the instances can be
stopped and a pass starts, there is a point of the run at which every target of
the list is recorded as injected. -/
theorem C4_serial_has_at_most_one_injected_target (env : Env) (exp : ExperimentDetails)
    (instanceIDList : List String) (resultDetails : ResultDetails) (fuel : Nat) (w : World)
    (h0 : ∀ id, lastState w.trace id ≠ some "injected") :
    (∀ s, w.trace <:+ s →
      s <:+ (injectChaosInSerialMode env exp instanceIDList resultDetails fuel w).2.trace →
      AtMostOneInjected s) ∧
    (w.inject = false → 0 < exp.ChaosDuration → 0 < fuel →
      env.cost (.timeSince :: .timeNow :: w.trace) < 1000000000 →
      (∀ id h, env.err (.ec2Stop id exp.Region :: h) = none) →
      ∃ s, w.trace <:+ s ∧
        s <:+ (injectChaosInParallelMode env exp instanceIDList resultDetails fuel w).2.trace ∧
        ∀ id ∈ instanceIDList, lastState s id = some "injected") := by
  constructor
  · have hT : ∃ S, Track w.trace S
        (injectChaosInSerialMode env exp instanceIDList resultDetails fuel w).2.trace := by
      unfold injectChaosInSerialMode
      split
      · exact ⟨[], track_start h0⟩
      · exact serialLoop_track env exp resultDetails instanceIDList _ w.trace fuel _ _
          (track_other (fun _ => rfl) (track_other (fun _ => rfl) (track_start h0)))
    obtain ⟨S, hS⟩ := hT
    exact hS.2.2.1
  · intro hinj hd hfuel hcost hstop
    obtain ⟨fuel, rfl⟩ : ∃ f, fuel = f + 1 := ⟨fuel - 1, by omega⟩
    have d0 : ((w.timeNow env).2.timeSince env (w.timeNow env).1).1 < exp.ChaosDuration := by
      have : (((w.timeNow env).2.timeSince env (w.timeNow env).1).1 : Int) = 0 := by
        simp only [World.timeSince, World.timeNow, World.step]
        have : (w.clock + env.cost (Event.timeNow :: w.trace) +
            env.cost (Event.timeSince :: Event.timeNow :: w.trace) -
            (w.clock + env.cost (Event.timeNow :: w.trace))) / 1000000000 = 0 := by omega
        rw [this]
        rfl
      rw [this]
      exact hd
    obtain ⟨w1, h1, h2, _, h4⟩ := parallelStop_injected env exp hstop instanceIDList
      (injectEvent env exp ((w.timeNow env).2.timeSince env (w.timeNow env).1).2)
    refine ⟨w1.trace, ?_, ?_, h4⟩
    · refine List.IsSuffix.trans ?_ ((injectEvent_suffix env exp _).trans h2)
      exact suffix_cons_of _ (List.suffix_cons _ _)
    · unfold injectChaosInParallelMode
      rw [if_neg (by simp [hinj])]
      simp only []
      rw [parallelLoop.eq_def, if_pos d0]
      simp only
      have a := parallelPass_after_stop env exp resultDetails instanceIDList _ w1 h1
      split
      · rename_i hp
        rw [hp] at a
        exact a
      · rename_i w2 hp
        rw [hp] at a
        refine (a.trans ?_).trans (parallelLoop_suffix env exp resultDetails instanceIDList _ _ _ _)
        exact List.suffix_cons _ _

/-- Witness of C2: a run over two instances with a duration of 30 s and an
interval of 10 s returns nil. -/
theorem C2_witness :
    (30 : Int) ≤ ((((injectChaosInSerialMode quietEnv { ChaosDuration := 30, ChaosInterval := 10 }
        ["i-1", "i-2"] {} 5 {}).2.clock - (World.timeNow quietEnv {}).1) / 1000000000 : Nat) : Int) ∧
    ∃ k, chrono mark (injectChaosInSerialMode quietEnv { ChaosDuration := 30, ChaosInterval := 10 }
        ["i-1", "i-2"] {} 5 {}).2.trace =
      chrono mark [] ++
        .check :: passesMarks { ChaosDuration := 30, ChaosInterval := 10 } ["i-1", "i-2"] k :=
  C2_duration_checked_between_whole_passes quietEnv { ChaosDuration := 30, ChaosInterval := 10 }
    ["i-1", "i-2"] {} 5 {} _ (Prod.ext (by decide) rfl)

/-- Counterexample to C3 as stated: with two targets, a duration of 30 s and an
interval of 10 s, every action succeeding and only the waits taking time, the
run returns nil after 40 s and each target has been stopped twice and started
back twice, not once. -/
theorem C3_counterexample :
    (injectChaosInSerialMode quietEnv { ChaosDuration := 30, ChaosInterval := 10 }
        ["i-1", "i-2"] {} 5 {}).1 = .returned none ∧
    (injectChaosInSerialMode quietEnv { ChaosDuration := 30, ChaosInterval := 10 }
        ["i-1", "i-2"] {} 5 {}).2.clock = 40000000000 ∧
    (injectChaosInSerialMode quietEnv { ChaosDuration := 30, ChaosInterval := 10 }
        ["i-1", "i-2"] {} 5 {}).2.trace.count (.ec2Stop "i-1" "") = 2 ∧
    (injectChaosInSerialMode quietEnv { ChaosDuration := 30, ChaosInterval := 10 }
        ["i-1", "i-2"] {} 5 {}).2.trace.count (.ec2Start "i-1" "") = 2 ∧
    (injectChaosInSerialMode quietEnv { ChaosDuration := 30, ChaosInterval := 10 }
        ["i-1", "i-2"] {} 5 {}).2.trace.count (.ec2Stop "i-2" "") = 2 ∧
    (injectChaosInSerialMode quietEnv { ChaosDuration := 30, ChaosInterval := 10 }
        ["i-1", "i-2"] {} 5 {}).2.trace.count (.ec2Start "i-2" "") = 2 := by
  decide

/-- Witness of C3 (as amended), at the targets `i-1` and `i-2`. -/
theorem C3_witness :
    ∃ w', injectChaosInSerialMode quietEnv { ChaosDuration := 30, ChaosInterval := 10 }
        ["i-1", "i-2"] {} 5 {} = (.returned none, w') ∧
      w'.clock = (0 : Nat) + 40000000000 ∧
      chrono mark w'.trace = chrono mark [] ++
        [.check, .stop "i-1", .start "i-1", .reverted "i-1", .stop "i-2", .start "i-2",
         .reverted "i-2", .check, .stop "i-1", .start "i-1", .reverted "i-1", .stop "i-2",
         .start "i-2", .reverted "i-2", .check] :=
  C3_two_targets_are_treated_in_two_passes quietEnv { ChaosDuration := 30, ChaosInterval := 10 }
    "i-1" "i-2" {} 5 {} (fun _ => rfl) (fun _ => rfl) rfl rfl (by decide) rfl (by decide)

/-- Witness of C4, at two instances, a duration of 30 s and an interval of 10 s. -/
theorem C4_witness :
    (∀ s, [] <:+ s →
      s <:+ (injectChaosInSerialMode quietEnv { ChaosDuration := 30, ChaosInterval := 10 }
        ["i-1", "i-2"] {} 5 {}).2.trace → AtMostOneInjected s) ∧
    ∃ s, [] <:+ s ∧
      s <:+ (injectChaosInParallelMode quietEnv { ChaosDuration := 30, ChaosInterval := 10 }
        ["i-1", "i-2"] {} 5 {}).2.trace ∧
      ∀ id ∈ ["i-1", "i-2"], lastState s id = some "injected" :=
  ⟨(C4_serial_has_at_most_one_injected_target quietEnv
      { ChaosDuration := 30, ChaosInterval := 10 } ["i-1", "i-2"] {} 5 {}
      (fun _ => by simp [lastState])).1,
   (C4_serial_has_at_most_one_injected_target quietEnv
      { ChaosDuration := 30, ChaosInterval := 10 } ["i-1", "i-2"] {} 5 {}
      (fun _ => by simp [lastState])).2 rfl (by decide) (by decide) (by decide) (fun _ _ => rfl)⟩

/-- Counterexample to C5 as stated: when `EC2Stop` fails for the second target
`i-2`, `injectChaosInParallelMode` returns the error right after the failing
call; no `EC2Start` is attempted for the first target `i-1`, which is left
recorded as injected. -/
theorem C5_counterexample :
    (injectChaosInParallelMode stopFailsEnv { ChaosDuration := 30, ChaosInterval := 10 }
        ["i-1", "i-2"] {} 5 {}).1 =
      .returned (some (.propagate (.external "stop failed") "ec2 instance failed to stop")) ∧
    (injectChaosInParallelMode stopFailsEnv { ChaosDuration := 30, ChaosInterval := 10 }
        ["i-1", "i-2"] {} 5 {}).2.trace.reverse =
      [.timeNow, .timeSince, .ec2Stop "i-1" "", .setTargets "i-1" "injected" "EC2",
       .ec2Stop "i-2" ""] ∧
    lastState (injectChaosInParallelMode stopFailsEnv { ChaosDuration := 30, ChaosInterval := 10 }
        ["i-1", "i-2"] {} 5 {}).2.trace "i-1" = some "injected" := by
  decide

/-- C5 (as amended): in a pass of the duration loop of ec2-terminate-by-tag
`injectChaosInParallelMode`, if `EC2Stop` succeeds for the targets `0..k-1` and
fails for the `k`-th target, the loop returns that error (wrapped as
"ec2 instance failed to stop") at once: the calls of the pass are the
`EC2Stop`/`SetTargets(.., "injected")` pairs of the targets `0..k-1` followed
by the failing `EC2Stop`, so no `EC2Start` is attempted, and the targets
`0..k-1` are left recorded as injected. -/
theorem C5_stop_failure_returns_without_revert (env : Env) (exp : ExperimentDetails)
    (instanceIDList : List String) (resultDetails : ResultDetails) (start fuel : Nat)
    (duration : Int) (w wk : World) (k : Nat) (idk : String) (cause : GoError)
    (hd : duration < exp.ChaosDuration)
    (hk : instanceIDList[k]? = some idk)
    (hs : parallelStop env exp (instanceIDList.take k) (injectEvent env exp w) = (none, wk))
    (hf : env.err (.ec2Stop idk exp.Region :: wk.trace) = some cause) :
    parallelLoop env exp resultDetails instanceIDList start (fuel + 1) duration w =
      (.returned (some (.propagate cause "ec2 instance failed to stop")),
        wk.step env (.ec2Stop idk exp.Region)) ∧
    (wk.step env (.ec2Stop idk exp.Region)).trace =
      .ec2Stop idk exp.Region :: (stopCalls exp (instanceIDList.take k)).reverse ++
        (injectEvent env exp w).trace ∧
    ∀ id ∈ instanceIDList.take k,
      lastState (wk.step env (.ec2Stop idk exp.Region)).trace id = some "injected" := by
  obtain ⟨h1, _, h3⟩ := parallelStop_none env exp _ _ _ hs
  refine ⟨?_, ?_, ?_⟩
  · have hsplit : instanceIDList = instanceIDList.take k ++ idk :: instanceIDList.drop (k + 1) := by
      have hlt : k < instanceIDList.length := by
        rcases List.getElem?_eq_some_iff.mp hk with ⟨hlt, _⟩
        exact hlt
      have hget : instanceIDList[k] = idk := by
        rcases List.getElem?_eq_some_iff.mp hk with ⟨_, hget⟩
        exact hget
      have := List.take_append_drop k instanceIDList
      rw [List.drop_eq_getElem_cons hlt, hget] at this
      exact this.symm
    have hstop : parallelStop env exp instanceIDList (injectEvent env exp w) =
        (some (.propagate cause "ec2 instance failed to stop"),
          wk.step env (.ec2Stop idk exp.Region)) := by
      rw [hsplit, parallelStop_append env exp _ _ _ _ hs]
      simp only [parallelStop, World.call, hf]
    rw [parallelLoop.eq_def, if_pos hd]
    simp only [parallelPass, hstop]
  · rw [step_trace, h1]
    simp
  · intro id hid
    exact h3 id hid

/-- Witness of C5 (as amended): the second of two targets fails to stop. -/
theorem C5_witness :
    parallelLoop stopFailsEnv { ChaosDuration := 30, ChaosInterval := 10 } {} ["i-1", "i-2"] 0
        (0 + 1) 0 {} =
      (.returned (some (.propagate (.external "stop failed") "ec2 instance failed to stop")),
        World.step stopFailsEnv (.ec2Stop "i-2" "")
          { trace := [.setTargets "i-1" "injected" "EC2", .ec2Stop "i-1" ""] }) ∧
    (World.step stopFailsEnv (.ec2Stop "i-2" "")
        { trace := [.setTargets "i-1" "injected" "EC2", .ec2Stop "i-1" ""] }).trace =
      .ec2Stop "i-2" "" :: (stopCalls { ChaosDuration := 30, ChaosInterval := 10 }
        (["i-1", "i-2"].take 1)).reverse ++
        (injectEvent stopFailsEnv { ChaosDuration := 30, ChaosInterval := 10 } {}).trace ∧
    ∀ id ∈ ["i-1", "i-2"].take 1,
      lastState (World.step stopFailsEnv (.ec2Stop "i-2" "")
        { trace := [.setTargets "i-1" "injected" "EC2", .ec2Stop "i-1" ""] }).trace id =
        some "injected" :=
  C5_stop_failure_returns_without_revert stopFailsEnv { ChaosDuration := 30, ChaosInterval := 10 }
    ["i-1", "i-2"] {} 0 0 0 {} _ 1 "i-2" (.external "stop failed") (by decide) rfl
    (by decide) (by decide)

end EC2TerminateByTag

namespace EBSLoss

set_option maxRecDepth 100000 in
/-- Counterexample to C1 as stated: with one volume, one probe, a duration of
2 s and an interval of 1 s the run returns nil after two passes and has invoked
`RunProbes` for DuringChaos twice; with a duration of 0 s it returns nil
without any pass and has not invoked it at all. -/
theorem C1_counterexample :
    ((InjectChaosInSerialMode quietEnv { ChaosDuration := 2, ChaosInterval := 1 } ["vol-1"]
        { ProbeDetails := [{}] } 5 {}).1 = .returned none ∧
      (InjectChaosInSerialMode quietEnv { ChaosDuration := 2, ChaosInterval := 1 } ["vol-1"]
        { ProbeDetails := [{}] } 5 {}).2.trace.count (.runProbes "DuringChaos") = 2) ∧
    ((InjectChaosInSerialMode quietEnv { ChaosDuration := 0, ChaosInterval := 1 } ["vol-1"]
        { ProbeDetails := [{}] } 5 {}).1 = .returned none ∧
      (InjectChaosInSerialMode quietEnv { ChaosDuration := 0, ChaosInterval := 1 } ["vol-1"]
        { ProbeDetails := [{}] } 5 {}).2.trace.count (.runProbes "DuringChaos") = 0) := by
  decide

/-- C1 (as amended): in ebs-loss `InjectChaosInSerialMode` with a non-empty
target list `v :: rest` and non-empty `ProbeDetails`, a run that returns nil
after exactly one pass of the duration loop (the elapsed time is read twice)
invokes `RunProbes` for DuringChaos exactly once, right after the wait for the
detachment of the first target `v` and before any other target is waited for,
however many targets the list has; a run that returns nil without any pass (the
elapsed time is read once) does not invoke it. -/
theorem C1_probes_run_once_in_a_single_pass (env : Env) (exp : ExperimentDetails)
    (v : String) (rest : List String) (resultDetails : ResultDetails) (fuel : Nat) (w w' : World)
    (hp : resultDetails.ProbeDetails ≠ [])
    (h : InjectChaosInSerialMode env exp (v :: rest) resultDetails fuel w = (.returned none, w')) :
    (w'.trace.count .timeSince = w.trace.count .timeSince + 1 →
      chrono mark w'.trace = chrono mark w.trace ++ [.check]) ∧
    (w'.trace.count .timeSince = w.trace.count .timeSince + 2 →
      chrono mark w'.trace = chrono mark w.trace ++
        ([.check, .waited v, .probes] ++ rest.map .waited ++ [.check])) := by
  unfold InjectChaosInSerialMode at h
  obtain ⟨k, hk⟩ := ebs_serialLoop_marks env exp resultDetails hp (v :: rest) _ fuel _ _ _ h
  rw [ebs_timeSince_marks] at hk
  have h0 : chrono mark (w.timeNow env).2.trace = chrono mark w.trace := by
    simp [World.timeNow, chrono_cons, mark, step_trace]
  rw [h0] at hk
  have hc := congrArg (List.count Mark.check) hk
  rw [count_check, List.count_append, List.count_append, count_check,
    count_check_passesMarks] at hc
  simp only [List.count_cons_self, List.count_nil] at hc
  constructor
  · intro h1
    have : k = 0 := by omega
    subst this
    simpa [passesMarks] using hk
  · intro h2
    have : k = 1 := by omega
    subst this
    simpa [passesMarks, passMarks] using hk

set_option maxRecDepth 100000 in
/-- Witness of C1 (as amended): two volumes, one probe, a duration of 1 s and an
interval of 1 s; the single pass lasts 2 s. -/
theorem C1_witness :
    chrono mark (InjectChaosInSerialMode quietEnv { ChaosDuration := 1, ChaosInterval := 1 }
        ("vol-1" :: ["vol-2"]) { ProbeDetails := [{}] } 5 {}).2.trace =
      chrono mark [] ++ ([.check, .waited "vol-1", .probes] ++ ["vol-2"].map .waited ++ [.check]) :=
  (C1_probes_run_once_in_a_single_pass quietEnv { ChaosDuration := 1, ChaosInterval := 1 }
    "vol-1" ["vol-2"] { ProbeDetails := [{}] } 5 {} _ (by decide) (Prod.ext (by decide) rfl)).2
    (by decide)

/-- Counterexample to C6 as stated: when re-attaching the first volume `vol-1`
fails in the revert phase of `InjectChaosInParallelMode`, the error is returned
at once; no revert call is made for the second volume `vol-2`, which is left
recorded as injected. -/
theorem C6_counterexample :
    (InjectChaosInParallelMode attachFailsEnv { ChaosDuration := 30, ChaosInterval := 10 }
        ["vol-1", "vol-2"] {} 5 {}).1 =
      .returned (some (.propagate (.external "attach failed") "ebs attachment failed")) ∧
    (InjectChaosInParallelMode attachFailsEnv { ChaosDuration := 30, ChaosInterval := 10 }
        ["vol-1", "vol-2"] {} 5 {}).2.trace.count (.getEBSStatus "vol-2" "i-0" "") = 0 ∧
    (InjectChaosInParallelMode attachFailsEnv { ChaosDuration := 30, ChaosInterval := 10 }
        ["vol-1", "vol-2"] {} 5 {}).2.trace.count (.ebsVolumeAttach "vol-2" "i-0" "/dev/sdf" "") = 0 ∧
    lastState (InjectChaosInParallelMode attachFailsEnv { ChaosDuration := 30, ChaosInterval := 10 }
        ["vol-1", "vol-2"] {} 5 {}).2.trace "vol-2" = some "injected" := by
  decide

/-- C6 (as amended): in the revert phase of ebs-loss `InjectChaosInParallelMode`,
a failure while reverting a volume `v` (`GetEBSStatus`, `EBSVolumeAttach` or
`WaitForVolumeAttachment` returns an error) ends the revert loop: the error is
returned with the world as it is right after the failing call, the calls made
since the revert of `v` began are calls on `v` only, and so no revert is
attempted on the volumes `post` that follow `v` in the list. -/
theorem C6_revert_failure_ends_the_revert_loop (env : Env) (exp : ExperimentDetails)
    (att : Attachments) (i : Nat) (pre : List String) (v : String) (post : List String)
    (w w1 w2 : World) (err : GoError)
    (hpre : parallelRevert env exp att i pre w = (none, w1))
    (hv : revertVolume env exp v (att.ec2InstanceIDList.getD (i + pre.length) "")
      (att.deviceList.getD (i + pre.length) "") w1 = (some err, w2)) :
    parallelRevert env exp att i (pre ++ v :: post) w = (some err, w2) ∧
    ∃ n, 1 ≤ n ∧ n ≤ 3 ∧
      w2.trace = ((revertCalls exp v (att.ec2InstanceIDList.getD (i + pre.length) "")
        (att.deviceList.getD (i + pre.length) "")).take n).reverse ++ w1.trace := by
  refine ⟨?_, revertVolume_fails env exp v _ _ w1 w2 err hv⟩
  rw [parallelRevert_append env exp att pre (v :: post) i w w1 hpre]
  simp only [parallelRevert, hv]

/-- Witness of C6 (as amended): the first of two volumes fails to re-attach. -/
theorem C6_witness :
    parallelRevert attachFailsEnv {} twoAttachments 0 ([] ++ "vol-1" :: ["vol-2"]) {} =
      (some (.propagate (.external "attach failed") "ebs attachment failed"),
        (revertVolume attachFailsEnv {} "vol-1" "i-0" "/dev/sdf" {}).2) ∧
    ∃ n, 1 ≤ n ∧ n ≤ 3 ∧
      (revertVolume attachFailsEnv {} "vol-1" "i-0" "/dev/sdf" {}).2.trace =
        ((revertCalls {} "vol-1" (twoAttachments.ec2InstanceIDList.getD (0 + ([] : List String).length) "")
          (twoAttachments.deviceList.getD (0 + ([] : List String).length) "")).take n).reverse ++
          ({} : World).trace :=
  C6_revert_failure_ends_the_revert_loop attachFailsEnv {} twoAttachments 0 [] "vol-1" ["vol-2"]
    {} {} _ _ rfl (Prod.ext (by decide) rfl)

end EBSLoss

namespace EBSLoss

/-- C8: in ebs-loss, when at revert time `GetEBSStatus` reports the volume `v`
as `attached` (and returns no error), the revert of `v` is a no-op: the revert
step shared by `InjectChaosInSerialMode` and `InjectChaosInParallelMode` makes
no other call than `GetEBSStatus`, returns no error and records `v` as
reverted; the revert loop of the parallel mode goes on with the next volume;
and a treatment of `v` in serial mode whose status query reports `attached`
calls neither `EBSVolumeAttach` nor `WaitForVolumeAttachment` and, when it
returns nil, leaves `v` recorded as reverted. -/
theorem C8_attached_volume_is_not_attached_again (env : Env) (exp : ExperimentDetails)
    (v inst dev : String) (w : World)
    (hs : env.ebsState (.getEBSStatus v inst exp.Region :: w.trace) = "attached")
    (he : env.err (.getEBSStatus v inst exp.Region :: w.trace) = none) :
    (revertVolume env exp v inst dev w).1 = none ∧
    (revertVolume env exp v inst dev w).2.trace =
      [.setTargets v "reverted" "EBS", .getEBSStatus v inst exp.Region] ++ w.trace ∧
    lastState (revertVolume env exp v inst dev w).2.trace v = some "reverted" ∧
    (∀ (att : Attachments) (i : Nat) (rest : List String),
      att.ec2InstanceIDList.getD i "" = inst → att.deviceList.getD i "" = dev →
      parallelRevert env exp att i (v :: rest) w =
        parallelRevert env exp att (i + 1) rest (revertVolume env exp v inst dev w).2) ∧
    ((∀ inst t, env.ebsState (.getEBSStatus v inst exp.Region :: t) = "attached" ∧
        env.err (.getEBSStatus v inst exp.Region :: t) = none) →
      ∀ (resultDetails : ResultDetails) (i : Nat) (w0 w' : World) (r : Option GoError),
        serialTarget env exp resultDetails i v w0 = (r, w') →
        chrono attachMark w'.trace = chrono attachMark w0.trace ∧
          (r = none → lastState w'.trace v = some "reverted")) := by
  have key := revertVolume_attached env exp v inst dev w hs he
  refine ⟨by rw [key], by rw [key]; rfl, by rw [key]; simp [step_trace, lastState], ?_, ?_⟩
  · intro att i rest hi hd
    simp only [parallelRevert, hi, hd, key]
  · intro H rd i w0 w' r h
    exact serialTarget_attached env exp rd i v w0 w' r H h

/-- Witness of C8: the volume `vol-1` is reported `attached`, at the revert
step and in a whole serial treatment. -/
theorem C8_witness :
    ((revertVolume attachedEnv {} "vol-1" "i-0" "/dev/sdf" {}).1 = none ∧
      (revertVolume attachedEnv {} "vol-1" "i-0" "/dev/sdf" {}).2.trace =
        [.setTargets "vol-1" "reverted" "EBS", .getEBSStatus "vol-1" "i-0" ""] ++ [] ∧
      lastState (revertVolume attachedEnv {} "vol-1" "i-0" "/dev/sdf" {}).2.trace "vol-1" =
        some "reverted") ∧
    (chrono attachMark (serialTarget attachedEnv {} {} 0 "vol-1" {}).2.trace =
        chrono attachMark [] ∧
      ((serialTarget attachedEnv {} {} 0 "vol-1" {}).1 = none →
        lastState (serialTarget attachedEnv {} {} 0 "vol-1" {}).2.trace "vol-1" =
          some "reverted")) :=
  ⟨⟨(C8_attached_volume_is_not_attached_again attachedEnv {} "vol-1" "i-0" "/dev/sdf" {}
        rfl rfl).1,
      (C8_attached_volume_is_not_attached_again attachedEnv {} "vol-1" "i-0" "/dev/sdf" {}
        rfl rfl).2.1,
      (C8_attached_volume_is_not_attached_again attachedEnv {} "vol-1" "i-0" "/dev/sdf" {}
        rfl rfl).2.2.1⟩,
    (C8_attached_volume_is_not_attached_again attachedEnv {} "vol-1" "i-0" "/dev/sdf" {}
      rfl rfl).2.2.2.2 (fun _ _ => ⟨rfl, rfl⟩) {} 0 {} _ _ rfl⟩

/-- C10 (the code at the failing input): with `EBSVolumeID = "vol-1,vol-2"`, as
`PrepareEBSLossByID` splits it into the volume list `["vol-1", "vol-2"]`,
`AbortWatcher` fetches the attachment details of each volume, but queries the
status of, waits for the detachment of and re-attaches the volume id
`"vol-1,vol-2"` for both of them; it records each volume as reverted and exits
with code 1. -/
theorem C10_abort_watcher_reverts_the_configured_id_not_the_volume :
    (AbortWatcher quietEnv { EBSVolumeID := "vol-1,vol-2" } ["vol-1", "vol-2"] {}).1 = .exited 1 ∧
    (AbortWatcher quietEnv { EBSVolumeID := "vol-1,vol-2" } ["vol-1", "vol-2"] {}).2.trace.reverse =
      [.getVolumeAttachmentDetails "vol-1" "" "",
       .getEBSStatus "vol-1,vol-2" "i-0" "",
       .waitForVolumeDetachment "vol-1,vol-2" "i-0" "" 0 0,
       .ebsVolumeAttach "vol-1,vol-2" "i-0" "/dev/sdf" "",
       .setTargets "vol-1" "reverted" "EBS",
       .getVolumeAttachmentDetails "vol-2" "" "",
       .getEBSStatus "vol-1,vol-2" "i-0" "",
       .waitForVolumeDetachment "vol-1,vol-2" "i-0" "" 0 0,
       .ebsVolumeAttach "vol-1,vol-2" "i-0" "/dev/sdf" "",
       .setTargets "vol-2" "reverted" "EBS"] := by
  decide

end EBSLoss

namespace PodCPUHogExec

/-- C7: `killStressCPUParallel` attempts the revert (`killStressCPUSerial`) on
every pod of the list, in list order, whatever the outcome for earlier pods: it
leaves the world that `revertEveryPod` leaves, one outcome and one exec call
per pod, in list order.  It returns nil if and only if every revert succeeded,
and otherwise a single `PreserveError` whose text is `[`, the messages of all
the failed pods in list order joined by `,`, and `]`. -/
theorem C7_killStressCPUParallel_reverts_every_pod (env : Env) (exp : ExperimentDetails)
    (targetPodList : List Pod) (w : World) :
    (killStressCPUParallel env exp targetPodList w).2 = (revertEveryPod env exp targetPodList w).2 ∧
    (revertEveryPod env exp targetPodList w).1.length = targetPodList.length ∧
    chrono execMark (killStressCPUParallel env exp targetPodList w).2.trace =
      chrono execMark w.trace ++ targetPodList.map (fun pod => (pod.Name, pod.Namespace)) ∧
    ((killStressCPUParallel env exp targetPodList w).1 = none ↔
      ∀ o ∈ (revertEveryPod env exp targetPodList w).1, o = none) ∧
    ((killStressCPUParallel env exp targetPodList w).1 ≠ none →
      (killStressCPUParallel env exp targetPodList w).1 =
        some (.preserve ("[" ++ String.intercalate ","
          (failedTexts env (revertEveryPod env exp targetPodList w).1) ++ "]"))) := by
  have hl := killStressCPULoop_eq env exp targetPodList [] w
  simp only [List.nil_append] at hl
  have hw : (killStressCPUParallel env exp targetPodList w).2 =
      (revertEveryPod env exp targetPodList w).2 := by
    unfold killStressCPUParallel
    simp only [hl]
    split <;> rfl
  refine ⟨hw, revertEveryPod_length env exp targetPodList w, ?_, ?_, ?_⟩
  · rw [hw, revertEveryPod_exec]
  · rw [← failedTexts_eq_nil env]
    unfold killStressCPUParallel
    simp only [hl]
    split
    · rename_i h
      simp only [reduceCtorEq, false_iff]
      intro h'
      rw [h'] at h
      simp at h
    · rename_i h
      simp only [true_iff]
      simpa using h
  · unfold killStressCPUParallel
    simp only [hl]
    split
    · intro _; rfl
    · intro h; exact absurd rfl h

/-- Counterexample to C9 as stated: with one probe and an abort signal pending
at entry, both sequencers exit with code 0 but have first triggered the
DuringChaos probe run. -/
theorem C9_counterexample :
    ((injectChaosInSerialMode quietEnv {} [{ Name := "p" }] { ProbeDetails := [{}] } {}
        { inject := true }).1 = .exited 0 ∧
      (injectChaosInSerialMode quietEnv {} [{ Name := "p" }] { ProbeDetails := [{}] } {}
        { inject := true }).2.trace.reverse =
        [.runProbes "DuringChaos", .signalNotify, .sleep 10000000000]) ∧
    ((injectChaosInParallelMode quietEnv {} [{ Name := "p" }] { ProbeDetails := [{}] } {}
        { inject := true }).1 = .exited 0 ∧
      (injectChaosInParallelMode quietEnv {} [{ Name := "p" }] { ProbeDetails := [{}] } {}
        { inject := true }).2.trace.reverse =
        [.runProbes "DuringChaos", .signalNotify, .sleep 10000000000]) := by
  decide

/-- C9 (as amended): in pod-cpu-hog-exec `injectChaosInSerialMode` and
`injectChaosInParallelMode`, when an abort signal is pending on the inject
channel at entry, no stress command is started and no target state is
recorded.  With no probe the sequencer only registers the signal channel,
sleeps 10 s and exits with code 0.  With probes, `RunProbes` for DuringChaos is
invoked before the abort check: if it returns nil the sequencer then registers
the channel, sleeps 10 s and exits with code 0; if it returns an error, that
error is returned and nothing else is done. -/
theorem C9_pending_abort_starts_no_stress (env : Env) (exp : ExperimentDetails)
    (targetPodList : List Pod) (resultDetails : ResultDetails) (chaosDetails : ChaosDetails)
    (w : World) (hinj : w.inject = true) :
    (resultDetails.ProbeDetails = [] →
      ((injectChaosInSerialMode env exp targetPodList resultDetails chaosDetails w).1 = .exited 0 ∧
        (injectChaosInSerialMode env exp targetPodList resultDetails chaosDetails w).2.trace =
          [.sleep (10 * Second), .signalNotify] ++ w.trace) ∧
      ((injectChaosInParallelMode env exp targetPodList resultDetails chaosDetails w).1 = .exited 0 ∧
        (injectChaosInParallelMode env exp targetPodList resultDetails chaosDetails w).2.trace =
          [.sleep (10 * Second), .signalNotify] ++ w.trace)) ∧
    (resultDetails.ProbeDetails ≠ [] → env.err (.runProbes "DuringChaos" :: w.trace) = none →
      ((injectChaosInSerialMode env exp targetPodList resultDetails chaosDetails w).1 = .exited 0 ∧
        (injectChaosInSerialMode env exp targetPodList resultDetails chaosDetails w).2.trace =
          [.sleep (10 * Second), .signalNotify, .runProbes "DuringChaos"] ++ w.trace) ∧
      ((injectChaosInParallelMode env exp targetPodList resultDetails chaosDetails w).1 = .exited 0 ∧
        (injectChaosInParallelMode env exp targetPodList resultDetails chaosDetails w).2.trace =
          [.sleep (10 * Second), .signalNotify, .runProbes "DuringChaos"] ++ w.trace)) ∧
    (resultDetails.ProbeDetails ≠ [] →
      ∀ err, env.err (.runProbes "DuringChaos" :: w.trace) = some err →
      ((injectChaosInSerialMode env exp targetPodList resultDetails chaosDetails w).1 =
          .returned (some err) ∧
        (injectChaosInSerialMode env exp targetPodList resultDetails chaosDetails w).2.trace =
          [.runProbes "DuringChaos"] ++ w.trace) ∧
      ((injectChaosInParallelMode env exp targetPodList resultDetails chaosDetails w).1 =
          .returned (some err) ∧
        (injectChaosInParallelMode env exp targetPodList resultDetails chaosDetails w).2.trace =
          [.runProbes "DuringChaos"] ++ w.trace)) := by
  refine ⟨?_, ?_, ?_⟩
  · intro hp
    simp [injectChaosInSerialMode, injectChaosInParallelMode, runProbesDuringChaos, hp,
      World.step, World.sleep, hinj]
  · intro hp he
    simp [injectChaosInSerialMode, injectChaosInParallelMode, runProbesDuringChaos, hp,
      World.step, World.sleep, World.call, hinj, he]
  · intro hp err he
    simp [injectChaosInSerialMode, injectChaosInParallelMode, runProbesDuringChaos, hp,
      World.step, World.call, he]

/-- Witness of C9 (as amended): one pod and an abort signal pending, without
probes and with one probe whose run succeeds. -/
theorem C9_witness :
    (((injectChaosInSerialMode quietEnv {} [{ Name := "p" }] {} {} { inject := true }).1 =
          .exited 0 ∧
        (injectChaosInSerialMode quietEnv {} [{ Name := "p" }] {} {} { inject := true }).2.trace =
          [.sleep (10 * Second), .signalNotify] ++ []) ∧
      ((injectChaosInParallelMode quietEnv {} [{ Name := "p" }] {} {} { inject := true }).1 =
          .exited 0 ∧
        (injectChaosInParallelMode quietEnv {} [{ Name := "p" }] {} {} { inject := true }).2.trace =
          [.sleep (10 * Second), .signalNotify] ++ [])) ∧
    (((injectChaosInSerialMode quietEnv {} [{ Name := "p" }] { ProbeDetails := [{}] } {}
          { inject := true }).1 = .exited 0 ∧
        (injectChaosInSerialMode quietEnv {} [{ Name := "p" }] { ProbeDetails := [{}] } {}
          { inject := true }).2.trace =
          [.sleep (10 * Second), .signalNotify, .runProbes "DuringChaos"] ++ []) ∧
      ((injectChaosInParallelMode quietEnv {} [{ Name := "p" }] { ProbeDetails := [{}] } {}
          { inject := true }).1 = .exited 0 ∧
        (injectChaosInParallelMode quietEnv {} [{ Name := "p" }] { ProbeDetails := [{}] } {}
          { inject := true }).2.trace =
          [.sleep (10 * Second), .signalNotify, .runProbes "DuringChaos"] ++ [])) :=
  ⟨(C9_pending_abort_starts_no_stress quietEnv {} [{ Name := "p" }] {} {} { inject := true }
      rfl).1 rfl,
    (C9_pending_abort_starts_no_stress quietEnv {} [{ Name := "p" }] { ProbeDetails := [{}] } {}
      { inject := true } rfl).2.1 (by decide) rfl⟩

end PodCPUHogExec

namespace PodCPUHogExec

theorem logIfError_abort (env : Env) (format : String) (r : Option GoError × World) :
    chrono abortMark (logIfError env format r).trace = chrono abortMark r.2.trace := by
  unfold logIfError
  split <;> simp [chrono_cons, abortMark, step_trace]

theorem killStressCPUSerial_abort (env : Env) (exp : ExperimentDetails) (podName ns : String)
    (w : World) :
    chrono abortMark (killStressCPUSerial env exp podName ns w).2.trace =
      chrono abortMark w.trace ++
        [.exec podName exp.TargetContainer ns ["/bin/sh", "-c", exp.ChaosKillCmd]] := by
  unfold killStressCPUSerial
  simp only [World.call]
  split <;> rename_i h <;> simp only [Prod.mk.injEq] at h <;> obtain ⟨_, rfl⟩ := h <;>
    simp [chrono_cons, abortMark, step_trace]

theorem stopAfterAbort_abort (env : Env) (chaosDetails : ChaosDetails) (target : String)
    (w : World) :
    (stopAfterAbort env chaosDetails target w).1 = .exited 1 ∧
    chrono abortMark (stopAfterAbort env chaosDetails target w).2.trace =
      chrono abortMark w.trace ++
        [.setResultAfterCompletion "Stopped" "Stopped"
          (.cerror .ErrorTypeExperimentAborted target "experiment is aborted") chaosDetails.Phase,
         .chaosResult "EOT"] := by
  unfold stopAfterAbort
  refine ⟨rfl, ?_⟩
  simp only [logIfError_abort, World.call]
  simp [chrono_cons, abortMark, step_trace]

theorem stopAfterAbort_mem (env : Env) (chaosDetails : ChaosDetails) (target : String)
    (w : World) (e : Event) (h : e ∈ w.trace) :
    e ∈ (stopAfterAbort env chaosDetails target w).2.trace := by
  unfold stopAfterAbort logIfError
  simp only [World.call]
  split <;> rename_i hh <;> simp only [Prod.mk.injEq] at hh <;> obtain ⟨_, rfl⟩ := hh <;>
    simp [step_trace, h]

/-- C11: when the abort signal is selected while `injectChaosInSerialMode` waits
on pod `pod` (at any iteration of the wait loop, `w` being the state at that
iteration), the revert of the pod is attempted, then the verdict `Stopped` is set
from an `ErrorTypeExperimentAborted` error with the current chaos phase, the
chaos result is written and the process exits with code 1; a failed revert is
logged and changes nothing of this.  The exit ends the sequencer as well, for
a pod on which the target container `exp.TargetContainer` could be set. -/
theorem C11_abort_while_waiting_reverts_and_stops (env : Env) (exp : ExperimentDetails)
    (chaosDetails : ChaosDetails) (pod : Pod) (w : World)
    (hsel : env.selected (.timeAfter (wrapInt64 (exp.ChaosDuration * Second)) :: w.trace) =
      .signChan) :
    (∀ pending : Nat,
      (serialWait env exp chaosDetails pod pending w).1 = some (.exited 1) ∧
      chrono abortMark (serialWait env exp chaosDetails pod pending w).2.trace =
        chrono abortMark w.trace ++
          [.exec pod.Name exp.TargetContainer pod.Namespace ["/bin/sh", "-c", exp.ChaosKillCmd],
           .setResultAfterCompletion "Stopped" "Stopped"
            (.cerror .ErrorTypeExperimentAborted
              ("\x7bpodName: " ++ pod.Name ++ ", namespace: " ++ pod.Namespace ++ ", container: "
                ++ exp.TargetContainer ++ "\x7d") "experiment is aborted") chaosDetails.Phase,
           .chaosResult "EOT"] ∧
      (∀ cause, env.err (.exec pod.Name exp.TargetContainer pod.Namespace
            ["/bin/sh", "-c", exp.ChaosKillCmd] ::
            .timeAfter (wrapInt64 (exp.ChaosDuration * Second)) :: w.trace) = some cause →
        .logErrorf "Error in Kill stress after abortion, err: %v"
            (.cerror .ErrorTypeChaosRevert
              ("\x7bpodName: " ++ pod.Name ++ ", namespace: " ++ pod.Namespace ++ "\x7d")
              ("failed to revert chaos: " ++ env.execOut
                (.exec pod.Name exp.TargetContainer pod.Namespace
                  ["/bin/sh", "-c", exp.ChaosKillCmd] ::
                  .timeAfter (wrapInt64 (exp.ChaosDuration * Second)) :: w.trace))) ∈
          (serialWait env exp chaosDetails pod pending w).2.trace)) ∧
    (∀ (rest : List Pod) (exp0 : ExperimentDetails) (w0 : World),
      setTargetContainer exp0 pod = some exp →
      ((startStress env exp pod exp.CPUcores.toNat (injectEvent env exp0 pod w0)).step env
        (.setTargets pod.Name "injected" "pod")) = w →
      (serialPods env chaosDetails (pod :: rest) exp0 w0).1 = .exited 1) := by
  have hw := fun pending => serialWait.eq_3 env exp chaosDetails pod w pending hsel
  refine ⟨fun pending => ⟨?_, ?_, ?_⟩, ?_⟩
  · rw [hw]
    simp only [(stopAfterAbort_abort _ _ _ _).1]
  · rw [hw]
    simp only [(stopAfterAbort_abort _ _ _ _).2, logIfError_abort, killStressCPUSerial_abort]
    simp [chrono_cons, abortMark, step_trace]
  · intro cause hc
    rw [hw]
    apply stopAfterAbort_mem
    simp [killStressCPUSerial, World.call, step_trace, hc, logIfError]
  · intro rest exp0 w0 he hw0
    simp only [serialPods, he, hw0, hw]
    exact (stopAfterAbort_abort _ _ _ _).1

/-- Witness of C11: the abort signal ends the wait on pod `p`, whose container
is `c`, in the wait loop and in the sequencer around it. -/
theorem C11_witness :
    (serialWait abortEnv { TargetContainer := "c" } {}
      { Name := "p", Namespace := "ns", Containers := ["c"] } 1 {}).1 = some (.exited 1) ∧
    (serialPods abortEnv {} [{ Name := "p", Namespace := "ns", Containers := ["c"] }] {} {}).1 =
      .exited 1 :=
  ⟨((C11_abort_while_waiting_reverts_and_stops abortEnv { TargetContainer := "c" } {}
      { Name := "p", Namespace := "ns", Containers := ["c"] } {} rfl).1 1).1,
    (C11_abort_while_waiting_reverts_and_stops abortEnv { TargetContainer := "c" } {}
      { Name := "p", Namespace := "ns", Containers := ["c"] } _ rfl).2 [] {} {} rfl rfl⟩

end PodCPUHogExec

theorem splitChars_ne_nil (sep : Char) (cs cur : List Char) : splitChars sep cur cs ≠ [] := by
  induction cs generalizing cur with
  | nil => simp [splitChars]
  | cons c cs ih =>
    unfold splitChars
    split
    · simp
    · exact ih _

namespace EBSLoss

set_option maxRecDepth 100000 in
/-- C12 (defect): `strings.Split` never yields an empty list, so the check
`len(volumeIDList) == 0` of `PrepareEBSLossByID` never holds.  With `EBSVolumeID`
the empty string the list is `[""]`: the abort watcher is started on it and,
in serial mode, the volume with the empty id is detached and attached back and
the function returns nil instead of the `ErrorTypeTargetSelection` error. -/
theorem C12_empty_volume_id_is_not_rejected :
    (∀ (s : String) (sep : Char), (stringsSplit s sep).length ≠ 0) ∧
    stringsSplit "" ',' = [""] ∧
    (PrepareEBSLossByID quietEnv (noVolumeExperiment "serial") {} 3 {}).1 = .returned none ∧
    (PrepareEBSLossByID quietEnv (noVolumeExperiment "serial") {} 3 {}).2.trace.reverse =
      [.notify "inject", .notify "abort", .goAbortWatcher [""], .timeNow, .timeSince,
       .getVolumeAttachmentDetails "" "" "", .ebsVolumeDetach "" "",
       .setTargets "" "injected" "EBS", .waitForVolumeDetachment "" "i-0" "" 0 0,
       .waitForDuration 1, .getEBSStatus "" "i-0" "", .ebsVolumeAttach "" "i-0" "/dev/sdf" "",
       .waitForVolumeAttachment "" "i-0" "" 0 0, .setTargets "" "reverted" "EBS", .timeSince] ∧
    (PrepareEBSLossByID quietEnv (noVolumeExperiment "parallel") {} 3 {}).1 = .returned none ∧
    .goAbortWatcher [""] ∈
      (PrepareEBSLossByID quietEnv (noVolumeExperiment "parallel") {} 3 {}).2.trace ∧
    .ebsVolumeDetach "" "" ∈
      (PrepareEBSLossByID quietEnv (noVolumeExperiment "parallel") {} 3 {}).2.trace := by
  refine ⟨?_, by decide, by decide, by decide, by decide, by decide, by decide⟩
  intro s sep
  unfold stringsSplit
  rw [List.length_map]
  exact fun h => splitChars_ne_nil sep s.toList [] (List.length_eq_zero.mp h)

end EBSLoss

namespace EC2TerminateByTag

theorem observedStates_fst (env : Env) (exp : ExperimentDetails) (ids : List String) (w : World) :
    (observedStates env exp ids w).map Prod.fst = ids := by
  induction ids generalizing w with
  | nil => rfl
  | cons id rest ih => simp [observedStates, ih]

theorem runningInstances_cons (env : Env) (exp : ExperimentDetails) (id : String)
    (rest : List String) (w : World) :
    runningInstances env exp (id :: rest) w =
      (if env.instanceState (.getEC2InstanceStatus id exp.Region :: w.trace) = "running"
        then [id] else []) ++
        runningInstances env exp rest (w.step env (.getEC2InstanceStatus id exp.Region)) := by
  unfold runningInstances
  simp only [observedStates, List.filter_cons]
  split <;> simp_all

theorem selectRunning_none (env : Env) (exp : ExperimentDetails) (ids targets : List String)
    (w : World) (h : (selectRunning env exp ids targets w).1 = none) :
    (selectRunning env exp ids targets w).2.1 = targets ++ runningInstances env exp ids w := by
  induction ids generalizing targets w with
  | nil => simp [selectRunning, runningInstances, observedStates]
  | cons id rest ih =>
    rw [runningInstances_cons]
    unfold selectRunning at h ⊢
    simp only [World.call] at h ⊢
    cases he : env.err (.getEC2InstanceStatus id exp.Region :: w.trace) with
    | some err => simp [he] at h
    | none =>
      simp only [he] at h ⊢
      split
      · rename_i hr
        rw [if_pos hr] at h
        rw [ih _ _ h]
        simp
      · rename_i hr
        rw [if_neg hr] at h
        rw [ih _ _ h]
        simp

/-- C13: when `SetTargetInstance` succeeds starting from an empty
`TargetInstanceIDList`, the list it leaves is not empty and is exactly the list
of the instances returned for the tag that were reported `running`, in the
order of that list: it is a sub-list of the instances returned, and each of its
members was reported `running`. -/
theorem C13_targets_are_the_running_instances (env : Env) (exp : ExperimentDetails) (w : World)
    (h0 : exp.TargetInstanceIDList = [])
    (hok : (SetTargetInstance env exp w).1 = none) :
    (SetTargetInstance env exp w).2.1.TargetInstanceIDList =
      runningInstances env exp
        (env.instanceList (.getInstanceList exp.InstanceTag exp.Region :: w.trace))
        (w.step env (.getInstanceList exp.InstanceTag exp.Region)) ∧
    (SetTargetInstance env exp w).2.1.TargetInstanceIDList ≠ [] ∧
    List.Sublist (SetTargetInstance env exp w).2.1.TargetInstanceIDList
      (env.instanceList (.getInstanceList exp.InstanceTag exp.Region :: w.trace)) ∧
    (∀ id ∈ (SetTargetInstance env exp w).2.1.TargetInstanceIDList,
      (id, "running") ∈ observedStates env exp
        (env.instanceList (.getInstanceList exp.InstanceTag exp.Region :: w.trace))
        (w.step env (.getInstanceList exp.InstanceTag exp.Region))) := by
  have key : (SetTargetInstance env exp w).2.1.TargetInstanceIDList =
      runningInstances env exp
        (env.instanceList (.getInstanceList exp.InstanceTag exp.Region :: w.trace))
        (w.step env (.getInstanceList exp.InstanceTag exp.Region)) ∧
      (SetTargetInstance env exp w).2.1.TargetInstanceIDList ≠ [] := by
    unfold SetTargetInstance at hok ⊢
    simp only [World.call] at hok ⊢
    cases he : env.err (.getInstanceList exp.InstanceTag exp.Region :: w.trace) with
    | some err => simp [he] at hok
    | none =>
      simp only [he] at hok ⊢
      split at hok
      · simp at hok
      · rename_i hl
        rw [if_neg hl]
        split at hok
        · simp at hok
        · rename_i targets w2 hs
          have h1 := selectRunning_none env exp _ _ _ (by rw [hs])
          rw [hs, h0] at h1
          simp only [List.nil_append] at h1
          split at hok
          · simp at hok
          · rename_i hn
            rw [if_neg hn]
            simp only
            exact ⟨h1, fun hnil => hn (by rw [hnil]; rfl)⟩
  refine ⟨key.1, key.2, ?_, ?_⟩
  · rw [key.1]
    unfold runningInstances
    have hsub := List.Sublist.map Prod.fst
      (List.filter_sublist (p := fun p : String × String => decide (p.2 = "running"))
        (observedStates env exp
          (env.instanceList (.getInstanceList exp.InstanceTag exp.Region :: w.trace))
          (w.step env (.getInstanceList exp.InstanceTag exp.Region))))
    rw [observedStates_fst] at hsub
    exact hsub
  · intro id hid
    rw [key.1] at hid
    unfold runningInstances at hid
    simp only [List.mem_map, List.mem_filter, decide_eq_true_eq] at hid
    obtain ⟨⟨a, b⟩, ⟨hm, hb⟩, rfl⟩ := hid
    simp only at hb
    subst hb
    exact hm

/-- Witness of C13: of the instances `i-1`, `i-2` (stopped) and `i-3` returned
for the tag, the running ones `i-1` and `i-3` are selected. -/
theorem C13_witness :
    (SetTargetInstance taggedEnv {} {}).1 = none ∧
    (SetTargetInstance taggedEnv {} {}).2.1.TargetInstanceIDList = ["i-1", "i-3"] ∧
    (SetTargetInstance taggedEnv {} {}).2.1.TargetInstanceIDList =
      runningInstances taggedEnv {} ["i-1", "i-2", "i-3"]
        (World.step taggedEnv (.getInstanceList "" "") {}) :=
  ⟨by decide, by decide,
    (C13_targets_are_the_running_instances taggedEnv {} {} rfl (by decide)).1⟩

/-- C14 (defect): with no instance for the tag, `SetTargetInstance` fails with
an `ErrorTypeTargetSelection` error; with one instance for the tag that is not
running it fails with an `ErrorTypeChaosInject` error instead, although nothing
has been injected. -/
theorem C14_no_running_instance_is_a_chaos_inject_error :
    (SetTargetInstance quietEnv { InstanceTag := "t", Region := "r" } {}).1 =
      some (.cerror .ErrorTypeTargetSelection ""
        "no instance found with the given tag t, in region r") ∧
    (SetTargetInstance stoppedEnv { InstanceTag := "t", Region := "r" } {}).1 =
      some (.cerror .ErrorTypeChaosInject "EC2 Instance Tag: t"
        "failed to get any running instance") ∧
    (SetTargetInstance stoppedEnv { InstanceTag := "t", Region := "r" } {}).2.2.trace.reverse =
      [.getInstanceList "t" "r", .getEC2InstanceStatus "i-1" "r"] := by
  decide

end EC2TerminateByTag

namespace HTTPProbe

theorem evalMark_ignores : IgnoresRequests evalMark := by
  intro e h
  cases e <;> simp_all [requestEvent, evalMark]

theorem state_step_chrono {α : Type} (m : Event → Option α) (penv : ProbeEnv) (e : Event)
    (s : State) :
    chrono m (State.step penv e s).world.trace = chrono m s.world.trace ++ (m e).toList ∧
    (State.step penv e s).ProbeDetails = s.ProbeDetails := by
  simp [State.step, step_trace, chrono_cons]

theorem state_sleep_chrono {α : Type} {m : Event → Option α} (hm : IgnoresRequests m)
    (penv : ProbeEnv) (d : Int) (s : State) :
    chrono m (State.sleep penv d s).world.trace = chrono m s.world.trace ∧
    (State.sleep penv d s).ProbeDetails = s.ProbeDetails := by
  simp [State.sleep, sleep_trace, chrono_cons, hm (.sleep d) rfl]

theorem httpGetAttempt_chrono {α : Type} {m : Event → Option α} (hm : IgnoresRequests m)
    (penv : ProbeEnv) (probe : ProbeAttributes) (s : State) :
    chrono m (httpGetAttempt penv probe s).2.2.world.trace = chrono m s.world.trace ∧
    (httpGetAttempt penv probe s).2.2.ProbeDetails = s.ProbeDetails := by
  unfold httpGetAttempt
  simp only [World.call]
  repeat' split
  all_goals simp only [Prod.mk.injEq] at *
  all_goals casesm* _ ∧ _
  all_goals subst_vars
  all_goals simp [State.step, step_trace, chrono_cons, hm (.clientGet _) rfl,
    hm (.getAndIncrementRunCount _) rfl, hm (.logErrorf _ _) rfl]

theorem httpPostAttempt_chrono {α : Type} {m : Event → Option α} (hm : IgnoresRequests m)
    (penv : ProbeEnv) (probe : ProbeAttributes) (post : PostMethod) (body : String) (s : State) :
    chrono m (httpPostAttempt penv probe post body s).2.2.world.trace = chrono m s.world.trace ∧
    (httpPostAttempt penv probe post body s).2.2.ProbeDetails = s.ProbeDetails := by
  unfold httpPostAttempt
  simp only [World.call]
  repeat' split
  all_goals simp only [Prod.mk.injEq] at *
  all_goals casesm* _ ∧ _
  all_goals subst_vars
  all_goals simp [State.step, step_trace, chrono_cons, hm (.clientPost _ _ _) rfl,
    hm (.getAndIncrementRunCount _) rfl, hm (.logErrorf _ _) rfl]

theorem retryTry_chrono {α : Type} {m : Event → Option α} (hm : IgnoresRequests m)
    (penv : ProbeEnv) (wait : Int) (action : State → Outcome × String × State)
    (hact : ∀ s, chrono m (action s).2.2.world.trace = chrono m s.world.trace ∧
      (action s).2.2.ProbeDetails = s.ProbeDetails) (n : Nat) (s : State) :
    chrono m (retryTry penv wait action n s).2.2.world.trace = chrono m s.world.trace ∧
    (retryTry penv wait action n s).2.2.ProbeDetails = s.ProbeDetails := by
  induction n using Nat.strong_induction_on generalizing s with
  | _ n ih =>
    match n with
    | 0 => simp [retryTry]
    | 1 => simpa [retryTry] using hact s
    | k + 2 =>
      rw [retryTry]
      split
      · rename_i e d s1 h
        have h1 := hact s
        rw [h] at h1
        have h2 := ih (k + 1) (by omega) (s1.sleep penv wait)
        have h3 := state_sleep_chrono hm penv wait s1
        simp only at h1
        exact ⟨by rw [h2.1, h3.1, h1.1], by rw [h2.2, h3.2, h1.2]⟩
      · exact hact s

theorem afterRetry_chrono {α : Type} {m : Event → Option α} (hm : IgnoresRequests m)
    (penv : ProbeEnv) (probe : ProbeAttributes) (r : Outcome × String × State) :
    chrono m (afterRetry penv probe r).2.world.trace = chrono m r.2.2.world.trace ∧
    (afterRetry penv probe r).2.ProbeDetails = r.2.2.ProbeDetails := by
  unfold afterRetry
  split <;> simp [State.step, step_trace, chrono_cons, hm (.setProbeDescription _ _) rfl]

theorem httpGet_chrono {α : Type} {m : Event → Option α} (hm : IgnoresRequests m)
    (penv : ProbeEnv) (probe : ProbeAttributes) (s : State) :
    chrono m (httpGet penv probe s).2.world.trace = chrono m s.world.trace ∧
    (httpGet penv probe s).2.ProbeDetails = s.ProbeDetails := by
  unfold httpGet
  have h1 := afterRetry_chrono hm penv probe
    (retryTry penv (penv.getProbeTimeouts probe.Name s.ProbeDetails).Interval
      (httpGetAttempt penv probe)
      (uintOf (penv.getAttempts probe.RunProperties.Attempt probe.RunProperties.Retry)) s)
  have h2 := retryTry_chrono hm penv (penv.getProbeTimeouts probe.Name s.ProbeDetails).Interval
      (httpGetAttempt penv probe) (httpGetAttempt_chrono hm penv probe)
      (uintOf (penv.getAttempts probe.RunProperties.Attempt probe.RunProperties.Retry)) s
  exact ⟨by rw [h1.1, h2.1], by rw [h1.2, h2.2]⟩

theorem getHTTPBody_chrono {α : Type} {m : Event → Option α} (hm : IgnoresRequests m)
    (penv : ProbeEnv) (httpBody : PostMethod) (probeName : String) (w : World) :
    chrono m (getHTTPBody penv httpBody probeName w).2.2.trace = chrono m w.trace := by
  unfold getHTTPBody
  simp only [World.call]
  repeat' split
  all_goals simp only [Prod.mk.injEq] at *
  all_goals casesm* _ ∧ _
  all_goals subst_vars
  all_goals simp [step_trace, chrono_cons, hm (.execCommand _) rfl]

theorem httpPost_chrono {α : Type} {m : Event → Option α} (hm : IgnoresRequests m)
    (penv : ProbeEnv) (probe : ProbeAttributes) (s : State) :
    chrono m (httpPost penv probe s).2.world.trace = chrono m s.world.trace ∧
    (httpPost penv probe s).2.ProbeDetails = s.ProbeDetails := by
  unfold httpPost
  split
  · exact ⟨rfl, rfl⟩
  · rename_i post hp
    have hb := getHTTPBody_chrono hm penv post probe.Name s.world
    split
    · rename_i b err w1 h
      rw [h] at hb
      exact ⟨hb, rfl⟩
    · rename_i body w1 h
      rw [h] at hb
      have h1 := afterRetry_chrono hm penv probe
        (retryTry penv (penv.getProbeTimeouts probe.Name s.ProbeDetails).Interval
          (httpPostAttempt penv probe post body)
          (uintOf (penv.getAttempts probe.RunProperties.Attempt probe.RunProperties.Retry))
          { s with world := w1 })
      have h2 := retryTry_chrono hm penv
        (penv.getProbeTimeouts probe.Name s.ProbeDetails).Interval
        (httpPostAttempt penv probe post body) (httpPostAttempt_chrono hm penv probe post body)
        (uintOf (penv.getAttempts probe.RunProperties.Attempt probe.RunProperties.Retry))
        { s with world := w1 }
      exact ⟨by rw [h1.1, h2.1]; exact hb, by rw [h1.2, h2.2]⟩

theorem triggerHTTPProbe_chrono {α : Type} {m : Event → Option α} (hm : IgnoresRequests m)
    (penv : ProbeEnv) (probe : ProbeAttributes) (s : State) :
    chrono m (triggerHTTPProbe penv probe s).2.world.trace =
      chrono m s.world.trace ++ (m (.parseCommand probe.Inputs.URL)).toList ∧
    (triggerHTTPProbe penv probe s).2.ProbeDetails = s.ProbeDetails := by
  unfold triggerHTTPProbe
  simp only [World.call]
  repeat' split
  all_goals simp only [Prod.mk.injEq] at *
  all_goals casesm* _ ∧ _
  all_goals subst_vars
  all_goals first
    | exact ⟨by simp [step_trace, chrono_cons], trivial⟩
    | (rw [(httpGet_chrono hm penv _ _).1, (httpGet_chrono hm penv _ _).2]
       simp [step_trace, chrono_cons])
    | (rw [(httpPost_chrono hm penv _ _).1, (httpPost_chrono hm penv _ _).2]
       simp [step_trace, chrono_cons])

theorem waitInitialDelay_chrono {α : Type} {m : Event → Option α} (hm : IgnoresRequests m)
    (penv : ProbeEnv) (probe : ProbeAttributes) (s : State) :
    chrono m (waitInitialDelay penv probe s).world.trace = chrono m s.world.trace ∧
    (waitInitialDelay penv probe s).ProbeDetails = s.ProbeDetails := by
  unfold waitInitialDelay
  split
  · exact state_sleep_chrono hm penv _ s
  · exact ⟨rfl, rfl⟩

theorem evaluateOnce_evalMark (penv : ProbeEnv) (probe : ProbeAttributes) (phase : String)
    (s : State) :
    chrono evalMark (evaluateOnce penv probe phase s).2.world.trace =
      chrono evalMark s.world.trace ++ [probe.Inputs.URL] := by
  have h := (triggerHTTPProbe_chrono evalMark_ignores penv probe s).1
  unfold evaluateOnce
  generalize triggerHTTPProbe penv probe s = r at h
  obtain ⟨o, s1⟩ := r
  cases o <;> try cases ‹Option GoError›
  all_goals first
    | simpa [step_trace, chrono_cons, evalMark] using h
    | (simp only; split <;> simpa [step_trace, chrono_cons, evalMark] using h)

theorem prepare_prechaos (penv : ProbeEnv) (probe : ProbeAttributes)
    (chaosDetails : ChaosDetails) (s : State) :
    prepareHTTPProbe penv probe chaosDetails "PreChaos" s = preChaosHTTPProbe penv probe s := by
  unfold prepareHTTPProbe
  rw [if_pos (by decide)]

theorem prepare_duringchaos (penv : ProbeEnv) (probe : ProbeAttributes)
    (chaosDetails : ChaosDetails) (s : State) :
    prepareHTTPProbe penv probe chaosDetails "DuringChaos" s =
      (.returned none, onChaosHTTPProbe penv probe s) := by
  unfold prepareHTTPProbe
  rw [if_neg (by decide), if_neg (by decide), if_pos (by decide)]

theorem prepare_postchaos (penv : ProbeEnv) (probe : ProbeAttributes)
    (chaosDetails : ChaosDetails) (s : State) :
    prepareHTTPProbe penv probe chaosDetails "PostChaos" s =
      postChaosHTTPProbe penv probe chaosDetails.Delay chaosDetails.Timeout s := by
  unfold prepareHTTPProbe
  rw [if_neg (by decide), if_pos (by decide)]

theorem preChaos_evalMark (penv : ProbeEnv) (probe : ProbeAttributes) (s : State) :
    chrono evalMark (preChaosHTTPProbe penv probe s).2.world.trace =
      chrono evalMark s.world.trace ++
        (if probe.Mode = "SOT" ∨ probe.Mode = "Edge" then [probe.Inputs.URL] else []) := by
  unfold preChaosHTTPProbe
  split
  · rw [evaluateOnce_evalMark, (waitInitialDelay_chrono evalMark_ignores penv probe s).1]
  · split <;> simp [State.step, step_trace, chrono_cons, evalMark]

theorem checkContinuous_evalMark (penv : ProbeEnv) (probe : ProbeAttributes)
    (delay timeout : Int) (s : State) :
    chrono evalMark (checkContinuous penv probe delay timeout s).2.world.trace =
      chrono evalMark s.world.trace := by
  unfold checkContinuous
  simp only [World.call]
  repeat' split
  all_goals simp only [Prod.mk.injEq] at *
  all_goals casesm* _ ∧ _
  all_goals subst_vars
  all_goals simp [step_trace, chrono_cons, evalMark]

theorem postChaos_evalMark (penv : ProbeEnv) (probe : ProbeAttributes) (delay timeout : Int)
    (s : State) :
    chrono evalMark (postChaosHTTPProbe penv probe delay timeout s).2.world.trace =
      chrono evalMark s.world.trace ++
        (if probe.Mode = "EOT" ∨ probe.Mode = "Edge" then [probe.Inputs.URL] else []) := by
  unfold postChaosHTTPProbe
  split
  · rw [evaluateOnce_evalMark, (waitInitialDelay_chrono evalMark_ignores penv probe s).1]
  · split
    · simp [checkContinuous_evalMark]
    · simp

theorem onChaos_evalMark (penv : ProbeEnv) (probe : ProbeAttributes) (s : State) :
    chrono evalMark (onChaosHTTPProbe penv probe s).world.trace =
      chrono evalMark s.world.trace := by
  unfold onChaosHTTPProbe
  split <;> simp [State.step, step_trace, chrono_cons, evalMark]

/-- C15: the synchronous evaluations of an HTTP probe, counted by the calls of
`triggerHTTPProbe` (each parses the URL of the probe once).  `preChaosHTTPProbe`
makes one evaluation if the mode is `SOT` or `Edge` and none otherwise;
`postChaosHTTPProbe` makes one if the mode is `EOT` or `Edge` and none
otherwise; the `DuringChaos` phase makes none.  Over a run whose pre-chaos phase
returns nil, that is one evaluation for `SOT`, one for `EOT` and two for
`Edge`. -/
theorem C15_synchronous_evaluations_follow_the_mode (penv : ProbeEnv) (probe : ProbeAttributes)
    (chaosDetails : ChaosDetails) (s : State) :
    chrono evalMark (preChaosHTTPProbe penv probe s).2.world.trace =
      chrono evalMark s.world.trace ++
        (if probe.Mode = "SOT" ∨ probe.Mode = "Edge" then [probe.Inputs.URL] else []) ∧
    chrono evalMark
        (postChaosHTTPProbe penv probe chaosDetails.Delay chaosDetails.Timeout s).2.world.trace =
      chrono evalMark s.world.trace ++
        (if probe.Mode = "EOT" ∨ probe.Mode = "Edge" then [probe.Inputs.URL] else []) ∧
    chrono evalMark (onChaosHTTPProbe penv probe s).world.trace = chrono evalMark s.world.trace ∧
    ((prepareHTTPProbe penv probe chaosDetails "PreChaos" s).1 = .returned none →
      chrono evalMark (wholeRun penv probe chaosDetails s).2.world.trace =
        chrono evalMark s.world.trace ++
          (if probe.Mode = "SOT" ∨ probe.Mode = "Edge" then [probe.Inputs.URL] else []) ++
          (if probe.Mode = "EOT" ∨ probe.Mode = "Edge" then [probe.Inputs.URL] else []) ∧
      (probe.Mode = "SOT" ∨ probe.Mode = "EOT" →
        (chrono evalMark (wholeRun penv probe chaosDetails s).2.world.trace).length =
          (chrono evalMark s.world.trace).length + 1) ∧
      (probe.Mode = "Edge" →
        (chrono evalMark (wholeRun penv probe chaosDetails s).2.world.trace).length =
          (chrono evalMark s.world.trace).length + 2)) := by
  refine ⟨preChaos_evalMark penv probe s, postChaos_evalMark penv probe _ _ s,
    onChaos_evalMark penv probe s, ?_⟩
  intro hpre
  have key : chrono evalMark (wholeRun penv probe chaosDetails s).2.world.trace =
      chrono evalMark s.world.trace ++
        (if probe.Mode = "SOT" ∨ probe.Mode = "Edge" then [probe.Inputs.URL] else []) ++
        (if probe.Mode = "EOT" ∨ probe.Mode = "Edge" then [probe.Inputs.URL] else []) := by
    have h1 := preChaos_evalMark penv probe s
    rw [← prepare_prechaos penv probe chaosDetails s] at h1
    unfold wholeRun
    split
    · rename_i s1 hs1
      rw [hs1] at h1
      simp only [prepare_duringchaos, prepare_postchaos]
      rw [postChaos_evalMark, onChaos_evalMark, h1]
    · rename_i hne
      exact (hne _ (Prod.ext hpre rfl)).elim
  refine ⟨key, ?_, ?_⟩
  · intro hm
    rw [key]
    rcases hm with hm | hm <;> simp [hm]
  · intro hm
    rw [key]
    simp [hm]

/-- Witness of C15: a run on an `Edge` probe whose evaluations succeed evaluates
it twice. -/
theorem C15_witness :
    (prepareHTTPProbe quietProbeEnv edgeProbe {} "PreChaos" {}).1 = .returned none ∧
    (chrono evalMark (wholeRun quietProbeEnv edgeProbe {} {}).2.world.trace).length = 2 :=
  ⟨by decide,
    ((C15_synchronous_evaluations_follow_the_mode quietProbeEnv edgeProbe {} {}).2.2.2
      (by decide)).2.2 rfl⟩

end HTTPProbe

namespace HTTPProbe

theorem recordFailure_named (name : String) (err : GoError) (description : String)
    (details : List ProbeDetails) (h : Named name details) :
    ∃ details' d, recordFailure name err description details = some details' ∧
      probeEntry name details' = some d ∧ d.IsProbeFailedWithError = some err ∧
      d.Description = description ∧ d.HasProbeCompleted = true := by
  induction details with
  | nil => obtain ⟨d, hd, _⟩ := h; simp at hd
  | cons d rest ih =>
    unfold recordFailure
    by_cases hd : d.Name = name
    · rw [if_pos hd]
      exact ⟨_, { d with IsProbeFailedWithError := some err, HasProbeCompleted := true,
                         Description := description }, rfl, by simp [probeEntry, hd],
        rfl, rfl, rfl⟩
    · rw [if_neg hd]
      have hrest : Named name rest := by
        obtain ⟨d', hd', hn⟩ := h
        rcases List.mem_cons.mp hd' with rfl | hmem
        · exact absurd hn hd
        · exact ⟨d', hmem, hn⟩
      obtain ⟨details', d', h1, h2, h3⟩ := ih hrest
      refine ⟨d :: details', d', by simp [h1], ?_, h3⟩
      simpa [probeEntry, hd] using h2

theorem markCompleted_named (name : String) (details : List ProbeDetails)
    (h : Named name details) :
    (∃ d, probeEntry name (markCompleted name details) = some d ∧ d.HasProbeCompleted = true) ∧
    ∀ d ∈ markCompleted name details, d.Name = name → d.HasProbeCompleted = true := by
  constructor
  · induction details with
    | nil => obtain ⟨d, hd, _⟩ := h; simp at hd
    | cons d rest ih =>
      by_cases hd : d.Name = name
      · exact ⟨{ d with HasProbeCompleted := true }, by simp [probeEntry, markCompleted, hd], rfl⟩
      · have hrest : Named name rest := by
          obtain ⟨d', hd', hn⟩ := h
          rcases List.mem_cons.mp hd' with rfl | hmem
          · exact absurd hn hd
          · exact ⟨d', hmem, hn⟩
        obtain ⟨d', h1, h2⟩ := ih hrest
        refine ⟨d', ?_, h2⟩
        simpa [probeEntry, markCompleted, hd] using h1
  · intro d hd hn
    unfold markCompleted at hd
    obtain ⟨d0, _, rfl⟩ := List.mem_map.mp hd
    by_cases hne : d0.Name = name
    · simp [hne]
    · simp only [hne, if_false] at hn

theorem continuousLoop_exit (penv : ProbeEnv) (probe : ProbeAttributes)
    (chaosDetails : ChaosDetails) (pollingInterval : Int) (fuel : Nat) (s : State)
    (hname : Named probe.Name s.ProbeDetails) (flag : Bool) (s' : State)
    (h : continuousLoop penv probe chaosDetails pollingInterval fuel s =
      (.returned none, flag, s')) :
    (flag = false ∧ penv.ctxDone s'.world.trace = true ∧
      (∃ d, probeEntry probe.Name s'.ProbeDetails = some d ∧ d.HasProbeCompleted = true) ∧
      ∀ d ∈ s'.ProbeDetails, d.Name = probe.Name → d.HasProbeCompleted = true) ∨
    (flag = true ∧ ∃ err d, s'.err = some (penv.addProbePhase err chaosDetails.Phase) ∧
      probeEntry probe.Name s'.ProbeDetails = some d ∧
      d.IsProbeFailedWithError = some (penv.addProbePhase err chaosDetails.Phase) ∧
      d.Description = penv.getDescription (penv.addProbePhase err chaosDetails.Phase) ∧
      d.HasProbeCompleted = true) := by
  induction fuel generalizing s with
  | zero =>
    unfold continuousLoop at h
    split at h
    · rename_i hc
      simp only [Prod.mk.injEq, true_and] at h
      obtain ⟨rfl, rfl⟩ := h
      exact Or.inl ⟨rfl, hc, markCompleted_named _ _ hname⟩
    · simp at h
  | succ fuel ih =>
    unfold continuousLoop at h
    split at h
    · rename_i hc
      simp only [Prod.mk.injEq, true_and] at h
      obtain ⟨rfl, rfl⟩ := h
      exact Or.inl ⟨rfl, hc, markCompleted_named _ _ hname⟩
    · have hd := (triggerHTTPProbe_chrono evalMark_ignores penv probe s).2
      generalize triggerHTTPProbe penv probe s = r at h hd
      obtain ⟨o, s1⟩ := r
      simp only at hd
      cases o with
      | returned e =>
        cases e with
        | none =>
          simp only at h
          exact ih _ (by rw [(state_sleep_chrono evalMark_ignores penv _ _).2]; rw [hd]; exact hname) h
        | some err =>
          simp only at h
          obtain ⟨details, d, h1, h2, h3, h4, h5⟩ := recordFailure_named probe.Name
            (penv.addProbePhase err chaosDetails.Phase)
            (penv.getDescription (penv.addProbePhase err chaosDetails.Phase)) s1.ProbeDetails
            (by rw [hd]; exact hname)
          rw [h1] at h
          simp only [Prod.mk.injEq, true_and] at h
          obtain ⟨rfl, rfl⟩ := h
          exact Or.inr ⟨rfl, err, d, rfl, h2, h3, h4, h5⟩
      | exited c => simp at h
      | outOfFuel => simp at h
      | panicked => simp at h

theorem stopOnFailure_details (penv : ProbeEnv) (probe : ProbeAttributes) (format : String)
    (o : Outcome) (flag : Bool) (s : State) :
    (stopOnFailure penv probe format (o, flag, s)).1 = o ∧
    (stopOnFailure penv probe format (o, flag, s)).2.ProbeDetails = s.ProbeDetails := by
  unfold stopOnFailure
  split
  · rename_i h
    simp only [Prod.mk.injEq] at h
    obtain ⟨rfl, rfl, rfl⟩ := h
    split <;> exact ⟨rfl, rfl⟩
  · rename_i h
    simp only [Prod.mk.injEq] at h
    obtain ⟨rfl, _, rfl⟩ := h
    exact ⟨rfl, rfl⟩

/-- C16: the loop of `triggerContinuousHTTPProbe` on a probe that has an entry in
`ProbeDetails`.  When the probe context is cancelled the loop stops, every entry
of the probe being marked completed; otherwise the probe is evaluated: after an
evaluation that succeeds the loop waits for the polling interval and goes on;
after one that fails it stops, the entry of the probe holding the error tagged
with the chaos phase, its description and the completion flag.  The loop is left
in no other way, and whenever the loop or the function returns the entry of the
probe is marked completed. -/
theorem C16_continuous_probe_stops_on_cancel_or_failure (penv : ProbeEnv)
    (probe : ProbeAttributes) (chaosDetails : ChaosDetails) (pollingInterval : Int) (s : State)
    (hname : Named probe.Name s.ProbeDetails) :
    (penv.ctxDone s.world.trace = true →
      ∀ fuel, continuousLoop penv probe chaosDetails pollingInterval fuel s =
        (.returned none, false,
          { s with ProbeDetails := markCompleted probe.Name s.ProbeDetails })) ∧
    (penv.ctxDone s.world.trace = false →
      ∀ fuel s1, triggerHTTPProbe penv probe s = (.returned none, s1) →
        continuousLoop penv probe chaosDetails pollingInterval (fuel + 1) s =
          continuousLoop penv probe chaosDetails pollingInterval fuel
            (State.sleep penv pollingInterval { s1 with err := none })) ∧
    (penv.ctxDone s.world.trace = false →
      ∀ fuel err s1, triggerHTTPProbe penv probe s = (.returned (some err), s1) →
        ∃ details d,
          continuousLoop penv probe chaosDetails pollingInterval (fuel + 1) s =
            (.returned none, true,
              State.step penv (.logErrorf "The %v http probe has been Failed, err: %v"
                  (penv.addProbePhase err chaosDetails.Phase))
                { s1 with ProbeDetails := details,
                          err := some (penv.addProbePhase err chaosDetails.Phase) }) ∧
          probeEntry probe.Name details = some d ∧
          d.IsProbeFailedWithError = some (penv.addProbePhase err chaosDetails.Phase) ∧
          d.Description = penv.getDescription (penv.addProbePhase err chaosDetails.Phase) ∧
          d.HasProbeCompleted = true) ∧
    (∀ fuel flag s',
      continuousLoop penv probe chaosDetails pollingInterval fuel s =
        (.returned none, flag, s') →
      (flag = false ∧ penv.ctxDone s'.world.trace = true ∧
        (∃ d, probeEntry probe.Name s'.ProbeDetails = some d ∧ d.HasProbeCompleted = true) ∧
        ∀ d ∈ s'.ProbeDetails, d.Name = probe.Name → d.HasProbeCompleted = true) ∨
      (flag = true ∧ ∃ err d, s'.err = some (penv.addProbePhase err chaosDetails.Phase) ∧
        probeEntry probe.Name s'.ProbeDetails = some d ∧
        d.IsProbeFailedWithError = some (penv.addProbePhase err chaosDetails.Phase) ∧
        d.Description = penv.getDescription (penv.addProbePhase err chaosDetails.Phase) ∧
        d.HasProbeCompleted = true)) ∧
    (∀ fuel s', triggerContinuousHTTPProbe penv probe chaosDetails fuel s = (.returned none, s') →
      ∃ d, probeEntry probe.Name s'.ProbeDetails = some d ∧ d.HasProbeCompleted = true) := by
  refine ⟨?_, ?_, ?_, ?_, ?_⟩
  · intro hc fuel
    unfold continuousLoop
    rw [if_pos hc]
  · intro hc fuel s1 ht
    rw [continuousLoop]
    simp only [hc, ht, Bool.false_eq_true, if_false]
  · intro hc fuel err s1 ht
    have hd := (triggerHTTPProbe_chrono evalMark_ignores penv probe s).2
    rw [ht] at hd
    obtain ⟨details, d, h1, h2, h3, h4, h5⟩ := recordFailure_named probe.Name
      (penv.addProbePhase err chaosDetails.Phase)
      (penv.getDescription (penv.addProbePhase err chaosDetails.Phase)) s1.ProbeDetails
      (by rw [hd]; exact hname)
    refine ⟨details, d, ?_, h2, h3, h4, h5⟩
    rw [continuousLoop]
    simp only [hc, ht, h1, Bool.false_eq_true, if_false]
  · intro fuel flag s' h
    exact continuousLoop_exit penv probe chaosDetails pollingInterval fuel s hname flag s' h
  · intro fuel s' h
    unfold triggerContinuousHTTPProbe at h
    generalize hr : continuousLoop penv probe chaosDetails
      (penv.getProbeTimeouts probe.Name s.ProbeDetails).ProbePollingInterval fuel
      (waitInitialDelay penv probe s) = r at h
    obtain ⟨o, flag, s1⟩ := r
    have hs := stopOnFailure_details penv probe "Unable to patch chaosengine to stop, err: %v"
      o flag s1
    rw [h] at hs
    simp only at hs
    obtain ⟨rfl, hs2⟩ := hs
    have hex := continuousLoop_exit penv probe chaosDetails _ fuel (waitInitialDelay penv probe s)
      (by rw [(waitInitialDelay_chrono evalMark_ignores penv probe s).2]; exact hname) flag s1 hr
    rw [hs2]
    rcases hex with ⟨_, _, hd, _⟩ | ⟨_, err, d, _, hd, _, _, hc⟩
    · exact hd
    · exact ⟨d, hd, hc⟩

/-- Witness of C16: on the probe `p`, which has an entry, an evaluation that
fails ends the loop with the failure recorded. -/
theorem C16_witness :
    Named getProbe.Name namedState.ProbeDetails ∧
    (continuousLoop failingProbeEnv getProbe {} 0 1 namedState).2.1 = true := by
  have hname : Named getProbe.Name namedState.ProbeDetails := ⟨_, List.Mem.head _, rfl⟩
  obtain ⟨details, d, h, _⟩ :=
    (C16_continuous_probe_stops_on_cancel_or_failure failingProbeEnv getProbe {} 0 namedState
      hname).2.2.1 (by decide) 0
      (.cerror .FailureTypeHttpProbe (nameTarget "p") "unexpected status code")
      (triggerHTTPProbe failingProbeEnv getProbe namedState).2 (Prod.ext (by decide) rfl)
  exact ⟨hname, by rw [h]⟩

end HTTPProbe

namespace HTTPProbe

theorem stopMark_ignores : IgnoresRequests stopMark := by
  intro e h
  cases e <;> simp_all [requestEvent, stopMark]

theorem triggerHTTPProbe_stopMark (penv : ProbeEnv) (probe : ProbeAttributes) (s : State) :
    chrono stopMark (triggerHTTPProbe penv probe s).2.world.trace =
      chrono stopMark s.world.trace := by
  rw [(triggerHTTPProbe_chrono stopMark_ignores penv probe s).1]
  simp [stopMark]

theorem continuousLoop_stopMark (penv : ProbeEnv) (probe : ProbeAttributes)
    (chaosDetails : ChaosDetails) (pollingInterval : Int) (fuel : Nat) (s : State) :
    chrono stopMark
        (continuousLoop penv probe chaosDetails pollingInterval fuel s).2.2.world.trace =
      chrono stopMark s.world.trace ∧
    ((continuousLoop penv probe chaosDetails pollingInterval fuel s).2.1 = true →
      (continuousLoop penv probe chaosDetails pollingInterval fuel s).1 = .returned none ∧
      ∃ s0 err s1, triggerHTTPProbe penv probe s0 = (.returned (some err), s1)) := by
  induction fuel generalizing s with
  | zero =>
    unfold continuousLoop
    split <;> simp
  | succ fuel ih =>
    unfold continuousLoop
    split
    · simp
    · have ht := triggerHTTPProbe_stopMark penv probe s
      generalize hr : triggerHTTPProbe penv probe s = r at ht
      obtain ⟨o, s1⟩ := r
      simp only at ht
      cases o with
      | returned e =>
        cases e with
        | none =>
          simp only
          have h := ih (State.sleep penv pollingInterval { s1 with err := none })
          rw [(state_sleep_chrono stopMark_ignores penv _ _).1] at h
          exact ⟨by rw [h.1]; exact ht, h.2⟩
        | some err =>
          simp only
          split
          · refine ⟨?_, fun _ => ⟨rfl, s, err, s1, hr⟩⟩
            simpa [State.step, step_trace, chrono_cons, stopMark] using ht
          · have h := ih (State.sleep penv pollingInterval
              { s1 with err := some (penv.addProbePhase err chaosDetails.Phase) })
            rw [(state_sleep_chrono stopMark_ignores penv _ _).1] at h
            exact ⟨by rw [h.1]; exact ht, h.2⟩
      | exited c => exact ⟨ht, by simp⟩
      | outOfFuel => exact ⟨ht, by simp⟩
      | panicked => exact ⟨ht, by simp⟩

theorem onChaosLoop_stopMark (penv : ProbeEnv) (probe : ProbeAttributes)
    (chaosDetails : ChaosDetails) (pollingInterval : Int) (deadline fuel : Nat) (s : State) :
    chrono stopMark
        (onChaosLoop penv probe chaosDetails pollingInterval deadline fuel s).2.2.world.trace =
      chrono stopMark s.world.trace ∧
    ((onChaosLoop penv probe chaosDetails pollingInterval deadline fuel s).2.1 = true →
      (onChaosLoop penv probe chaosDetails pollingInterval deadline fuel s).1 = .returned none ∧
      ∃ s0 err s1, triggerHTTPProbe penv probe s0 = (.returned (some err), s1)) := by
  induction fuel generalizing s with
  | zero =>
    unfold onChaosLoop
    split <;> simp
  | succ fuel ih =>
    unfold onChaosLoop
    split
    · simp
    · have ht := triggerHTTPProbe_stopMark penv probe s
      generalize hr : triggerHTTPProbe penv probe s = r at ht
      obtain ⟨o, s1⟩ := r
      simp only at ht
      cases o with
      | returned e =>
        cases e with
        | none =>
          simp only
          split
          · exact ⟨ht, by simp⟩
          · have h := ih (State.sleep penv pollingInterval { s1 with err := none })
            rw [(state_sleep_chrono stopMark_ignores penv _ _).1] at h
            exact ⟨by rw [h.1]; exact ht, h.2⟩
        | some err =>
          simp only
          split
          · exact ⟨ht, fun _ => ⟨rfl, s, err, s1, hr⟩⟩
          · split
            · exact ⟨ht, by simp⟩
            · have h := ih (State.sleep penv pollingInterval
                { s1 with err := some (penv.addProbePhase err chaosDetails.Phase) })
              rw [(state_sleep_chrono stopMark_ignores penv _ _).1] at h
              exact ⟨by rw [h.1]; exact ht, h.2⟩
      | exited c => exact ⟨ht, by simp⟩
      | outOfFuel => exact ⟨ht, by simp⟩
      | panicked => exact ⟨ht, by simp⟩

theorem stopOnFailure_stopMark (penv : ProbeEnv) (probe : ProbeAttributes) (format : String)
    (r : Outcome × Bool × State) (hr : r.2.1 = true → r.1 = .returned none) :
    chrono stopMark (stopOnFailure penv probe format r).2.world.trace =
      chrono stopMark r.2.2.world.trace ++
        (if r.2.1 = true ∧ probe.RunProperties.StopOnFailure = true then [probe.Name] else []) := by
  obtain ⟨o, flag, s⟩ := r
  unfold stopOnFailure
  split
  · rename_i h
    simp only [Prod.mk.injEq] at h
    obtain ⟨rfl, rfl, rfl⟩ := h
    simp only [Bool.and_eq_true]
    split
    · simp only [logIfError, World.call]
      split <;> rename_i hh <;> simp only [Prod.mk.injEq] at hh <;> obtain ⟨_, rfl⟩ := hh <;>
        simp [step_trace, chrono_cons, stopMark]
    · simp
  · rename_i o1 f1 s1 hne h
    simp only [Prod.mk.injEq] at h
    obtain ⟨rfl, rfl, rfl⟩ := h
    have : ¬ (flag = true) := by
      intro hf
      have := hr hf
      simp only at this
      subst this
      exact hne rfl
    simp [this]

theorem continuous_stop_events (penv : ProbeEnv) (probe : ProbeAttributes)
    (chaosDetails : ChaosDetails) (fuel : Nat) (s : State) :
    chrono stopMark (triggerContinuousHTTPProbe penv probe chaosDetails fuel s).2.world.trace =
      chrono stopMark s.world.trace ++
        (if continuousFlag penv probe chaosDetails fuel s = true ∧
            probe.RunProperties.StopOnFailure = true then [probe.Name] else []) := by
  unfold triggerContinuousHTTPProbe continuousFlag
  have h := continuousLoop_stopMark penv probe chaosDetails
    (penv.getProbeTimeouts probe.Name s.ProbeDetails).ProbePollingInterval fuel
    (waitInitialDelay penv probe s)
  rw [stopOnFailure_stopMark penv probe _ _ (fun hf => (h.2 hf).1), h.1,
    (waitInitialDelay_chrono stopMark_ignores penv probe s).1]

theorem onChaos_stop_events (penv : ProbeEnv) (probe : ProbeAttributes)
    (chaosDetails : ChaosDetails) (fuel : Nat) (s : State) :
    chrono stopMark (triggerOnChaosHTTPProbe penv probe chaosDetails fuel s).2.world.trace =
      chrono stopMark s.world.trace ++
        (if onChaosFlag penv probe chaosDetails fuel s = true ∧
            probe.RunProperties.StopOnFailure = true then [probe.Name] else []) := by
  unfold triggerOnChaosHTTPProbe onChaosFlag
  simp only
  have h := onChaosLoop_stopMark penv probe chaosDetails
    (penv.getProbeTimeouts probe.Name s.ProbeDetails).ProbePollingInterval
    (armEndTimer penv
      (endTimer chaosDetails.ChaosDuration
        (penv.getProbeTimeouts probe.Name s.ProbeDetails).InitialDelay)
      (waitInitialDelay penv probe s)).2 fuel
    (armEndTimer penv
      (endTimer chaosDetails.ChaosDuration
        (penv.getProbeTimeouts probe.Name s.ProbeDetails).InitialDelay)
      (waitInitialDelay penv probe s)).1
  rw [stopOnFailure_stopMark penv probe _ _ (fun hf => (h.2 hf).1), h.1]
  simp only [armEndTimer, (state_step_chrono stopMark penv _ _).1,
    (waitInitialDelay_chrono stopMark_ignores penv probe s).1]
  simp [stopMark]

/-- C17 (as amended): `stopChaosEngine` is invoked by `triggerContinuousHTTPProbe`
and by `triggerOnChaosHTTPProbe` at most once, after the loop, exactly when the
loop was left with `isExperimentFailed` set and `StopOnFailure` is set.  The flag
is set only by an evaluation that failed, so a probe that never fails, or one
with `StopOnFailure` unset, does not stop the engine; and for a probe that has
an entry in `ProbeDetails` an evaluation that fails ends the loop with the flag
set and the error recorded in the entry. -/
theorem C17_engine_stopped_iff_recorded_failure_and_stop_on_failure (penv : ProbeEnv)
    (probe : ProbeAttributes) (chaosDetails : ChaosDetails) (fuel : Nat) (s : State) :
    (chrono stopMark (triggerContinuousHTTPProbe penv probe chaosDetails fuel s).2.world.trace =
        chrono stopMark s.world.trace ++
          (if continuousFlag penv probe chaosDetails fuel s = true ∧
              probe.RunProperties.StopOnFailure = true then [probe.Name] else []) ∧
      chrono stopMark (triggerOnChaosHTTPProbe penv probe chaosDetails fuel s).2.world.trace =
        chrono stopMark s.world.trace ++
          (if onChaosFlag penv probe chaosDetails fuel s = true ∧
              probe.RunProperties.StopOnFailure = true then [probe.Name] else [])) ∧
    ((continuousFlag penv probe chaosDetails fuel s = true ∨
        onChaosFlag penv probe chaosDetails fuel s = true) →
      ∃ s0 err s1, triggerHTTPProbe penv probe s0 = (.returned (some err), s1)) ∧
    (((∀ s0, (triggerHTTPProbe penv probe s0).1 = .returned none) ∨
        probe.RunProperties.StopOnFailure = false) →
      chrono stopMark (triggerContinuousHTTPProbe penv probe chaosDetails fuel s).2.world.trace =
        chrono stopMark s.world.trace ∧
      chrono stopMark (triggerOnChaosHTTPProbe penv probe chaosDetails fuel s).2.world.trace =
        chrono stopMark s.world.trace) ∧
    (∀ (s2 : State) (pollingInterval : Int) (err : GoError) (s1 : State),
      Named probe.Name s2.ProbeDetails → penv.ctxDone s2.world.trace = false →
      triggerHTTPProbe penv probe s2 = (.returned (some err), s1) →
      (continuousLoop penv probe chaosDetails pollingInterval (fuel + 1) s2).1 = .returned none ∧
      (continuousLoop penv probe chaosDetails pollingInterval (fuel + 1) s2).2.1 = true ∧
      ∃ d, probeEntry probe.Name
          (continuousLoop penv probe chaosDetails pollingInterval (fuel + 1) s2).2.2.ProbeDetails =
            some d ∧
        d.IsProbeFailedWithError = some (penv.addProbePhase err chaosDetails.Phase)) ∧
    (∀ (s2 : State) (pollingInterval : Int) (deadline : Nat) (err : GoError) (s1 : State),
      Named probe.Name s2.ProbeDetails → ¬ deadline ≤ s2.world.clock →
      triggerHTTPProbe penv probe s2 = (.returned (some err), s1) →
      (onChaosLoop penv probe chaosDetails pollingInterval deadline (fuel + 1) s2).1 =
        .returned none ∧
      (onChaosLoop penv probe chaosDetails pollingInterval deadline (fuel + 1) s2).2.1 = true ∧
      ∃ d, probeEntry probe.Name
          (onChaosLoop penv probe chaosDetails pollingInterval deadline
            (fuel + 1) s2).2.2.ProbeDetails = some d ∧
        d.IsProbeFailedWithError = some (penv.addProbePhase err chaosDetails.Phase)) := by
  have hc := continuous_stop_events penv probe chaosDetails fuel s
  have ho := onChaos_stop_events penv probe chaosDetails fuel s
  have hflag : (continuousFlag penv probe chaosDetails fuel s = true ∨
      onChaosFlag penv probe chaosDetails fuel s = true) →
      ∃ s0 err s1, triggerHTTPProbe penv probe s0 = (.returned (some err), s1) := by
    rintro (h | h)
    · exact ((continuousLoop_stopMark penv probe chaosDetails _ fuel _).2 h).2
    · exact ((onChaosLoop_stopMark penv probe chaosDetails _ _ fuel _).2 h).2
  refine ⟨⟨hc, ho⟩, hflag, ?_, ?_, ?_⟩
  · rintro (hnever | hunset)
    · have hn1 : ¬ continuousFlag penv probe chaosDetails fuel s = true := by
        intro h
        obtain ⟨s0, err, s1, ht⟩ := hflag (Or.inl h)
        have := hnever s0
        rw [ht] at this
        simp at this
      have hn2 : ¬ onChaosFlag penv probe chaosDetails fuel s = true := by
        intro h
        obtain ⟨s0, err, s1, ht⟩ := hflag (Or.inr h)
        have := hnever s0
        rw [ht] at this
        simp at this
      rw [hc, ho]
      simp [hn1, hn2]
    · rw [hc, ho]
      simp [hunset]
  · intro s2 pollingInterval err s1 hname hctx ht
    have hd := (triggerHTTPProbe_chrono stopMark_ignores penv probe s2).2
    rw [ht] at hd
    obtain ⟨details, d, h1, h2, h3, _⟩ := recordFailure_named probe.Name
      (penv.addProbePhase err chaosDetails.Phase)
      (penv.getDescription (penv.addProbePhase err chaosDetails.Phase)) s1.ProbeDetails
      (by rw [hd]; exact hname)
    rw [continuousLoop]
    simp only [hctx, ht, h1, Bool.false_eq_true, if_false]
    exact ⟨trivial, trivial, d, h2, h3⟩
  · intro s2 pollingInterval deadline err s1 hname hdl ht
    have hd := (triggerHTTPProbe_chrono stopMark_ignores penv probe s2).2
    rw [ht] at hd
    obtain ⟨details, d, h1, h2, h3, _⟩ := recordFailure_named probe.Name
      (penv.addProbePhase err chaosDetails.Phase)
      (penv.getDescription (penv.addProbePhase err chaosDetails.Phase)) s1.ProbeDetails
      (by rw [hd]; exact hname)
    rw [onChaosLoop]
    simp only [hdl, ht, h1, if_false]
    exact ⟨trivial, trivial, d, h2, h3⟩

set_option maxRecDepth 100000 in
/-- Counterexample to C17 as stated: the probe `p` has `StopOnFailure` set and
every evaluation of it fails, but `ProbeDetails` has no entry for it.  Both
functions evaluate the probe, the evaluation fails, and they return once the
probe context is cancelled without invoking `stopChaosEngine`. -/
theorem C17_counterexample :
    stopProbe.RunProperties.StopOnFailure = true ∧
    (triggerHTTPProbe cancelledLaterEnv stopProbe {}).1 =
      .returned (some (.cerror .FailureTypeHttpProbe (nameTarget "p") "unexpected status code")) ∧
    ((triggerContinuousHTTPProbe cancelledLaterEnv stopProbe {} 2 {}).1 = .returned none ∧
      (triggerContinuousHTTPProbe cancelledLaterEnv stopProbe {} 2 {}).2.world.trace.reverse =
        [.parseCommand "http://svc", .clientGet "http://svc", .getAndIncrementRunCount "p",
         .logErrorf "The %v http probe get method has Failed, err: %v"
            (.cerror .FailureTypeHttpProbe (nameTarget "p") "unexpected status code"),
         .sleep 0]) ∧
    ((triggerOnChaosHTTPProbe cancelledLaterEnv stopProbe { ChaosDuration := 10 } 2 {}).1 =
        .returned none ∧
      (triggerOnChaosHTTPProbe cancelledLaterEnv stopProbe
          { ChaosDuration := 10 } 2 {}).2.world.trace.reverse =
        [.timeAfter (10 * Second),
         .parseCommand "http://svc", .clientGet "http://svc", .getAndIncrementRunCount "p",
         .logErrorf "The %v http probe get method has Failed, err: %v"
            (.cerror .FailureTypeHttpProbe (nameTarget "p") "unexpected status code")]) := by
  decide

set_option maxRecDepth 100000 in
/-- Witness of C17 (as amended): on the probe `p`, which has an entry and
`StopOnFailure` set, the failed evaluation is followed by one call of
`stopChaosEngine`. -/
theorem C17_witness :
    Named stopProbe.Name namedState.ProbeDetails ∧
    chrono stopMark
      (triggerContinuousHTTPProbe failingProbeEnv stopProbe {} 1 namedState).2.world.trace =
        ["p"] ∧
    (continuousLoop failingProbeEnv stopProbe {} 0 1 namedState).2.1 = true :=
  ⟨⟨_, List.Mem.head _, rfl⟩,
    ((C17_engine_stopped_iff_recorded_failure_and_stop_on_failure failingProbeEnv stopProbe {} 1
      namedState).1.1).trans (by decide),
    ((C17_engine_stopped_iff_recorded_failure_and_stop_on_failure failingProbeEnv stopProbe {} 0
      namedState).2.2.2.1 namedState 0
      (.cerror .FailureTypeHttpProbe (nameTarget "p") "unexpected status code")
      (triggerHTTPProbe failingProbeEnv stopProbe namedState).2 ⟨_, List.Mem.head _, rfl⟩
      (by decide) (Prod.ext (by decide) rfl)).2.1⟩

end HTTPProbe

namespace HTTPProbe

theorem wrapInt64_of_range (x : Int) (h0 : -9223372036854775808 ≤ x)
    (h1 : x ≤ 9223372036854775807) : wrapInt64 x = x := by
  unfold wrapInt64
  norm_num
  omega

theorem wholeSeconds_of_nonneg (d : Int) (h : 0 ≤ d) : wholeSeconds d = d / 1000000000 := by
  unfold wholeSeconds
  exact Int.tdiv_eq_ediv h (by norm_num)

/-- Counterexample to C18 as stated: with a chaos duration of 10 s and an
initial delay of 500 ms the end timer is 10 s, so that the delay and the timer
together exceed the chaos duration; and with a chaos duration of 9223372037 s
the timer, computed in 64-bit nanoseconds, is negative. -/
theorem C18_counterexample :
    endTimer 10 500000000 = 10 * Second ∧
    ¬ (500000000 + endTimer 10 500000000 ≤ 10 * Second) ∧
    (0 : Int) ≤ 9223372037 ∧ endTimer 9223372037 0 < 0 := by
  decide

/-- C18 (as amended): the end timer of `triggerOnChaosHTTPProbe`, for a chaos
duration of `D` seconds with `0 ≤ D ≤ 9223372036` and an initial delay `d` with
`0 ≤ d < 8388608 s`.  The timer is not negative; without initial delay it is
`D` seconds; when `d` is at most `D` seconds, `d` and the timer together are
`D` seconds and the part of `d` below a whole second, which is less than
`D + 1` seconds, and is `D` seconds when `d` is a whole number of seconds; when
`d` is more than `D` seconds the timer is zero.  The timer is the duration
handed to `time.After` once the initial delay has been waited for. -/
theorem C18_end_timer_is_bounded_by_the_remaining_duration (D d : Int)
    (hD0 : 0 ≤ D) (hD : D ≤ 9223372036) (hd0 : 0 ≤ d) (hd : d < 8388608 * Second) :
    0 ≤ endTimer D d ∧
    endTimer D 0 = D * Second ∧
    (d ≤ D * Second →
      d + endTimer D d = D * Second + d % Second ∧
      d + endTimer D d < D * Second + Second ∧
      (d % Second = 0 → d + endTimer D d = D * Second)) ∧
    (D * Second < d → endTimer D d = 0) ∧
    (∀ (penv : ProbeEnv) (s : State),
      (armEndTimer penv (endTimer D d) s).1.world.trace =
        .timeAfter (endTimer D d) :: s.world.trace ∧
      (armEndTimer penv (endTimer D d) s).2 =
        (armEndTimer penv (endTimer D d) s).1.world.clock + (endTimer D d).toNat) := by
  have hS : Second = 1000000000 := rfl
  have h0 : endTimer D 0 = D * Second := by
    unfold endTimer remainingDuration
    rw [if_neg (by simp)]
    exact wrapInt64_of_range _ (by rw [hS]; omega) (by rw [hS]; omega)
  have key : endTimer D d =
      (if D - d / 1000000000 < 0 then 0 else D - d / 1000000000) * 1000000000 := by
    by_cases hz : d = 0
    · subst hz
      rw [h0, hS]
      simp only [Int.zero_ediv, sub_zero]
      rw [if_neg (by omega)]
    · unfold endTimer remainingDuration Maximum
      rw [if_pos hz, wholeSeconds_of_nonneg d hd0,
        wrapInt64_of_range (D - d / 1000000000) (by omega) (by omega)]
      rw [hS] at hd ⊢
      split <;> first
        | omega
        | (apply wrapInt64_of_range <;> omega)
  rw [hS] at hd h0 ⊢
  refine ⟨?_, by rw [h0], ?_, ?_, ?_⟩
  · rw [key]; split <;> omega
  · intro hle
    rw [key]
    split <;> omega
  · intro hlt
    rw [key]
    split <;> omega
  · intro penv s
    exact ⟨rfl, rfl⟩

/-- Witness of C18 (as amended): a chaos duration of 10 s and an initial delay
of 2.5 s give a timer of 8 s. -/
theorem C18_witness :
    endTimer 10 2500000000 = 8000000000 ∧
    (2500000000 : Int) + endTimer 10 2500000000 = 10 * Second + 2500000000 % Second :=
  ⟨by decide,
    ((C18_end_timer_is_bounded_by_the_remaining_duration 10 2500000000 (by decide) (by decide)
      (by decide) (by decide)).2.2.1 (by decide)).1⟩

end HTTPProbe

namespace HTTPProbe

theorem onChaosLoop_exit (penv : ProbeEnv) (probe : ProbeAttributes)
    (chaosDetails : ChaosDetails) (pollingInterval : Int) (deadline fuel : Nat) (s : State)
    (hname : Named probe.Name s.ProbeDetails) (flag : Bool) (s' : State)
    (h : onChaosLoop penv probe chaosDetails pollingInterval deadline fuel s =
      (.returned none, flag, s')) :
    (flag = false ∧ (deadline ≤ s'.world.clock ∨ penv.ctxDone s'.world.trace = true) ∧
      ∃ d, probeEntry probe.Name s'.ProbeDetails = some d ∧ d.HasProbeCompleted = true) ∨
    (flag = true ∧ ∃ err d, s'.err = some (penv.addProbePhase err chaosDetails.Phase) ∧
      probeEntry probe.Name s'.ProbeDetails = some d ∧
      d.IsProbeFailedWithError = some (penv.addProbePhase err chaosDetails.Phase) ∧
      d.Description = penv.getDescription (penv.addProbePhase err chaosDetails.Phase) ∧
      d.HasProbeCompleted = true) := by
  induction fuel generalizing s with
  | zero =>
    unfold onChaosLoop at h
    split at h
    · rename_i hc
      simp only [Prod.mk.injEq, true_and] at h
      obtain ⟨rfl, rfl⟩ := h
      exact Or.inl ⟨rfl, Or.inl hc, (markCompleted_named _ _ hname).1⟩
    · simp at h
  | succ fuel ih =>
    unfold onChaosLoop at h
    split at h
    · rename_i hc
      simp only [Prod.mk.injEq, true_and] at h
      obtain ⟨rfl, rfl⟩ := h
      exact Or.inl ⟨rfl, Or.inl hc, (markCompleted_named _ _ hname).1⟩
    · have hd := (triggerHTTPProbe_chrono evalMark_ignores penv probe s).2
      generalize triggerHTTPProbe penv probe s = r at h hd
      obtain ⟨o, s1⟩ := r
      simp only at hd
      cases o with
      | returned e =>
        cases e with
        | none =>
          simp only at h
          split at h
          · rename_i hctx
            simp only [Prod.mk.injEq, true_and] at h
            obtain ⟨rfl, rfl⟩ := h
            exact Or.inl ⟨rfl, Or.inr hctx,
              (markCompleted_named _ _ (by rw [hd]; exact hname)).1⟩
          · exact ih _
              (by rw [(state_sleep_chrono evalMark_ignores penv _ _).2]; rw [hd]; exact hname) h
        | some err =>
          simp only at h
          obtain ⟨details, d, h1, h2, h3, h4, h5⟩ := recordFailure_named probe.Name
            (penv.addProbePhase err chaosDetails.Phase)
            (penv.getDescription (penv.addProbePhase err chaosDetails.Phase)) s1.ProbeDetails
            (by rw [hd]; exact hname)
          rw [h1] at h
          simp only [Prod.mk.injEq, true_and] at h
          obtain ⟨rfl, rfl⟩ := h
          exact Or.inr ⟨rfl, err, d, rfl, h2, h3, h4, h5⟩
      | exited c => simp at h
      | outOfFuel => simp at h
      | panicked => simp at h

set_option maxRecDepth 100000 in
set_option maxHeartbeats 2000000 in
/-- Counterexample to C19 as stated: the probe `p` succeeds at every evaluation
and the chaos duration is 100 s.  With the probe context cancelled
`triggerOnChaosHTTPProbe` returns after one evaluation, at clock 0, long before
the end timer fires and without any failure; with the context not cancelled the
same run is still evaluating after three evaluations. -/
theorem C19_counterexample :
    (triggerOnChaosHTTPProbe cancelledEnv getProbe { ChaosDuration := 100 } 3 namedState).1 =
      .returned none ∧
    chrono evalMark
      (triggerOnChaosHTTPProbe cancelledEnv getProbe
        { ChaosDuration := 100 } 3 namedState).2.world.trace = ["http://svc"] ∧
    (triggerOnChaosHTTPProbe cancelledEnv getProbe
      { ChaosDuration := 100 } 3 namedState).2.world.clock = 0 ∧
    (armEndTimer cancelledEnv (endTimer 100 0) namedState).2 = 100000000000 ∧
    onChaosFlag cancelledEnv getProbe { ChaosDuration := 100 } 3 namedState = false ∧
    (triggerOnChaosHTTPProbe quietProbeEnv getProbe { ChaosDuration := 100 } 3 namedState).1 =
      .outOfFuel ∧
    (chrono evalMark
      (triggerOnChaosHTTPProbe quietProbeEnv getProbe
        { ChaosDuration := 100 } 3 namedState).2.world.trace).length = 3 :=
  ⟨by decide, by decide, by decide, by decide, by decide, by decide, by decide⟩

/-- C19 (as amended): the loop of `triggerOnChaosHTTPProbe` on a probe that has
an entry in `ProbeDetails`.  Before each evaluation the end timer is looked at:
when it has fired the loop stops.  Otherwise the probe is evaluated: a failed
evaluation stops the loop with the failure recorded; after a successful one the
probe context is looked at, and the loop stops when it is cancelled and goes on
after the polling interval when it is not.  So the loop is left only when the
timer has fired, when an evaluation failed, or when the probe context is found
cancelled after an evaluation; the entry of the probe is then marked completed. -/
theorem C19_onchaos_loop_ends_on_timer_failure_or_cancellation (penv : ProbeEnv)
    (probe : ProbeAttributes) (chaosDetails : ChaosDetails) (pollingInterval : Int)
    (deadline : Nat) (s : State) (hname : Named probe.Name s.ProbeDetails) :
    (deadline ≤ s.world.clock →
      ∀ fuel, onChaosLoop penv probe chaosDetails pollingInterval deadline fuel s =
        (.returned none, false,
          { s with ProbeDetails := markCompleted probe.Name s.ProbeDetails })) ∧
    (¬ deadline ≤ s.world.clock →
      ∀ fuel err s1, triggerHTTPProbe penv probe s = (.returned (some err), s1) →
        ∃ details d,
          onChaosLoop penv probe chaosDetails pollingInterval deadline (fuel + 1) s =
            (.returned none, true,
              { s1 with ProbeDetails := details,
                        err := some (penv.addProbePhase err chaosDetails.Phase) }) ∧
          probeEntry probe.Name details = some d ∧
          d.IsProbeFailedWithError = some (penv.addProbePhase err chaosDetails.Phase) ∧
          d.HasProbeCompleted = true) ∧
    (¬ deadline ≤ s.world.clock →
      ∀ fuel s1, triggerHTTPProbe penv probe s = (.returned none, s1) →
        penv.ctxDone s1.world.trace = true →
        onChaosLoop penv probe chaosDetails pollingInterval deadline (fuel + 1) s =
          (.returned none, false,
            { s1 with ProbeDetails := markCompleted probe.Name s1.ProbeDetails,
                      err := none })) ∧
    (¬ deadline ≤ s.world.clock →
      ∀ fuel s1, triggerHTTPProbe penv probe s = (.returned none, s1) →
        penv.ctxDone s1.world.trace = false →
        onChaosLoop penv probe chaosDetails pollingInterval deadline (fuel + 1) s =
          onChaosLoop penv probe chaosDetails pollingInterval deadline fuel
            (State.sleep penv pollingInterval { s1 with err := none })) ∧
    (∀ fuel flag s',
      onChaosLoop penv probe chaosDetails pollingInterval deadline fuel s =
        (.returned none, flag, s') →
      (flag = false ∧ (deadline ≤ s'.world.clock ∨ penv.ctxDone s'.world.trace = true) ∧
        ∃ d, probeEntry probe.Name s'.ProbeDetails = some d ∧ d.HasProbeCompleted = true) ∨
      (flag = true ∧ ∃ err d, s'.err = some (penv.addProbePhase err chaosDetails.Phase) ∧
        probeEntry probe.Name s'.ProbeDetails = some d ∧
        d.IsProbeFailedWithError = some (penv.addProbePhase err chaosDetails.Phase) ∧
        d.Description = penv.getDescription (penv.addProbePhase err chaosDetails.Phase) ∧
        d.HasProbeCompleted = true)) := by
  refine ⟨?_, ?_, ?_, ?_, ?_⟩
  · intro hc fuel
    unfold onChaosLoop
    rw [if_pos hc]
  · intro hc fuel err s1 ht
    have hd := (triggerHTTPProbe_chrono evalMark_ignores penv probe s).2
    rw [ht] at hd
    obtain ⟨details, d, h1, h2, h3, _, h5⟩ := recordFailure_named probe.Name
      (penv.addProbePhase err chaosDetails.Phase)
      (penv.getDescription (penv.addProbePhase err chaosDetails.Phase)) s1.ProbeDetails
      (by rw [hd]; exact hname)
    refine ⟨details, d, ?_, h2, h3, h5⟩
    rw [onChaosLoop]
    simp only [hc, ht, h1, if_false]
  · intro hc fuel s1 ht hctx
    rw [onChaosLoop]
    simp only [hc, ht, hctx, if_false, if_true]
  · intro hc fuel s1 ht hctx
    rw [onChaosLoop]
    simp only [hc, ht, hctx, Bool.false_eq_true, if_false]
  · intro fuel flag s' h
    exact onChaosLoop_exit penv probe chaosDetails pollingInterval deadline fuel s hname flag s' h

/-- Witness of C19 (as amended): with the probe context cancelled the loop is
left after the first evaluation, which succeeded. -/
theorem C19_witness :
    Named getProbe.Name namedState.ProbeDetails ∧
    (onChaosLoop cancelledEnv getProbe {} 0 5 1 namedState).1 = .returned none ∧
    (onChaosLoop cancelledEnv getProbe {} 0 5 1 namedState).2.1 = false := by
  have hname : Named getProbe.Name namedState.ProbeDetails := ⟨_, List.Mem.head _, rfl⟩
  have h := (C19_onchaos_loop_ends_on_timer_failure_or_cancellation cancelledEnv getProbe {} 0 5
    namedState hname).2.2.1 (by decide) 0
    (triggerHTTPProbe cancelledEnv getProbe namedState).2 (Prod.ext (by decide) rfl) rfl
  exact ⟨hname, by rw [h], by rw [h]⟩

end HTTPProbe

namespace HTTPProbe

/-- C20 (defect): `getHTTPMethodType` compares the pointer `httpMethod.Get` with
a `GetMethod` value; values of distinct types are never deeply equal, so it
returns `Get` for every method, also when only Post is configured.  For such a
probe `triggerHTTPProbe` takes the `Get` branch and dereferences the nil `Get`
pointer for the log line: the evaluation panics once the URL is parsed, and no
request is sent. -/
theorem C20_post_only_probe_is_taken_for_a_get_probe :
    (∀ m : HTTPMethod, getHTTPMethodType m = "Get") ∧
    postProbe.Inputs.Method.Get = none ∧ postProbe.Inputs.Method.Post ≠ none ∧
    getHTTPMethodType postProbe.Inputs.Method = "Get" ∧
    (∀ (penv : ProbeEnv) (probe : ProbeAttributes) (s : State),
      probe.Inputs.Method.Get = none →
      penv.err (.parseCommand probe.Inputs.URL :: s.world.trace) = none →
      (triggerHTTPProbe penv probe s).1 = .panicked ∧
      (triggerHTTPProbe penv probe s).2.world.trace =
        .parseCommand probe.Inputs.URL :: s.world.trace) ∧
    (triggerHTTPProbe quietProbeEnv postProbe {}).1 = .panicked ∧
    (triggerHTTPProbe quietProbeEnv postProbe {}).2.world.trace = [.parseCommand "http://svc"] := by
  have hget : ∀ m : HTTPMethod, getHTTPMethodType m = "Get" := by
    intro m
    simp [getHTTPMethodType, deepEqual]
  refine ⟨hget, rfl, by decide, hget _, ?_, by decide, by decide⟩
  intro penv probe s hnone herr
  unfold triggerHTTPProbe
  simp only [World.call, herr, hget, hnone, if_true]
  exact ⟨trivial, rfl⟩

end HTTPProbe

namespace NodeMemoryHog

theorem endsIn_append_singleton (s : String) (c : Char) :
    EndsIn (s ++ String.singleton c) c := by
  simp [EndsIn, String.singleton]

theorem percentageCase_endsIn (pf : Platform) (exp : ExperimentDetails)
    (memoryCapacity memoryAllocatable : Int) :
    EndsIn (percentageCase pf exp memoryCapacity memoryAllocatable) '%' := by
  unfold percentageCase
  simp only
  split
  · exact endsIn_append_singleton "100" '%'
  · exact endsIn_append_singleton _ '%'

theorem mebibytesCase_endsIn (pf : Platform) (exp : ExperimentDetails)
    (memoryAllocatable : Int) :
    EndsIn (mebibytesCase pf exp memoryAllocatable) 'm' ∨
      EndsIn (mebibytesCase pf exp memoryAllocatable) 'k' := by
  unfold mebibytesCase
  simp only
  split
  · exact Or.inr (endsIn_append_singleton _ 'k')
  · exact Or.inl (endsIn_append_singleton _ 'm')

/-- C21: the unit picked by `calculateMemoryConsumption`.  With both values
`"0"` it returns `30%`; with both different from `"0"`, and with only the
percentage different from `"0"`, it returns what the percentage case computes,
which ends in `%`; with only the mebibytes value different from `"0"` it returns
what the mebibytes case computes, which ends in `m` or in `k`. -/
theorem C21_unit_follows_the_provided_values (pf : Platform) (exp : ExperimentDetails)
    (memoryCapacity memoryAllocatable : Int) :
    (exp.MemoryConsumptionMebibytes = "0" → exp.MemoryConsumptionPercentage = "0" →
      calculateMemoryConsumption pf exp memoryCapacity memoryAllocatable = ("30%", none)) ∧
    (exp.MemoryConsumptionMebibytes ≠ "0" → exp.MemoryConsumptionPercentage ≠ "0" →
      calculateMemoryConsumption pf exp memoryCapacity memoryAllocatable =
        (percentageCase pf exp memoryCapacity memoryAllocatable, none) ∧
      EndsIn (calculateMemoryConsumption pf exp memoryCapacity memoryAllocatable).1 '%') ∧
    (exp.MemoryConsumptionMebibytes = "0" → exp.MemoryConsumptionPercentage ≠ "0" →
      calculateMemoryConsumption pf exp memoryCapacity memoryAllocatable =
        (percentageCase pf exp memoryCapacity memoryAllocatable, none) ∧
      EndsIn (calculateMemoryConsumption pf exp memoryCapacity memoryAllocatable).1 '%') ∧
    (exp.MemoryConsumptionMebibytes ≠ "0" → exp.MemoryConsumptionPercentage = "0" →
      calculateMemoryConsumption pf exp memoryCapacity memoryAllocatable =
        (mebibytesCase pf exp memoryAllocatable, none) ∧
      (EndsIn (calculateMemoryConsumption pf exp memoryCapacity memoryAllocatable).1 'm' ∨
        EndsIn (calculateMemoryConsumption pf exp memoryCapacity memoryAllocatable).1 'k')) := by
  refine ⟨?_, ?_, ?_, ?_⟩
  · intro h1 h2
    simp [calculateMemoryConsumption, selectUnit, h1, h2]
  · intro h1 h2
    have h : calculateMemoryConsumption pf exp memoryCapacity memoryAllocatable =
        (percentageCase pf exp memoryCapacity memoryAllocatable, none) := by
      simp [calculateMemoryConsumption, selectUnit, h1, h2]
    exact ⟨h, by rw [h]; exact percentageCase_endsIn pf exp _ _⟩
  · intro h1 h2
    have h : calculateMemoryConsumption pf exp memoryCapacity memoryAllocatable =
        (percentageCase pf exp memoryCapacity memoryAllocatable, none) := by
      simp [calculateMemoryConsumption, selectUnit, h1, h2]
    exact ⟨h, by rw [h]; exact percentageCase_endsIn pf exp _ _⟩
  · intro h1 h2
    have h : calculateMemoryConsumption pf exp memoryCapacity memoryAllocatable =
        (mebibytesCase pf exp memoryAllocatable, none) := by
      simp [calculateMemoryConsumption, selectUnit, h1, h2]
    exact ⟨h, by rw [h]; exact mebibytesCase_endsIn pf exp _⟩

theorem truncate_of_nonneg (q : ℚ) (h : 0 ≤ q) : truncate q = ⌊q⌋ := by
  unfold truncate
  rw [Int.tdiv_eq_ediv (Rat.num_nonneg.mpr h) (Int.ofNat_nonneg _), Rat.floor_def]

theorem toInt_of_range (pf : Platform) (q : ℚ) (h0 : 0 ≤ q) (h1 : q < 9223372036854775808) :
    toInt pf (.finite q) = ⌊q⌋ := by
  have hf0 : 0 ≤ ⌊q⌋ := Int.floor_nonneg.mpr h0
  have hf1 : ⌊q⌋ < 9223372036854775808 := by
    have : (⌊q⌋ : ℚ) ≤ q := Int.floor_le q
    have h2 : (⌊q⌋ : ℚ) < ((9223372036854775808 : ℤ) : ℚ) := by push_cast; linarith
    exact_mod_cast h2
  unfold toInt
  simp only [truncate_of_nonneg q h0]
  rw [if_pos ⟨by omega, by omega⟩]

theorem roundHalfEven_intCast (z : Int) : roundHalfEven (z : ℚ) = z := by
  unfold roundHalfEven
  simp

theorem roundHalfEven_le {x : ℚ} {n : Int} (h : x ≤ n) : roundHalfEven x ≤ n := by
  have hf : ⌊x⌋ ≤ n := by
    have : (⌊x⌋ : ℚ) ≤ n := le_trans (Int.floor_le x) h
    exact_mod_cast this
  unfold roundHalfEven
  rcases lt_or_eq_of_le hf with hlt | heq
  · split_ifs <;> omega
  · have hx : x - ⌊x⌋ = 0 := by
      have h1 : (⌊x⌋ : ℚ) ≤ x := Int.floor_le x
      rw [heq] at h1 ⊢
      linarith
    rw [hx]
    norm_num
    omega

theorem le_roundHalfEven {x : ℚ} {n : Int} (h : (n : ℚ) ≤ x) : n ≤ roundHalfEven x := by
  have hf : n ≤ ⌊x⌋ := Int.le_floor.mpr h
  unfold roundHalfEven
  split_ifs <;> omega

theorem roundHalfEven_eq_of_abs_lt {x : ℚ} {m : Int} (h : |x - m| < 1 / 2) :
    roundHalfEven x = m := by
  rw [abs_lt] at h
  obtain ⟨h1, h2⟩ := h
  unfold roundHalfEven
  by_cases hx : (m : ℚ) ≤ x
  · have hf : ⌊x⌋ = m := by
      rw [Int.floor_eq_iff]
      constructor
      · exact hx
      · linarith
    rw [hf, if_pos (by linarith)]
  · push_neg at hx
    have hf : ⌊x⌋ = m - 1 := by
      rw [Int.floor_eq_iff]
      push_cast
      constructor <;> linarith
    rw [hf]
    push_cast
    rw [if_neg (by linarith), if_pos (by linarith)]
    omega

theorem log_eq_of_bounds {q : ℚ} {k : Int} (h1 : (2 : ℚ) ^ k ≤ |q|) (h2 : |q| < (2 : ℚ) ^ (k + 1)) :
    Int.log 2 |q| = k := by
  have hpos : 0 < |q| := lt_of_lt_of_le (by positivity) h1
  have a : k ≤ Int.log 2 |q| := by
    rw [← Int.zpow_le_iff_le_log (by norm_num) hpos]
    exact_mod_cast h1
  have b : Int.log 2 |q| < k + 1 := by
    rw [← Int.lt_zpow_iff_log_lt (by norm_num) hpos]
    exact_mod_cast h2
  omega

theorem ulpExponent_eq {q : ℚ} {k : Int} (h1 : (2 : ℚ) ^ k ≤ |q|) (h2 : |q| < (2 : ℚ) ^ (k + 1)) :
    ulpExponent q = max k (-1022) - 52 := by
  unfold ulpExponent
  rw [log_eq_of_bounds h1 h2]

theorem ulpExponent_mono {q r : ℚ} (hq : 0 < q) (h : q ≤ r) : ulpExponent q ≤ ulpExponent r := by
  unfold ulpExponent
  have hr : 0 < r := lt_of_lt_of_le hq h
  rw [abs_of_pos hq, abs_of_pos hr]
  have := Int.log_mono_right (b := 2) hq h
  omega

theorem nearest_zero : nearest 0 = 0 := by
  unfold nearest
  simp [roundHalfEven]

theorem nearest_of_onGrid {r : ℚ} (h : OnGrid r) : nearest r = r := by
  obtain ⟨z, hz⟩ := h
  unfold nearest
  have hp : (0 : ℚ) < 2 ^ ulpExponent r := by positivity
  have : r / 2 ^ ulpExponent r = (z : ℚ) := by
    rw [div_eq_iff (ne_of_gt hp)]
    exact hz
  rw [this, roundHalfEven_intCast]
  exact hz.symm

theorem nearest_nonneg {q : ℚ} (h : 0 ≤ q) : 0 ≤ nearest q := by
  unfold nearest
  have hp : (0 : ℚ) < 2 ^ ulpExponent q := by positivity
  have h0 : (0 : Int) ≤ roundHalfEven (q / 2 ^ ulpExponent q) :=
    le_roundHalfEven (by push_cast; positivity)
  have : (0 : ℚ) ≤ (roundHalfEven (q / 2 ^ ulpExponent q) : ℚ) := by exact_mod_cast h0
  positivity

theorem nearest_le_of_le {q r : ℚ} (hq : 0 ≤ q) (h : q ≤ r) (hr : OnGrid r) : nearest q ≤ r := by
  rcases eq_or_lt_of_le hq with h0 | hpos
  · rw [← h0, nearest_zero]
    rw [← h0] at h
    exact h
  · obtain ⟨z, hz⟩ := hr
    have he := ulpExponent_mono hpos h
    have hp : (0 : ℚ) < 2 ^ ulpExponent q := by positivity
    obtain ⟨d, hd⟩ := Int.eq_ofNat_of_zero_le (sub_nonneg.mpr he)
    have hr2 : r = ((z * 2 ^ d : Int) : ℚ) * 2 ^ ulpExponent q := by
      have e1 : ulpExponent r = (d : Int) + ulpExponent q := by omega
      rw [hz] 
      conv_lhs => rw [e1]
      rw [zpow_add₀ (by norm_num : (2 : ℚ) ≠ 0)]
      push_cast
      rw [zpow_natCast]
      ring
    unfold nearest
    have hle : roundHalfEven (q / 2 ^ ulpExponent q) ≤ z * 2 ^ d := by
      apply roundHalfEven_le
      rw [div_le_iff₀ hp, ← hr2]
      exact h
    have : (roundHalfEven (q / 2 ^ ulpExponent q) : ℚ) ≤ ((z * 2 ^ d : Int) : ℚ) := by
      exact_mod_cast hle
    calc (roundHalfEven (q / 2 ^ ulpExponent q) : ℚ) * 2 ^ ulpExponent q
        ≤ ((z * 2 ^ d : Int) : ℚ) * 2 ^ ulpExponent q := by
          exact mul_le_mul_of_nonneg_right this (le_of_lt hp)
      _ = r := hr2.symm

theorem two_pow_shift (k : Int) : (4503599627370496 : ℚ) * 2 ^ (k - 52) = 2 ^ k := by
  have h : (4503599627370496 : ℚ) = 2 ^ (52 : Int) := by norm_num
  rw [h, ← zpow_add₀ (by norm_num : (2 : ℚ) ≠ 0)]
  congr 1
  omega

theorem le_nearest_of_le {q r : ℚ} (hr0 : 0 < r) (h : r ≤ q) (hr : OnGrid r) : r ≤ nearest q := by
  obtain ⟨z, hz⟩ := hr
  have hq0 : 0 < q := lt_of_lt_of_le hr0 h
  have he := ulpExponent_mono hr0 h
  have hp : (0 : ℚ) < 2 ^ ulpExponent q := by positivity
  unfold nearest
  rcases eq_or_lt_of_le he with heq | hlt
  · have hle : z ≤ roundHalfEven (q / 2 ^ ulpExponent q) := by
      apply le_roundHalfEven
      rw [le_div_iff₀ hp, ← heq, ← hz]
      exact h
    have : (z : ℚ) ≤ (roundHalfEven (q / 2 ^ ulpExponent q) : ℚ) := by exact_mod_cast hle
    calc r = (z : ℚ) * 2 ^ ulpExponent q := by rw [← heq]; exact hz
      _ ≤ (roundHalfEven (q / 2 ^ ulpExponent q) : ℚ) * 2 ^ ulpExponent q :=
          mul_le_mul_of_nonneg_right this (le_of_lt hp)
  · have hlr : Int.log 2 r < Int.log 2 q ∧ -1022 < Int.log 2 q := by
      unfold ulpExponent at hlt
      rw [abs_of_pos hq0, abs_of_pos hr0] at hlt
      omega
    have hq1 : ((2 : ℕ) : ℚ) ^ Int.log 2 q ≤ q := Int.zpow_log_le_self (by norm_num) hq0
    have hr1 : r < ((2 : ℕ) : ℚ) ^ (Int.log 2 r + 1) := Int.lt_zpow_succ_log_self (by norm_num) r
    have hue : ulpExponent q = Int.log 2 q - 52 := by
      unfold ulpExponent
      rw [abs_of_pos hq0]
      omega
    have hle : ((2 ^ 52 : Nat) : Int) ≤ roundHalfEven (q / 2 ^ ulpExponent q) := by
      apply le_roundHalfEven
      rw [le_div_iff₀ hp, hue]
      have : (((2 ^ 52 : Nat) : Int) : ℚ) * 2 ^ (Int.log 2 q - 52) = 2 ^ Int.log 2 q := by
        push_cast
        exact two_pow_shift _
      rw [this]
      exact_mod_cast hq1
    have hle2 : (((2 ^ 52 : Nat) : Int) : ℚ) ≤ (roundHalfEven (q / 2 ^ ulpExponent q) : ℚ) := by
      exact_mod_cast hle
    have hstep : (2 : ℚ) ^ Int.log 2 q ≤
        (roundHalfEven (q / 2 ^ ulpExponent q) : ℚ) * 2 ^ ulpExponent q := by
      have : (((2 ^ 52 : Nat) : Int) : ℚ) * 2 ^ ulpExponent q = 2 ^ Int.log 2 q := by
        rw [hue]
        push_cast
        exact two_pow_shift _
      rw [← this]
      exact mul_le_mul_of_nonneg_right hle2 (le_of_lt hp)
    have hpow : (2 : ℚ) ^ (Int.log 2 r + 1) ≤ 2 ^ Int.log 2 q :=
      zpow_le_zpow_right₀ (by norm_num) (by omega)
    have hr2 : r < (2 : ℚ) ^ (Int.log 2 r + 1) := by exact_mod_cast hr1
    linarith

theorem onGrid_of_nat_mul_pow (N : Nat) (j : Int) (h0 : 0 < N) (h1 : N < 2 ^ 53)
    (hj : -1074 ≤ j) : OnGrid ((N : ℚ) * 2 ^ j) := by
  have hq0 : (0 : ℚ) < (N : ℚ) * 2 ^ j := by positivity
  have hlog : Int.log 2 ((N : ℚ) * 2 ^ j) < 53 + j := by
    rw [← Int.lt_zpow_iff_log_lt (by norm_num) hq0]
    push_cast
    rw [zpow_add₀ (by norm_num : (2 : ℚ) ≠ 0)]
    have : (N : ℚ) < 2 ^ (53 : Int) := by
      have : (N : ℚ) < ((2 ^ 53 : Nat) : ℚ) := by exact_mod_cast h1
      rw [zpow_ofNat]
      exact_mod_cast this
    exact mul_lt_mul_of_pos_right this (by positivity)
  have he : ulpExponent ((N : ℚ) * 2 ^ j) ≤ j := by
    unfold ulpExponent
    rw [abs_of_pos hq0]
    omega
  obtain ⟨d, hd⟩ := Int.eq_ofNat_of_zero_le (sub_nonneg.mpr he)
  refine ⟨(N : Int) * 2 ^ d, ?_⟩
  have e1 : j = (d : Int) + ulpExponent ((N : ℚ) * 2 ^ j) := by omega
  conv_lhs => rw [e1]
  rw [zpow_add₀ (by norm_num : (2 : ℚ) ≠ 0)]
  push_cast
  rw [zpow_natCast]
  ring

theorem nearest_nat_mul_pow (N : Nat) (j : Int) (h1 : N < 2 ^ 53) (hj : -1074 ≤ j) :
    nearest ((N : ℚ) * 2 ^ j) = (N : ℚ) * 2 ^ j := by
  rcases Nat.eq_zero_or_pos N with h0 | h0
  · subst h0
    simp [nearest_zero]
  · exact nearest_of_onGrid (onGrid_of_nat_mul_pow N j h0 h1 hj)

theorem nearest_eq {q : ℚ} (k m : Int) (h1 : (2 : ℚ) ^ k ≤ |q|) (h2 : |q| < (2 : ℚ) ^ (k + 1))
    (hk : -1022 ≤ k) (hm : |q / 2 ^ (k - 52) - m| < 1 / 2) :
    nearest q = (m : ℚ) * 2 ^ (k - 52) := by
  unfold nearest
  rw [ulpExponent_eq h1 h2, max_eq_left hk, roundHalfEven_eq_of_abs_lt hm]

theorem round_of_lt {q : ℚ} (h0 : 0 ≤ q) (h : nearest q < 2 ^ 1024) :
    Float64.round q = .finite (nearest q) := by
  unfold Float64.round
  have hn := nearest_nonneg h0
  rw [if_neg (not_le.mpr h), if_neg]
  have : (0 : ℚ) < 2 ^ 1024 := by positivity
  linarith

theorem round_nonneg_cases {q : ℚ} (h0 : 0 ≤ q) :
    Float64.round q = .posInf ∨ Float64.round q = .finite (nearest q) := by
  by_cases h : nearest q < 2 ^ 1024
  · exact Or.inr (round_of_lt h0 h)
  · left
    unfold Float64.round
    rw [if_pos (not_lt.mp h)]

theorem toInt_of_large (pf : Platform) (q : ℚ) (h : 9223372036854775808 ≤ q) :
    toInt pf (.finite q) = pf.convert (.finite q) := by
  have h0 : 0 ≤ q := le_trans (by norm_num) h
  have hf : (9223372036854775808 : Int) ≤ ⌊q⌋ := Int.le_floor.mpr (by exact_mod_cast h)
  unfold toInt
  simp only [truncate_of_nonneg q h0]
  rw [if_neg]
  omega

theorem divFinite_finite (q c : ℚ) (hc : c ≠ 0) :
    (Float64.finite q).divFinite c = Float64.round (q / c) := by
  simp [Float64.divFinite, hc]

theorem mulFinite_finite (q c : ℚ) : (Float64.finite q).mulFinite c = Float64.round (q * c) := rfl

theorem lt_two_pow_1024 {q : ℚ} (h : q < 2 ^ 100) : q < 2 ^ 1024 :=
  lt_of_lt_of_le h (pow_le_pow_right₀ (by norm_num) (by norm_num))

theorem round_exact (q : ℚ) (N : Nat) (j : Int) (hq : q = (N : ℚ) * 2 ^ j) (hN : N < 2 ^ 53)
    (hj : -1074 ≤ j) (hlt : q < 2 ^ 100) : Float64.round q = .finite q := by
  have hn : nearest q = q := by
    rw [hq]
    exact nearest_nat_mul_pow N j hN hj
  have h2 : (0 : ℚ) < 2 ^ j := zpow_pos (by norm_num) j
  have h0 : 0 ≤ q := hq ▸ mul_nonneg (Nat.cast_nonneg N) (le_of_lt h2)
  have := round_of_lt h0 (by rw [hn]; exact lt_two_pow_1024 hlt)
  rw [hn] at this
  exact this

theorem round_eval (q : ℚ) (k m : Int) (v : ℚ) (h1 : (2 : ℚ) ^ k ≤ q) (h2 : q < (2 : ℚ) ^ (k + 1))
    (hk : -1022 ≤ k) (hlo : ((m : ℚ) - 1 / 2) * 2 ^ (k - 52) < q)
    (hhi : q < ((m : ℚ) + 1 / 2) * 2 ^ (k - 52)) (hv : v = (m : ℚ) * 2 ^ (k - 52))
    (hlt : v < 2 ^ 100) : Float64.round q = .finite v := by
  have hq0 : 0 < q := lt_of_lt_of_le (by positivity) h1
  have hp : (0 : ℚ) < 2 ^ (k - 52) := by positivity
  have hn : nearest q = v := by
    rw [hv]
    apply nearest_eq k m
    · rw [abs_of_pos hq0]; exact h1
    · rw [abs_of_pos hq0]; exact h2
    · exact hk
    · rw [abs_lt]
      constructor
      · rw [lt_sub_iff_add_lt, lt_div_iff₀ hp]
        linarith
      · rw [sub_lt_iff_lt_add, div_lt_iff₀ hp]
        linarith
  have := round_of_lt (le_of_lt hq0) (by rw [hn]; exact lt_two_pow_1024 hlt)
  rw [hn] at this
  exact this

theorem onGrid_one : OnGrid 1 := by
  simpa using onGrid_of_nat_mul_pow 1 0 (by norm_num) (by norm_num) (by norm_num)

theorem onGrid_hundred : OnGrid 100 := by
  simpa using onGrid_of_nat_mul_pow 100 0 (by norm_num) (by norm_num) (by norm_num)

theorem onGrid_two_pow_63 : OnGrid 9223372036854775808 := by
  have h := onGrid_of_nat_mul_pow 1 63 (by norm_num) (by norm_num) (by norm_num)
  have e : ((1 : Nat) : ℚ) * 2 ^ (63 : Int) = 9223372036854775808 := by norm_num
  rw [e] at h
  exact h

theorem ofInt_nonneg {n : Int} (h : 0 ≤ n) : 0 ≤ ofInt n :=
  nearest_nonneg (by exact_mod_cast h)

theorem one_le_ofInt {n : Int} (h : 0 < n) : 1 ≤ ofInt n :=
  le_nearest_of_le (by norm_num) (by exact_mod_cast h) onGrid_one

theorem ofInt_small (n : Nat) (h : n < 2 ^ 53) : ofInt (n : Int) = n := by
  have := nearest_nat_mul_pow n 0 h (by norm_num)
  simpa [ofInt] using this

theorem toInt_round_large (pf : Platform) (q : ℚ) (h : 9223372036854775808 ≤ q) :
    toInt pf (Float64.round q) = pf.convert (Float64.round q) := by
  have h0 : 0 ≤ q := le_trans (by norm_num) h
  rcases round_nonneg_cases h0 with hr | hr
  · rw [hr]
    rfl
  · rw [hr]
    exact toInt_of_large pf _ (le_nearest_of_le (by norm_num) h onGrid_two_pow_63)

theorem posInf_chain (c d : ℚ) (hc : 0 ≤ c) (hd : 0 < d) (x : ℚ) :
    ((Float64.posInf.mulFinite c).divFinite d).mulFinite 100 ≠ .finite x := by
  rcases eq_or_lt_of_le hc with h | h
  · subst h
    simp [Float64.mulFinite, Float64.divFinite]
  · simp [Float64.mulFinite, Float64.divFinite, h, le_of_lt hd]

theorem posInf_tail (d : ℚ) (hd : 0 < d) (x : ℚ) :
    (Float64.posInf.divFinite d).mulFinite 100 ≠ .finite x := by
  simp [Float64.mulFinite, Float64.divFinite, le_of_lt hd]

theorem amd64_parse_digits (s : String) (hs : s.toList.all Char.isDigit = true) :
    amd64.parseFloat s = Float64.round (digitsValue 0 s.toList : Nat) := by
  simp only [amd64, hs, if_true]

theorem amd64_parse_percent :
    amd64.parseFloat "100000000000000000000" = .finite 100000000000000000000 := by
  rw [amd64_parse_digits _ (by decide)]
  have h2 : digitsValue 0 "100000000000000000000".toList = 100000000000000000000 := by decide
  rw [h2]
  have := round_exact 100000000000000000000 95367431640625 20 (by norm_num) (by norm_num)
    (by norm_num) (by norm_num)
  simpa using this

theorem amd64_parse_twentyNine : amd64.parseFloat "29" = .finite 29 := by
  rw [amd64_parse_digits _ (by decide)]
  have h2 : digitsValue 0 "29".toList = 29 := by decide
  rw [h2]
  have := round_exact 29 29 0 (by norm_num) (by norm_num) (by norm_num) (by norm_num)
  simpa using this

/-- Counterexample to C22 as stated, in two runs on amd64.  A percentage of
`100000000000000000000` with a capacity and an allocatable memory of one byte:
the share of the capacity asked for exceeds the allocatable memory, the
percentage of the allocatable memory does not fit the 64-bit `int`, and the
function returns `-9223372036854775808%` instead of `100%`.  A percentage of
`29` with a capacity of `3811896595207669` bytes and `1105450012610224` bytes
allocatable: the share asked for exceeds the allocatable memory by a hundredth
of a byte, the `float64` operations round the percentage of the allocatable
memory down to `99.99999999999999`, and the function returns `99%` instead of
`100%`. -/
theorem C22_counterexample :
    (((1 : Int) : ℚ) < (100000000000000000000 : ℚ) / 100 * ((1 : Int) : ℚ) ∧
      calculateMemoryConsumption amd64 hugePercentage 1 1 = ("-9223372036854775808%", none)) ∧
    (((1105450012610224 : Int) : ℚ) < (29 : ℚ) / 100 * ((3811896595207669 : Int) : ℚ) ∧
      calculateMemoryConsumption amd64 twentyNinePercent 3811896595207669 1105450012610224 =
        ("99%", none)) := by
  refine ⟨⟨by norm_num, ?_⟩, ⟨by norm_num, ?_⟩⟩
  · have hsel : selectUnit hugePercentage = some "percentage" := by decide
    have hp : amd64.parseFloat hugePercentage.MemoryConsumptionPercentage =
        .finite 100000000000000000000 := amd64_parse_percent
    have h1 : ofInt 1 = 1 := by simpa using ofInt_small 1 (by norm_num)
    have ha : (Float64.finite 100000000000000000000).divFinite 100 =
        .finite 1000000000000000000 := by
      rw [divFinite_finite _ _ (by norm_num)]
      have e : (100000000000000000000 : ℚ) / 100 = 1000000000000000000 := by norm_num
      rw [e]
      exact round_exact _ 3814697265625 18 (by norm_num) (by norm_num) (by norm_num)
        (by norm_num)
    have hb : (Float64.finite 1000000000000000000).mulFinite 1 =
        .finite 1000000000000000000 := by
      rw [mulFinite_finite, mul_one]
      exact round_exact _ 3814697265625 18 (by norm_num) (by norm_num) (by norm_num)
        (by norm_num)
    have hc : (Float64.finite 1000000000000000000).divFinite 1 =
        .finite 1000000000000000000 := by
      rw [divFinite_finite _ _ (by norm_num), div_one]
      exact round_exact _ 3814697265625 18 (by norm_num) (by norm_num) (by norm_num)
        (by norm_num)
    have hd : (Float64.finite 1000000000000000000).mulFinite 100 =
        .finite 100000000000000000000 := by
      rw [mulFinite_finite]
      have e : (1000000000000000000 : ℚ) * 100 = 100000000000000000000 := by norm_num
      rw [e]
      exact round_exact _ 95367431640625 20 (by norm_num) (by norm_num) (by norm_num)
        (by norm_num)
    have hx : percentageOfAllocatable amd64 hugePercentage 1 1 =
        .finite 100000000000000000000 := by
      unfold percentageOfAllocatable memoryForChaos
      rw [hp, h1, ha, hb, hc, hd]
    have ht : toInt amd64 (.finite 100000000000000000000) = -9223372036854775808 :=
      toInt_of_large amd64 _ (by norm_num)
    simp only [calculateMemoryConsumption, hsel, percentageCase, hx, ht, if_true]
    decide
  · have hsel : selectUnit twentyNinePercent = some "percentage" := by decide
    have hp : amd64.parseFloat twentyNinePercent.MemoryConsumptionPercentage = .finite 29 :=
      amd64_parse_twentyNine
    have h1 : ofInt 3811896595207669 = 3811896595207669 := by
      simpa using ofInt_small 3811896595207669 (by norm_num)
    have h2 : ofInt 1105450012610224 = 1105450012610224 := by
      simpa using ofInt_small 1105450012610224 (by norm_num)
    have ha : (Float64.finite 29).divFinite 100 =
        .finite (5224175567749775 / 18014398509481984) := by
      rw [divFinite_finite _ _ (by norm_num)]
      exact round_eval _ (-2) 5224175567749775 _ (by norm_num) (by norm_num) (by norm_num)
        (by norm_num) (by norm_num) (by norm_num) (by norm_num)
    have hb : (Float64.finite (5224175567749775 / 18014398509481984)).mulFinite
        3811896595207669 = .finite (8843600100881791 / 8) := by
      rw [mulFinite_finite]
      exact round_eval _ 49 8843600100881791 _ (by norm_num) (by norm_num) (by norm_num)
        (by norm_num) (by norm_num) (by norm_num) (by norm_num)
    have hc : (Float64.finite (8843600100881791 / 8)).divFinite 1105450012610224 =
        .finite (9007199254740991 / 9007199254740992) := by
      rw [divFinite_finite _ _ (by norm_num)]
      exact round_eval _ (-1) 9007199254740991 _ (by norm_num) (by norm_num) (by norm_num)
        (by norm_num) (by norm_num) (by norm_num) (by norm_num)
    have hd : (Float64.finite (9007199254740991 / 9007199254740992)).mulFinite 100 =
        .finite (7036874417766399 / 70368744177664) := by
      rw [mulFinite_finite]
      exact round_eval _ 6 7036874417766399 _ (by norm_num) (by norm_num) (by norm_num)
        (by norm_num) (by norm_num) (by norm_num) (by norm_num)
    have hx : percentageOfAllocatable amd64 twentyNinePercent 3811896595207669
        1105450012610224 = .finite (7036874417766399 / 70368744177664) := by
      unfold percentageOfAllocatable memoryForChaos
      rw [hp, h1, h2, ha, hb, hc, hd]
    have ht : toInt amd64 (.finite (7036874417766399 / 70368744177664)) = 99 := by
      rw [toInt_of_range amd64 _ (by norm_num) (by norm_num), Int.floor_eq_iff]
      norm_num
    simp only [calculateMemoryConsumption, hsel, percentageCase, hx, ht, if_true]
    decide

/-- C22 (as amended): the percentage case for a finite percentage `p ≥ 0`, a
capacity `≥ 0` and an allocatable memory `> 0`, when the `float64` value `x`
that the function computes for the percentage of the allocatable memory, each
operation rounded to `float64`, is finite and below `2^63`, so that it fits the
64-bit `int`.  Then `x ≥ 0`; the function returns `100%` when `x ≥ 100`, and
otherwise `n%` for the whole part `n` of `x`, with `0 ≤ n ≤ 99`.  The computed
value of `memoryForChaos` is finite and not negative; when it is at least
`float64(memoryAllocatable)` then `x ≥ 100` and `100%` is returned, and when it
is below then `x ≤ 100`. -/
theorem C22_percentage_is_capped_at_the_allocatable_memory (pf : Platform)
    (exp : ExperimentDetails) (memoryCapacity memoryAllocatable : Int) (p x : ℚ)
    (hsel : exp.MemoryConsumptionPercentage ≠ "0")
    (hp : pf.parseFloat exp.MemoryConsumptionPercentage = .finite p) (hp0 : 0 ≤ p)
    (hc : 0 ≤ memoryCapacity) (ha : 0 < memoryAllocatable)
    (hx : percentageOfAllocatable pf exp memoryCapacity memoryAllocatable = .finite x)
    (hr : x < 9223372036854775808) :
    0 ≤ x ∧
    (100 ≤ x →
      calculateMemoryConsumption pf exp memoryCapacity memoryAllocatable = ("100%", none)) ∧
    (x < 100 →
      calculateMemoryConsumption pf exp memoryCapacity memoryAllocatable =
        (toString ⌊x⌋ ++ "%", none) ∧
      0 ≤ ⌊x⌋ ∧ ⌊x⌋ ≤ 99) ∧
    (∃ m : ℚ, memoryForChaos pf exp memoryCapacity = .finite m ∧ 0 ≤ m ∧
      (ofInt memoryAllocatable ≤ m → 100 ≤ x) ∧
      (m < ofInt memoryAllocatable → x ≤ 100)) := by
  have hfc : 0 ≤ ofInt memoryCapacity := ofInt_nonneg hc
  have hfa1 : 1 ≤ ofInt memoryAllocatable := one_le_ofInt ha
  have hfa : 0 < ofInt memoryAllocatable := lt_of_lt_of_le (by norm_num) hfa1
  -- the four operations, from the inside
  have hx1 := hx
  unfold percentageOfAllocatable memoryForChaos at hx1
  rw [hp, divFinite_finite p 100 (by norm_num)] at hx1
  have ha0 : 0 ≤ p / 100 := by positivity
  rcases round_nonneg_cases ha0 with h1 | h1
  · rw [h1] at hx1
    exact absurd hx1 (posInf_chain _ _ hfc hfa x)
  rw [h1, mulFinite_finite] at hx1
  have hb0 : 0 ≤ nearest (p / 100) * ofInt memoryCapacity :=
    mul_nonneg (nearest_nonneg ha0) hfc
  rcases round_nonneg_cases hb0 with h2 | h2
  · rw [h2] at hx1
    exact absurd hx1 (posInf_tail _ hfa x)
  rw [h2, divFinite_finite _ _ (ne_of_gt hfa)] at hx1
  have hm0 : 0 ≤ nearest (nearest (p / 100) * ofInt memoryCapacity) := nearest_nonneg hb0
  have hc0 : 0 ≤ nearest (nearest (p / 100) * ofInt memoryCapacity) / ofInt memoryAllocatable :=
    div_nonneg hm0 (le_of_lt hfa)
  rcases round_nonneg_cases hc0 with h3 | h3
  · rw [h3] at hx1
    simp [Float64.mulFinite] at hx1
  rw [h3, mulFinite_finite] at hx1
  have hd0 : 0 ≤ nearest (nearest (nearest (p / 100) * ofInt memoryCapacity) /
      ofInt memoryAllocatable) * 100 := mul_nonneg (nearest_nonneg hc0) (by norm_num)
  rcases round_nonneg_cases hd0 with h4 | h4
  · rw [h4] at hx1
    simp at hx1
  rw [h4] at hx1
  have hxe : x = nearest (nearest (nearest (nearest (p / 100) * ofInt memoryCapacity) /
      ofInt memoryAllocatable) * 100) := by
    injection hx1 with h
    exact h.symm
  have hx0 : 0 ≤ x := by
    rw [hxe]
    exact nearest_nonneg hd0
  have hmem : memoryForChaos pf exp memoryCapacity =
      .finite (nearest (nearest (p / 100) * ofInt memoryCapacity)) := by
    unfold memoryForChaos
    rw [hp, divFinite_finite p 100 (by norm_num), h1, mulFinite_finite, h2]
  have hsu : selectUnit exp = some "percentage" := by
    unfold selectUnit
    split <;> simp [hsel]
  have hcalc : calculateMemoryConsumption pf exp memoryCapacity memoryAllocatable =
      (if ⌊x⌋ > 100 then "100%" else toString ⌊x⌋ ++ "%", none) := by
    simp only [calculateMemoryConsumption, hsu, percentageCase, hx, if_true,
      toInt_of_range pf x hx0 hr]
  refine ⟨hx0, ?_, ?_, ⟨_, hmem, hm0, ?_, ?_⟩⟩
  · intro h100
    have hfl : 100 ≤ ⌊x⌋ := Int.le_floor.mpr (by push_cast; exact h100)
    rw [hcalc]
    by_cases hgt : ⌊x⌋ > 100
    · rw [if_pos hgt]
    · rw [if_neg hgt]
      have : ⌊x⌋ = 100 := by omega
      rw [this]
      decide
  · intro hlt
    have hfl : ⌊x⌋ ≤ 99 := by
      have h1 : ⌊x⌋ < 100 := Int.floor_lt.mpr (by push_cast; exact hlt)
      omega
    refine ⟨?_, Int.floor_nonneg.mpr hx0, hfl⟩
    rw [hcalc, if_neg (by omega)]
  · intro hle
    have hq : (1 : ℚ) ≤ nearest (nearest (p / 100) * ofInt memoryCapacity) /
        ofInt memoryAllocatable := by
      rw [le_div_iff₀ hfa, one_mul]
      exact hle
    have hc1 : 1 ≤ nearest (nearest (nearest (p / 100) * ofInt memoryCapacity) /
        ofInt memoryAllocatable) := le_nearest_of_le (by norm_num) hq onGrid_one
    rw [hxe]
    exact le_nearest_of_le (by norm_num) (by linarith) onGrid_hundred
  · intro hlt
    have hq : nearest (nearest (p / 100) * ofInt memoryCapacity) /
        ofInt memoryAllocatable ≤ 1 := by
      rw [div_le_iff₀ hfa, one_mul]
      exact le_of_lt hlt
    have hc1 : nearest (nearest (nearest (p / 100) * ofInt memoryCapacity) /
        ofInt memoryAllocatable) ≤ 1 := nearest_le_of_le hc0 hq onGrid_one
    rw [hxe]
    exact nearest_le_of_le hd0 (by linarith) onGrid_hundred

/-- Witness of C22 (as amended): 29 percent of a capacity of 100 bytes, with 100
bytes allocatable.  The `float64` operations give `28.999999999999996`, and the
function returns `28%`. -/
theorem C22_witness :
    amd64.parseFloat "29" = .finite 29 ∧
    percentageOfAllocatable amd64 twentyNinePercent 100 100 =
      .finite (8162774324609023 / 281474976710656) ∧
    calculateMemoryConsumption amd64 twentyNinePercent 100 100 = ("28%", none) := by
  have hp : amd64.parseFloat twentyNinePercent.MemoryConsumptionPercentage = .finite 29 :=
    amd64_parse_twentyNine
  have h1 : ofInt 100 = 100 := by simpa using ofInt_small 100 (by norm_num)
  have ha : (Float64.finite 29).divFinite 100 =
      .finite (5224175567749775 / 18014398509481984) := by
    rw [divFinite_finite _ _ (by norm_num)]
    exact round_eval _ (-2) 5224175567749775 _ (by norm_num) (by norm_num) (by norm_num)
      (by norm_num) (by norm_num) (by norm_num) (by norm_num)
  have hb : (Float64.finite (5224175567749775 / 18014398509481984)).mulFinite 100 =
      .finite (8162774324609023 / 281474976710656) := by
    rw [mulFinite_finite]
    exact round_eval _ 4 8162774324609023 _ (by norm_num) (by norm_num) (by norm_num)
      (by norm_num) (by norm_num) (by norm_num) (by norm_num)
  have hc : (Float64.finite (8162774324609023 / 281474976710656)).divFinite 100 =
      .finite (5224175567749775 / 18014398509481984) := by
    rw [divFinite_finite _ _ (by norm_num)]
    exact round_eval _ (-2) 5224175567749775 _ (by norm_num) (by norm_num) (by norm_num)
      (by norm_num) (by norm_num) (by norm_num) (by norm_num)
  have hx : percentageOfAllocatable amd64 twentyNinePercent 100 100 =
      .finite (8162774324609023 / 281474976710656) := by
    unfold percentageOfAllocatable memoryForChaos
    rw [hp, h1, ha, hb, hc, hb]
  have h := (C22_percentage_is_capped_at_the_allocatable_memory amd64 twentyNinePercent 100 100
    29 (8162774324609023 / 281474976710656) (by decide) hp (by norm_num) (by norm_num)
    (by norm_num) hx (by norm_num)).2.2.1 (by norm_num)
  have hf : ⌊(8162774324609023 / 281474976710656 : ℚ)⌋ = 28 := by
    rw [Int.floor_eq_iff]
    norm_num
  rw [hf] at h
  exact ⟨amd64_parse_twentyNine, hx, h.1⟩

theorem amd64_parse_thirty : amd64.parseFloat "30" = .finite 30 := by
  rw [amd64_parse_digits _ (by decide)]
  have h2 : digitsValue 0 "30".toList = 30 := by decide
  rw [h2]
  have := round_exact 30 30 0 (by norm_num) (by norm_num) (by norm_num) (by norm_num)
  simpa using this

theorem amd64_parse_mebibytes :
    amd64.parseFloat "10000000000000000000" = .finite 10000000000000000000 := by
  rw [amd64_parse_digits _ (by decide)]
  have h2 : digitsValue 0 "10000000000000000000".toList = 10000000000000000000 := by decide
  rw [h2]
  have := round_exact 10000000000000000000 19073486328125 19 (by norm_num) (by norm_num)
    (by norm_num) (by norm_num)
  simpa using this

/-- Counterexample to C23 as stated: a request of `10000000000000000000`
mebibytes on a node with 1 GiB of allocatable memory.  The request in
kibibytes does not fit the 64-bit `int`, and with the conversion of amd64 the
function returns the request itself, `10000000000000000000m`, instead of the
allocatable memory `1048576k`. -/
theorem C23_counterexample :
    amd64.parseFloat "10000000000000000000" = .finite 10000000000000000000 ∧
    (1073741824 : Int).tdiv 1024 = 1048576 ∧
    calculateMemoryConsumption amd64 hugeMebibytes 0 1073741824 =
      ("10000000000000000000m", none) := by
  refine ⟨amd64_parse_mebibytes, by decide, ?_⟩
  have hsel : selectUnit hugeMebibytes = some "mebibytes" := by decide
  have hp : amd64.parseFloat hugeMebibytes.MemoryConsumptionMebibytes =
      .finite 10000000000000000000 := amd64_parse_mebibytes
  have ht : toInt amd64 ((Float64.finite 10000000000000000000).mulFinite (65625 / 64)) =
      -9223372036854775808 := by
    rw [mulFinite_finite, toInt_round_large amd64 _ (by norm_num)]
    rfl
  have hd : (1073741824 : Int).tdiv 1024 = 1048576 := by decide
  simp only [calculateMemoryConsumption, hsel, mebibytesCase, hp, ht, hd]
  decide

/-- C23 (as amended): the mebibytes case for a request of `M` mebibytes with
`1 ≤ M ≤ 2^36`, where the product with `1025.390625` is exact in `float64`
and fits the 64-bit `int`, and an allocatable memory `≥ 0`.  When the
allocatable memory in kibibytes is below `⌊M * 1025.390625⌋` the function
returns it, in kibibytes, and that is at most the allocatable memory; otherwise
it returns the request, in mebibytes, and `M * 1024` kibibytes are at most the
allocatable memory in kibibytes. -/
theorem C23_mebibytes_request_is_capped_at_the_allocatable_memory (pf : Platform)
    (exp : ExperimentDetails) (memoryCapacity memoryAllocatable : Int) (M : Nat)
    (hsel1 : exp.MemoryConsumptionMebibytes ≠ "0")
    (hsel2 : exp.MemoryConsumptionPercentage = "0")
    (hm : pf.parseFloat exp.MemoryConsumptionMebibytes = .finite M)
    (hM1 : 1 ≤ M) (hM2 : M ≤ 68719476736) (ha : 0 ≤ memoryAllocatable) :
    (memoryAllocatable / 1024 < ((M * 65625 / 64 : Nat) : Int) →
      calculateMemoryConsumption pf exp memoryCapacity memoryAllocatable =
        (toString (memoryAllocatable / 1024) ++ "k", none) ∧
      memoryAllocatable / 1024 * 1024 ≤ memoryAllocatable) ∧
    (¬ memoryAllocatable / 1024 < ((M * 65625 / 64 : Nat) : Int) →
      calculateMemoryConsumption pf exp memoryCapacity memoryAllocatable =
        (exp.MemoryConsumptionMebibytes ++ "m", none) ∧
      (M : Int) * 1024 ≤ memoryAllocatable / 1024 ∧
      (M : Int) * 1024 * 1024 ≤ memoryAllocatable) := by
  have hq0 : (0 : ℚ) ≤ (M : ℚ) * (65625 / 64) := by positivity
  have hq1 : (M : ℚ) * (65625 / 64) < 9223372036854775808 := by
    have : (M : ℚ) ≤ 68719476736 := by exact_mod_cast hM2
    linarith
  have hfloor : ⌊(M : ℚ) * (65625 / 64)⌋ = ((M * 65625 / 64 : Nat) : Int) := by
    have h1 : (M : ℚ) * (65625 / 64) = ((M * 65625 : Nat) : ℚ) / ((64 : Nat) : ℚ) := by
      push_cast
      ring
    rw [h1, Rat.floor_natCast_div_natCast]
    norm_cast
  have hcalc : calculateMemoryConsumption pf exp memoryCapacity memoryAllocatable =
      (if memoryAllocatable / 1024 < ((M * 65625 / 64 : Nat) : Int) then
          toString (memoryAllocatable / 1024) ++ "k"
        else exp.MemoryConsumptionMebibytes ++ "m", none) := by
    have hs : selectUnit exp = some "mebibytes" := by
      unfold selectUnit
      simp [hsel1, hsel2]
    have ht : memoryAllocatable.tdiv 1024 = memoryAllocatable / 1024 :=
      Int.tdiv_eq_ediv ha (by norm_num)
    have hne : ("mebibytes" : String) ≠ "percentage" := by decide
    have hexact : Float64.round ((M : ℚ) * (65625 / 64)) = .finite ((M : ℚ) * (65625 / 64)) :=
      round_exact _ (M * 65625) (-6) (by push_cast; norm_num; ring) (by norm_num; omega)
        (by norm_num) (lt_trans hq1 (by norm_num))
    simp only [calculateMemoryConsumption, hs, mebibytesCase, hm, mulFinite_finite, hexact,
      toInt_of_range pf _ hq0 hq1, hfloor, ht, hne, if_false, if_true]
  constructor
  · intro hlt
    rw [hcalc, if_pos hlt]
    exact ⟨rfl, by omega⟩
  · intro hge
    rw [hcalc, if_neg hge]
    refine ⟨rfl, ?_, ?_⟩ <;> omega

/-- Witness of C23 (as amended): a request of 30 mebibytes on a node with 1 GiB
of allocatable memory is returned as it is. -/
theorem C23_witness :
    amd64.parseFloat "30" = .finite ((30 : Nat) : ℚ) ∧
    calculateMemoryConsumption amd64 thirtyMebibytes 0 1073741824 = ("30m", none) := by
  have hp : amd64.parseFloat "30" = .finite ((30 : Nat) : ℚ) := by
    rw [amd64_parse_thirty]
    norm_num
  exact ⟨hp,
    ((C23_mebibytes_request_is_capped_at_the_allocatable_memory amd64 thirtyMebibytes 0
      1073741824 30 (by decide) rfl hp (by norm_num) (by norm_num) (by norm_num)).2
      (by decide)).1⟩

/-- C28: `calculateMemoryConsumption` returns a nil error for every input,
whatever the two strings, the capacity, the allocatable memory, the result of
`strconv.ParseFloat` and that of an out-of-range conversion: `selector` is
always `percentage` or `mebibytes` when the switch is reached, so the error
returned after the switch is never returned. -/
theorem C28_calculateMemoryConsumption_never_fails (pf : Platform) (exp : ExperimentDetails)
    (memoryCapacity memoryAllocatable : Int) :
    (calculateMemoryConsumption pf exp memoryCapacity memoryAllocatable).2 = none ∧
    (selectUnit exp = none ∨ selectUnit exp = some "percentage" ∨
      selectUnit exp = some "mebibytes") := by
  unfold calculateMemoryConsumption selectUnit
  repeat' split
  all_goals simp_all

end NodeMemoryHog

namespace PodDeleteExperiment

theorem andThen_next (f : Flow) (k : Run → Flow) (r : Run) (h : f.andThen k = .next r) :
    ∃ r0, f = .next r0 ∧ k r0 = .next r := by
  cases f with
  | next r0 => exact ⟨r0, rfl, h⟩
  | done r0 => simp [Flow.andThen] at h

theorem initialise_next (env : Env) (setup : Setup) (r : Run)
    (h : initialise env setup = .next r) :
    r.Phase = setup.Phase ∧ r.passed = false ∧ chrono lifeMark r.world.trace = [] := by
  unfold initialise at h
  simp only [World.call] at h
  repeat' split at h
  all_goals simp only [Flow.next.injEq, reduceCtorEq, Prod.mk.injEq] at *
  all_goals try casesm* _ ∧ _
  all_goals subst_vars
  all_goals simp [chrono_cons, chrono_nil, lifeMark, step_trace]

theorem startResult_next (env : Env) (r0 r : Run) (h : startResult env r0 = .next r) :
    r.Phase = r0.Phase ∧ r.passed = r0.passed ∧
      chrono lifeMark r.world.trace = chrono lifeMark r0.world.trace := by
  unfold startResult at h
  simp only [World.call, recordAndReturn] at h
  repeat' split at h
  all_goals simp only [Flow.next.injEq, reduceCtorEq, Prod.mk.injEq] at *
  all_goals try casesm* _ ∧ _
  all_goals subst_vars
  all_goals simp [chrono_cons, lifeMark, step_trace]

theorem announce_next (env : Env) (setup : Setup) (r0 r : Run)
    (h : announce env setup r0 = .next r) :
    r.Phase = r0.Phase ∧ r.passed = r0.passed ∧
      chrono lifeMark r.world.trace = chrono lifeMark r0.world.trace := by
  unfold announce at h
  simp only [World.call, Flow.next.injEq] at h
  subst h
  refine ⟨rfl, rfl, ?_⟩
  simp only [step_trace, chrono_cons, lifeMark, Option.toList, List.append_nil]
  split <;> rename_i hh <;> simp only [Prod.mk.injEq] at hh <;> obtain ⟨_, rfl⟩ := hh <;>
    simp [chrono_cons, lifeMark, step_trace]

theorem preChaosStatus_next (env : Env) (setup : Setup) (r0 r : Run)
    (h : preChaosStatus env setup r0 = .next r) :
    r.Phase = r0.Phase ∧ r.passed = r0.passed ∧
      chrono lifeMark r.world.trace = chrono lifeMark r0.world.trace := by
  unfold preChaosStatus at h
  simp only [World.call, recordAndReturn] at h
  repeat' split at h
  all_goals simp only [Flow.next.injEq, reduceCtorEq, Prod.mk.injEq] at *
  all_goals try casesm* _ ∧ _
  all_goals subst_vars
  all_goals simp [chrono_cons, lifeMark, step_trace]

theorem beforeProbes_next (env : Env) (setup : Setup) (r : Run)
    (h : beforeProbes env setup = .next r) :
    r.Phase = setup.Phase ∧ r.passed = false ∧ chrono lifeMark r.world.trace = [] := by
  unfold beforeProbes at h
  obtain ⟨r3, h3, h4⟩ := andThen_next _ _ _ h
  obtain ⟨r2, h2, h3⟩ := andThen_next _ _ _ h3
  obtain ⟨r1, h1, h2⟩ := andThen_next _ _ _ h2
  obtain ⟨a1, b1, c1⟩ := initialise_next env setup r1 h1
  obtain ⟨a2, b2, c2⟩ := startResult_next env r1 r2 h2
  obtain ⟨a3, b3, c3⟩ := announce_next env setup r2 r3 h3
  obtain ⟨a4, b4, c4⟩ := preChaosStatus_next env setup r3 r h4
  exact ⟨by rw [a4, a3, a2, a1], by rw [b4, b3, b2, b1], by rw [c4, c3, c2, c1]⟩

/-- C24: in `PodDelete` run with an engine and at least one probe, when the
steps before the pre-chaos probes have gone through and the run of the probes
for `PreChaos` returns an error, the failure is recorded with the chaos phase
still the one left by the initialisation, and the function returns: of the runs
of the probes, the injection and the records of a failure, only the `PreChaos`
run and the record of its error are made, the phase is never changed and the
verdict is never set to passed. -/
theorem C24_failed_prechaos_probes_end_the_experiment (env : Env) (setup : Setup) (r : Run)
    (err : GoError) (hengine : setup.EngineName ≠ "") (hprobes : setup.ProbeDetails.length ≠ 0)
    (hreach : beforeProbes env setup = .next r)
    (herr : env.err (.runProbes "PreChaos" :: r.world.trace) = some err) :
    chrono lifeMark (PodDelete env setup).world.trace =
      [.runProbes "PreChaos", .experiment (.recordAfterFailure setup.Phase err)] ∧
    (PodDelete env setup).world.trace.head? =
      some (.experiment (.recordAfterFailure setup.Phase err)) ∧
    (PodDelete env setup).Phase = setup.Phase ∧
    (PodDelete env setup).passed = false ∧
    (∀ phase, .experiment (.preparePodDelete phase) ∉ (PodDelete env setup).world.trace) ∧
    .runProbes "PostChaos" ∉ (PodDelete env setup).world.trace := by
  obtain ⟨hphase, hpassed, hmarks⟩ := beforeProbes_next env setup r hreach
  have hrun : PodDelete env setup =
      { r with world := (World.step env (.experiment (.recordAfterFailure setup.Phase err))
          (engineEventLogged env "PreChaosCheck"
            (setup.getStatusMessage setup.DefaultHealthCheck "AUT: Running" "Unsuccessful")
            "Warning" ((r.world.step env (.runProbes "PreChaos")).step env
              (.logErrorf "Probe Failed, err: %v" err)))) } := by
    unfold PodDelete
    rw [hreach]
    simp only [Flow.andThen, preChaosProbes, hengine, hprobes, World.call, herr,
      recordAndReturn, Flow.run, ne_eq, not_false_eq_true, if_true, hphase]
  have hmark : chrono lifeMark (PodDelete env setup).world.trace =
      [.runProbes "PreChaos", .experiment (.recordAfterFailure setup.Phase err)] := by
    rw [hrun]
    simp only [engineEventLogged, World.call]
    split <;> rename_i hh <;> simp only [Prod.mk.injEq] at hh <;> obtain ⟨_, rfl⟩ := hh <;>
      simp [chrono_cons, lifeMark, step_trace, hmarks]
  have hmem : ∀ e, e ∈ (PodDelete env setup).world.trace → lifeMark e = some e →
      e = .runProbes "PreChaos" ∨ e = .experiment (.recordAfterFailure setup.Phase err) := by
    intro e he hl
    have : e ∈ chrono lifeMark (PodDelete env setup).world.trace := by
      unfold chrono
      rw [List.mem_filterMap]
      exact ⟨e, List.mem_reverse.mpr he, hl⟩
    rw [hmark] at this
    simpa using this
  refine ⟨hmark, by rw [hrun]; rfl, by rw [hrun, hphase], by rw [hrun, hpassed], ?_, ?_⟩
  · intro phase hin
    rcases hmem _ hin rfl with h | h <;> simp at h
  · intro hin
    rcases hmem _ hin rfl with h | h <;> simp at h

/-- Witness of C24: an experiment with an engine, one probe and the default
health check, in which the run of the probes before the chaos fails. -/
theorem C24_witness :
    chrono lifeMark (PodDelete probeFailsEnv probedSetup).world.trace =
      [.runProbes "PreChaos",
       .experiment (.recordAfterFailure "PreChaos" (.external "probe failed"))] ∧
    (PodDelete probeFailsEnv probedSetup).passed = false :=
  ⟨(C24_failed_prechaos_probes_end_the_experiment probeFailsEnv probedSetup
      (beforeProbes probeFailsEnv probedSetup).run (.external "probe failed")
      (by decide) (by decide) rfl rfl).1,
    (C24_failed_prechaos_probes_end_the_experiment probeFailsEnv probedSetup
      (beforeProbes probeFailsEnv probedSetup).run (.external "probe failed")
      (by decide) (by decide) rfl rfl).2.2.2.1⟩

end PodDeleteExperiment

namespace HTTPProbe

set_option maxRecDepth 100000 in
/-- C26 (defect): an attempt of `httpPost` whose request succeeds and whose
status code meets the criteria of the Post method builds the description from
`Method.Get.ResponseCode`: it panics when no Get method is configured, and
otherwise reports the response code of the Get method as the expected code.
With Get expecting 200, Post expecting 201 and the answer 201, the description
recorded says `Expected code: '200'`; on a probe with the Post method only,
`httpPost` panics after the request. -/
theorem C26_post_description_reads_the_get_method :
    (∀ (penv : ProbeEnv) (probe : ProbeAttributes) (post : PostMethod) (body : String)
        (s : State),
      penv.err (.clientPost probe.Inputs.URL post.ContentType body :: s.world.trace) = none →
      penv.compareInt
          (penv.runCount (.getAndIncrementRunCount probe.Name ::
            .clientPost probe.Inputs.URL post.ContentType body :: s.world.trace))
          (toString (penv.statusCode
            (.clientPost probe.Inputs.URL post.ContentType body :: s.world.trace)))
          post.ResponseCode post.Criteria probe.Name probe.RunProperties.Verbosity = none →
      (probe.Inputs.Method.Get = none →
        (httpPostAttempt penv probe post body s).1 = .panicked) ∧
      (∀ get, probe.Inputs.Method.Get = some get →
        (httpPostAttempt penv probe post body s).1 = .returned none ∧
        (httpPostAttempt penv probe post body s).2.1 =
          successDescription probe.Inputs.URL
            (toString (penv.statusCode
              (.clientPost probe.Inputs.URL post.ContentType body :: s.world.trace)))
            get.ResponseCode)) ∧
    ((httpPost createdEnv bothProbe {}).1 = .returned none ∧
      (httpPost createdEnv bothProbe {}).2.world.trace.reverse =
        [.clientPost "http://svc" "text/plain" "ping", .getAndIncrementRunCount "p",
         .setProbeDescription "p"
           ("The URL http://svc did respond with correct status code. " ++
             "Actual code: '201'. Expected code: '200'")]) ∧
    ((httpPost quietProbeEnv postProbe {}).1 = .panicked ∧
      (httpPost quietProbeEnv postProbe {}).2.world.trace.reverse =
        [.clientPost "http://svc" "text/plain" "ping", .getAndIncrementRunCount "p"]) := by
  refine ⟨?_, ⟨by decide, by decide⟩, ⟨by decide, by decide⟩⟩
  intro penv probe post body s herr hcmp
  unfold httpPostAttempt
  simp only [World.call, herr, step_trace, hcmp]
  constructor
  · intro hnone
    simp [hnone]
  · intro get hget
    simp [hget]

end HTTPProbe

namespace HTTPProbe

theorem others_markCompleted (name : String) (details : List ProbeDetails) :
    others name (markCompleted name details) = others name details := by
  unfold others markCompleted
  induction details with
  | nil => rfl
  | cons d rest ih =>
    by_cases hd : d.Name = name
    · simp only [List.map_cons, hd, if_true]
      rw [List.filter_cons_of_neg (by simp), List.filter_cons_of_neg (by simp [hd])]
      exact ih
    · simp only [List.map_cons, hd, if_false]
      rw [List.filter_cons_of_pos (by simp [hd]), List.filter_cons_of_pos (by simp [hd]), ih]

theorem others_recordFailure (name : String) (err : GoError) (description : String)
    (details details' : List ProbeDetails)
    (h : recordFailure name err description details = some details') :
    others name details' = others name details := by
  induction details generalizing details' with
  | nil => simp [recordFailure] at h
  | cons d rest ih =>
    unfold recordFailure at h
    by_cases hd : d.Name = name
    · rw [if_pos hd] at h
      simp only [Option.some.injEq] at h
      subst h
      unfold others
      rw [List.filter_cons_of_neg (by simp [hd]), List.filter_cons_of_neg (by simp [hd])]
    · rw [if_neg hd] at h
      cases hr : recordFailure name err description rest with
      | none => simp [hr] at h
      | some rest' =>
        simp only [hr, Option.map_some', Option.some.injEq] at h
        subst h
        have := ih rest' hr
        unfold others at this ⊢
        rw [List.filter_cons_of_pos (by simp [hd]), List.filter_cons_of_pos (by simp [hd]), this]

theorem recordFailure_not_named (name : String) (err : GoError) (description : String)
    (details : List ProbeDetails) (h : ¬ Named name details) :
    recordFailure name err description details = none := by
  induction details with
  | nil => rfl
  | cons d rest ih =>
    unfold recordFailure
    have hd : d.Name ≠ name := fun hd => h ⟨d, List.mem_cons_self _ _, hd⟩
    have hrest : ¬ Named name rest := fun ⟨d', hm, hn⟩ => h ⟨d', List.mem_cons_of_mem _ hm, hn⟩
    rw [if_neg hd, ih hrest]
    rfl

theorem markCompleted_not_named (name : String) (details : List ProbeDetails)
    (h : ¬ Named name details) : markCompleted name details = details := by
  unfold markCompleted
  conv_rhs => rw [← List.map_id details]
  apply List.map_congr_left
  intro d hd
  have : d.Name ≠ name := fun hn => h ⟨d, hd, hn⟩
  simp [this]

theorem continuousLoop_others (penv : ProbeEnv) (probe : ProbeAttributes)
    (chaosDetails : ChaosDetails) (pollingInterval : Int) (fuel : Nat) (s : State) :
    others probe.Name
        (continuousLoop penv probe chaosDetails pollingInterval fuel s).2.2.ProbeDetails =
      others probe.Name s.ProbeDetails ∧
    (¬ Named probe.Name s.ProbeDetails →
      (continuousLoop penv probe chaosDetails pollingInterval fuel s).2.1 = false ∧
      (continuousLoop penv probe chaosDetails pollingInterval fuel s).2.2.ProbeDetails =
        s.ProbeDetails) := by
  induction fuel generalizing s with
  | zero =>
    unfold continuousLoop
    split
    · exact ⟨others_markCompleted _ _, fun h => ⟨rfl, markCompleted_not_named _ _ h⟩⟩
    · exact ⟨rfl, fun _ => ⟨rfl, rfl⟩⟩
  | succ fuel ih =>
    unfold continuousLoop
    split
    · exact ⟨others_markCompleted _ _, fun h => ⟨rfl, markCompleted_not_named _ _ h⟩⟩
    · have hd := (triggerHTTPProbe_chrono stopMark_ignores penv probe s).2
      generalize triggerHTTPProbe penv probe s = r at hd
      obtain ⟨o, ⟨w1, pd1, e1⟩⟩ := r
      simp only at hd
      subst hd
      cases o with
      | returned e =>
        cases e with
        | none =>
          simp only
          have h := ih (State.sleep penv pollingInterval ⟨w1, s.ProbeDetails, none⟩)
          simp only [(state_sleep_chrono stopMark_ignores penv _ _).2] at h
          exact h
        | some err =>
          simp only
          split
          · rename_i details hrec
            refine ⟨?_, fun hn => ?_⟩
            · simp only [State.step]
              rw [others_recordFailure _ _ _ _ _ hrec]
            · rw [recordFailure_not_named _ _ _ _ hn] at hrec
              cases hrec
          · have h := ih (State.sleep penv pollingInterval
              ⟨w1, s.ProbeDetails, some (penv.addProbePhase err chaosDetails.Phase)⟩)
            simp only [(state_sleep_chrono stopMark_ignores penv _ _).2] at h
            exact h
      | exited c => exact ⟨rfl, fun _ => ⟨rfl, rfl⟩⟩
      | outOfFuel => exact ⟨rfl, fun _ => ⟨rfl, rfl⟩⟩
      | panicked => exact ⟨rfl, fun _ => ⟨rfl, rfl⟩⟩

theorem onChaosLoop_others (penv : ProbeEnv) (probe : ProbeAttributes)
    (chaosDetails : ChaosDetails) (pollingInterval : Int) (deadline fuel : Nat) (s : State) :
    others probe.Name
        (onChaosLoop penv probe chaosDetails pollingInterval deadline fuel s).2.2.ProbeDetails =
      others probe.Name s.ProbeDetails ∧
    (¬ Named probe.Name s.ProbeDetails →
      (onChaosLoop penv probe chaosDetails pollingInterval deadline fuel s).2.1 = false ∧
      (onChaosLoop penv probe chaosDetails pollingInterval deadline fuel s).2.2.ProbeDetails =
        s.ProbeDetails) := by
  induction fuel generalizing s with
  | zero =>
    unfold onChaosLoop
    split
    · exact ⟨others_markCompleted _ _, fun h => ⟨rfl, markCompleted_not_named _ _ h⟩⟩
    · exact ⟨rfl, fun _ => ⟨rfl, rfl⟩⟩
  | succ fuel ih =>
    unfold onChaosLoop
    split
    · exact ⟨others_markCompleted _ _, fun h => ⟨rfl, markCompleted_not_named _ _ h⟩⟩
    · have hd := (triggerHTTPProbe_chrono stopMark_ignores penv probe s).2
      generalize triggerHTTPProbe penv probe s = r at hd
      obtain ⟨o, ⟨w1, pd1, e1⟩⟩ := r
      simp only at hd
      subst hd
      cases o with
      | returned e =>
        cases e with
        | none =>
          simp only
          split
          · exact ⟨others_markCompleted _ _, fun h => ⟨rfl, markCompleted_not_named _ _ h⟩⟩
          · have h := ih (State.sleep penv pollingInterval ⟨w1, s.ProbeDetails, none⟩)
            simp only [(state_sleep_chrono stopMark_ignores penv _ _).2] at h
            exact h
        | some err =>
          simp only
          split
          · rename_i details hrec
            refine ⟨?_, fun hn => ?_⟩
            · simp only
              rw [others_recordFailure _ _ _ _ _ hrec]
            · rw [recordFailure_not_named _ _ _ _ hn] at hrec
              cases hrec
          · split
            · exact ⟨others_markCompleted _ _, fun h => ⟨rfl, markCompleted_not_named _ _ h⟩⟩
            · have h := ih (State.sleep penv pollingInterval
                ⟨w1, s.ProbeDetails, some (penv.addProbePhase err chaosDetails.Phase)⟩)
              simp only [(state_sleep_chrono stopMark_ignores penv _ _).2] at h
              exact h
      | exited c => exact ⟨rfl, fun _ => ⟨rfl, rfl⟩⟩
      | outOfFuel => exact ⟨rfl, fun _ => ⟨rfl, rfl⟩⟩
      | panicked => exact ⟨rfl, fun _ => ⟨rfl, rfl⟩⟩

theorem continuous_others (penv : ProbeEnv) (probe : ProbeAttributes)
    (chaosDetails : ChaosDetails) (fuel : Nat) (s : State) :
    others probe.Name (triggerContinuousHTTPProbe penv probe chaosDetails fuel s).2.ProbeDetails =
      others probe.Name s.ProbeDetails ∧
    (¬ Named probe.Name s.ProbeDetails →
      continuousFlag penv probe chaosDetails fuel s = false ∧
      (triggerContinuousHTTPProbe penv probe chaosDetails fuel s).2.ProbeDetails =
        s.ProbeDetails) := by
  unfold triggerContinuousHTTPProbe continuousFlag
  have hw := (waitInitialDelay_chrono stopMark_ignores penv probe s).2
  have h := continuousLoop_others penv probe chaosDetails
    (penv.getProbeTimeouts probe.Name s.ProbeDetails).ProbePollingInterval fuel
    (waitInitialDelay penv probe s)
  rw [hw] at h
  generalize continuousLoop penv probe chaosDetails
    (penv.getProbeTimeouts probe.Name s.ProbeDetails).ProbePollingInterval fuel
    (waitInitialDelay penv probe s) = r at h
  obtain ⟨o, flag, s1⟩ := r
  rw [(stopOnFailure_details penv probe _ o flag s1).2]
  exact h

theorem onChaos_others (penv : ProbeEnv) (probe : ProbeAttributes)
    (chaosDetails : ChaosDetails) (fuel : Nat) (s : State) :
    others probe.Name (triggerOnChaosHTTPProbe penv probe chaosDetails fuel s).2.ProbeDetails =
      others probe.Name s.ProbeDetails ∧
    (¬ Named probe.Name s.ProbeDetails →
      onChaosFlag penv probe chaosDetails fuel s = false ∧
      (triggerOnChaosHTTPProbe penv probe chaosDetails fuel s).2.ProbeDetails =
        s.ProbeDetails) := by
  unfold triggerOnChaosHTTPProbe onChaosFlag
  simp only
  have hw : (armEndTimer penv
      (endTimer chaosDetails.ChaosDuration
        (penv.getProbeTimeouts probe.Name s.ProbeDetails).InitialDelay)
      (waitInitialDelay penv probe s)).1.ProbeDetails = s.ProbeDetails := by
    simp only [armEndTimer, (state_step_chrono stopMark penv _ _).2,
      (waitInitialDelay_chrono stopMark_ignores penv probe s).2]
  have h := onChaosLoop_others penv probe chaosDetails
    (penv.getProbeTimeouts probe.Name s.ProbeDetails).ProbePollingInterval
    (armEndTimer penv
      (endTimer chaosDetails.ChaosDuration
        (penv.getProbeTimeouts probe.Name s.ProbeDetails).InitialDelay)
      (waitInitialDelay penv probe s)).2 fuel
    (armEndTimer penv
      (endTimer chaosDetails.ChaosDuration
        (penv.getProbeTimeouts probe.Name s.ProbeDetails).InitialDelay)
      (waitInitialDelay penv probe s)).1
  rw [hw] at h
  generalize onChaosLoop penv probe chaosDetails
    (penv.getProbeTimeouts probe.Name s.ProbeDetails).ProbePollingInterval
    (armEndTimer penv
      (endTimer chaosDetails.ChaosDuration
        (penv.getProbeTimeouts probe.Name s.ProbeDetails).InitialDelay)
      (waitInitialDelay penv probe s)).2 fuel
    (armEndTimer penv
      (endTimer chaosDetails.ChaosDuration
        (penv.getProbeTimeouts probe.Name s.ProbeDetails).InitialDelay)
      (waitInitialDelay penv probe s)).1 = r at h
  obtain ⟨o, flag, s1⟩ := r
  rw [(stopOnFailure_details penv probe _ o flag s1).2]
  exact h

set_option maxRecDepth 100000 in
set_option maxHeartbeats 2000000 in
/-- C25 (defect): the evaluators leave the entries of the other probes as they
are, but they write the package-level variable `err`, which belongs to no probe.
From a state in which `err` holds an error left by the evaluator of probe `q`,
a run of either evaluator for probe `p`, whose evaluation succeeds, returns with
`err` set to nil; and a run whose evaluation fails leaves the error of `p`
in it. -/
theorem C25_evaluators_write_the_package_level_err :
    (∀ (penv : ProbeEnv) (probe : ProbeAttributes) (chaosDetails : ChaosDetails) (fuel : Nat)
        (s : State),
      others probe.Name
          (triggerContinuousHTTPProbe penv probe chaosDetails fuel s).2.ProbeDetails =
        others probe.Name s.ProbeDetails ∧
      others probe.Name (triggerOnChaosHTTPProbe penv probe chaosDetails fuel s).2.ProbeDetails =
        others probe.Name s.ProbeDetails) ∧
    sharedState.err = some (.external "failure of probe q") ∧
    ((triggerContinuousHTTPProbe cancelledAfterEnv getProbe {} 2 sharedState).1 =
        .returned none ∧
      chrono evalMark
          (triggerContinuousHTTPProbe cancelledAfterEnv getProbe {} 2 sharedState).2.world.trace =
        ["http://svc"] ∧
      (triggerContinuousHTTPProbe cancelledAfterEnv getProbe {} 2 sharedState).2.err = none) ∧
    ((triggerOnChaosHTTPProbe cancelledEnv getProbe { ChaosDuration := 100 } 2 sharedState).1 =
        .returned none ∧
      (triggerOnChaosHTTPProbe cancelledEnv getProbe
        { ChaosDuration := 100 } 2 sharedState).2.err = none) ∧
    (triggerContinuousHTTPProbe failingProbeEnv getProbe {} 1 sharedState).2.err =
      some (.propagate
        (.cerror .FailureTypeHttpProbe (nameTarget "p") "unexpected status code") "") :=
  ⟨fun penv probe chaosDetails fuel s =>
      ⟨(continuous_others penv probe chaosDetails fuel s).1,
        (onChaos_others penv probe chaosDetails fuel s).1⟩,
    rfl, ⟨by decide, by decide, by decide⟩, ⟨by decide, by decide⟩, by decide⟩

set_option maxRecDepth 100000 in
set_option maxHeartbeats 2000000 in
/-- Counterexample to C30 as stated: the probe `p` has `StopOnFailure` set, every
evaluation of it fails and `ProbeDetails` is empty.  The loop of
`triggerContinuousHTTPProbe` is still running after three failed evaluations;
`triggerOnChaosHTTPProbe`, with a chaos duration of two seconds and a polling
interval of one second, makes two failed evaluations and returns when the timer
fires, with no failure recorded and without invoking `stopChaosEngine`. -/
theorem C30_counterexample :
    stopProbe.RunProperties.StopOnFailure = true ∧
    ((triggerContinuousHTTPProbe failingProbeEnv stopProbe {} 3 {}).1 = .outOfFuel ∧
      chrono evalMark (triggerContinuousHTTPProbe failingProbeEnv stopProbe {} 3 {}).2.world.trace =
        ["http://svc", "http://svc", "http://svc"]) ∧
    ((triggerOnChaosHTTPProbe slowFailingEnv stopProbe { ChaosDuration := 2 } 2 {}).1 =
        .returned none ∧
      chrono evalMark
          (triggerOnChaosHTTPProbe slowFailingEnv stopProbe
            { ChaosDuration := 2 } 2 {}).2.world.trace = ["http://svc", "http://svc"] ∧
      chrono stopMark
          (triggerOnChaosHTTPProbe slowFailingEnv stopProbe
            { ChaosDuration := 2 } 2 {}).2.world.trace = [] ∧
      (triggerOnChaosHTTPProbe slowFailingEnv stopProbe
        { ChaosDuration := 2 } 2 {}).2.ProbeDetails = [] ∧
      onChaosFlag slowFailingEnv stopProbe { ChaosDuration := 2 } 2 {} = false) :=
  ⟨rfl, ⟨by decide, by decide⟩, ⟨by decide, by decide, by decide, by decide, by decide⟩⟩

/-- C30 (as amended): a failed evaluation ends the loop, is recorded and sets
`isExperimentFailed` only for a probe that has an entry in `ProbeDetails`.  For
a probe without entry (the hypothesis), in both functions the flag stays unset,
`stopChaosEngine` is not invoked and `ProbeDetails` is left as it is; after a
failed evaluation the continuous loop waits for the polling interval and goes
on, and so does the on-chaos loop unless the probe context is cancelled.  For a
state in which the probe has an entry, a failed evaluation ends either loop
with the flag set. -/
theorem C30_failure_ends_the_loop_only_for_a_named_probe (penv : ProbeEnv)
    (probe : ProbeAttributes) (chaosDetails : ChaosDetails) (fuel : Nat) (s : State)
    (hname : ¬ Named probe.Name s.ProbeDetails) :
    (continuousFlag penv probe chaosDetails fuel s = false ∧
      onChaosFlag penv probe chaosDetails fuel s = false) ∧
    (chrono stopMark (triggerContinuousHTTPProbe penv probe chaosDetails fuel s).2.world.trace =
        chrono stopMark s.world.trace ∧
      chrono stopMark (triggerOnChaosHTTPProbe penv probe chaosDetails fuel s).2.world.trace =
        chrono stopMark s.world.trace) ∧
    ((triggerContinuousHTTPProbe penv probe chaosDetails fuel s).2.ProbeDetails = s.ProbeDetails ∧
      (triggerOnChaosHTTPProbe penv probe chaosDetails fuel s).2.ProbeDetails = s.ProbeDetails) ∧
    (∀ (pollingInterval : Int) (err : GoError) (s1 : State),
      penv.ctxDone s.world.trace = false →
      triggerHTTPProbe penv probe s = (.returned (some err), s1) →
      continuousLoop penv probe chaosDetails pollingInterval (fuel + 1) s =
        continuousLoop penv probe chaosDetails pollingInterval fuel
          (State.sleep penv pollingInterval
            { s1 with err := some (penv.addProbePhase err chaosDetails.Phase) })) ∧
    (∀ (pollingInterval : Int) (deadline : Nat) (err : GoError) (s1 : State),
      ¬ deadline ≤ s.world.clock →
      triggerHTTPProbe penv probe s = (.returned (some err), s1) →
      penv.ctxDone s1.world.trace = false →
      onChaosLoop penv probe chaosDetails pollingInterval deadline (fuel + 1) s =
        onChaosLoop penv probe chaosDetails pollingInterval deadline fuel
          (State.sleep penv pollingInterval
            { s1 with err := some (penv.addProbePhase err chaosDetails.Phase) })) ∧
    (∀ (s2 : State) (pollingInterval : Int) (deadline : Nat) (err : GoError) (s1 : State),
      Named probe.Name s2.ProbeDetails →
      triggerHTTPProbe penv probe s2 = (.returned (some err), s1) →
      (penv.ctxDone s2.world.trace = false →
        (continuousLoop penv probe chaosDetails pollingInterval (fuel + 1) s2).1 =
          .returned none ∧
        (continuousLoop penv probe chaosDetails pollingInterval (fuel + 1) s2).2.1 = true) ∧
      (¬ deadline ≤ s2.world.clock →
        (onChaosLoop penv probe chaosDetails pollingInterval deadline (fuel + 1) s2).1 =
          .returned none ∧
        (onChaosLoop penv probe chaosDetails pollingInterval deadline (fuel + 1) s2).2.1 =
          true)) := by
  have hc := (continuous_others penv probe chaosDetails fuel s).2 hname
  have ho := (onChaos_others penv probe chaosDetails fuel s).2 hname
  refine ⟨⟨hc.1, ho.1⟩, ⟨?_, ?_⟩, ⟨hc.2, ho.2⟩, ?_, ?_, ?_⟩
  · rw [continuous_stop_events, hc.1]
    simp
  · rw [onChaos_stop_events, ho.1]
    simp
  · intro pollingInterval err s1 hctx ht
    have hd := (triggerHTTPProbe_chrono stopMark_ignores penv probe s).2
    rw [ht] at hd
    rw [continuousLoop]
    simp only [hctx, ht, Bool.false_eq_true, if_false,
      recordFailure_not_named _ _ _ _ (show ¬ Named probe.Name s1.ProbeDetails by
        rw [hd]; exact hname)]
  · intro pollingInterval deadline err s1 hdl ht hctx
    have hd := (triggerHTTPProbe_chrono stopMark_ignores penv probe s).2
    rw [ht] at hd
    rw [onChaosLoop]
    simp only [hdl, hctx, ht, Bool.false_eq_true, if_false,
      recordFailure_not_named _ _ _ _ (show ¬ Named probe.Name s1.ProbeDetails by
        rw [hd]; exact hname)]
  · intro s2 pollingInterval deadline err s1 hn ht
    have hd := (triggerHTTPProbe_chrono stopMark_ignores penv probe s2).2
    rw [ht] at hd
    obtain ⟨details, d, h1, _⟩ := recordFailure_named probe.Name
      (penv.addProbePhase err chaosDetails.Phase)
      (penv.getDescription (penv.addProbePhase err chaosDetails.Phase)) s1.ProbeDetails
      (by rw [hd]; exact hn)
    constructor
    · intro hctx
      rw [continuousLoop]
      simp only [hctx, ht, h1, Bool.false_eq_true, if_false]
      exact ⟨trivial, trivial⟩
    · intro hdl
      rw [onChaosLoop]
      simp only [hdl, ht, h1, if_false]
      exact ⟨trivial, trivial⟩

/-- Witness of C30 (as amended): with an empty `ProbeDetails` the probe `p` has
no entry; the evaluators set no flag and leave `ProbeDetails` empty. -/
theorem C30_witness :
    ¬ Named stopProbe.Name ({} : State).ProbeDetails ∧
    continuousFlag failingProbeEnv stopProbe {} 3 {} = false ∧
    (triggerContinuousHTTPProbe failingProbeEnv stopProbe {} 3 {}).2.ProbeDetails = [] :=
  have hname : ¬ Named stopProbe.Name ({} : State).ProbeDetails :=
    fun ⟨_, hm, _⟩ => by cases hm
  ⟨hname,
    (C30_failure_ends_the_loop_only_for_a_named_probe failingProbeEnv stopProbe {} 3 {}
      hname).1.1,
    (C30_failure_ends_the_loop_only_for_a_named_probe failingProbeEnv stopProbe {} 3 {}
      hname).2.2.1.1⟩

end HTTPProbe

namespace PodCPUHogExec

set_option maxRecDepth 100000 in
set_option maxHeartbeats 2000000 in
/-- C27: in the wait loops of `injectChaosInSerialMode` and
`injectChaosInParallelMode`, with the timer armed and a stress command's result
selected: a non-nil error whose text contains "137" makes the function return
nil at once; any other non-nil error makes it return an error with code
`ErrorTypeChaosInject` whose reason is "failed to stress cpu of target pod: "
followed by the error's text; a nil result leaves the loop running, with the
timer armed anew for the next `select`.  For a pod on which the target
container is set (`setTargetContainer` does not panic), an outcome of the wait
is the outcome of the serial loop over the pods.  The runs on one pod with one
container and one core show
the three cases in both functions: after exit code 137 nil is returned and no
revert is executed, after another error the chaos-inject error is returned, and
after a nil result the wait goes on until the timer fires. -/
theorem C27_stress_errors_are_handled_as_commented (env : Env) (exp : ExperimentDetails)
    (chaosDetails : ChaosDetails) (pod : Pod) (targetPodList : List Pod) (pending : Nat)
    (w : World) :
    (∀ err : GoError,
      env.selected (w.step env (.timeAfter (wrapInt64 (exp.ChaosDuration * Second)))).trace =
        .stressErr (some err) →
      ("137".toList <:+: (env.errorText err).toList →
        serialWait env exp chaosDetails pod (pending + 1) w =
          (some (.returned none),
            w.step env (.timeAfter (wrapInt64 (exp.ChaosDuration * Second)))) ∧
        parallelWait env exp chaosDetails targetPodList (pending + 1) w =
          (some (.returned none),
            w.step env (.timeAfter (wrapInt64 (exp.ChaosDuration * Second))))) ∧
      (¬ "137".toList <:+: (env.errorText err).toList →
        (serialWait env exp chaosDetails pod (pending + 1) w).1 =
          some (.returned (some (.cerror .ErrorTypeChaosInject
            ("podName: " ++ pod.Name ++ ", namespace: " ++ pod.Namespace ++ ", container: "
              ++ exp.TargetContainer)
            ("failed to stress cpu of target pod: " ++ env.errorText err)))) ∧
        (parallelWait env exp chaosDetails targetPodList (pending + 1) w).1 =
          some (.returned (some (.cerror .ErrorTypeChaosInject ""
            ("failed to stress cpu of target pod: " ++ env.errorText err)))))) ∧
    (env.selected (w.step env (.timeAfter (wrapInt64 (exp.ChaosDuration * Second)))).trace =
        .stressErr none →
      serialWait env exp chaosDetails pod (pending + 1) w =
        serialWait env exp chaosDetails pod pending
          (w.step env (.timeAfter (wrapInt64 (exp.ChaosDuration * Second)))) ∧
      parallelWait env exp chaosDetails targetPodList (pending + 1) w =
        parallelWait env exp chaosDetails targetPodList pending
          (w.step env (.timeAfter (wrapInt64 (exp.ChaosDuration * Second))))) ∧
    (∀ (rest : List Pod) (exp1 : ExperimentDetails) (o : Outcome) (w1 : World),
      setTargetContainer exp pod = some exp1 →
      serialWait env exp1 chaosDetails pod exp1.CPUcores.toNat
          ((startStress env exp1 pod exp1.CPUcores.toNat (injectEvent env exp pod w)).step env
            (.setTargets pod.Name "injected" "pod")) = (some o, w1) →
      serialPods env chaosDetails (pod :: rest) exp w = (o, w1)) ∧
    ((injectChaosInSerialMode oomEnv oneCore onePod {} {} {}).1 = .returned none ∧
      chrono execMark (injectChaosInSerialMode oomEnv oneCore onePod {} {} {}).2.trace = [] ∧
      (injectChaosInParallelMode oomEnv oneCore onePod {} {} {}).1 = .returned none ∧
      chrono execMark (injectChaosInParallelMode oomEnv oneCore onePod {} {} {}).2.trace = []) ∧
    ((injectChaosInSerialMode stressFailsEnv oneCore onePod {} {} {}).1 =
        .returned (some (.cerror .ErrorTypeChaosInject "podName: p, namespace: ns, container: c"
          "failed to stress cpu of target pod: exec failed")) ∧
      (injectChaosInParallelMode stressFailsEnv oneCore onePod {} {} {}).1 =
        .returned (some (.cerror .ErrorTypeChaosInject ""
          "failed to stress cpu of target pod: exec failed"))) ∧
    ((injectChaosInSerialMode stressEndsEnv oneCore onePod {} {} {}).1 = .returned none ∧
      chrono timerMark (injectChaosInSerialMode stressEndsEnv oneCore onePod {} {} {}).2.trace =
        [10000000000, 10000000000] ∧
      chrono execMark (injectChaosInSerialMode stressEndsEnv oneCore onePod {} {} {}).2.trace =
        [("p", "ns")] ∧
      (injectChaosInParallelMode stressEndsEnv oneCore onePod {} {} {}).1 = .returned none ∧
      chrono timerMark (injectChaosInParallelMode stressEndsEnv oneCore onePod {} {} {}).2.trace =
        [10000000000, 10000000000]) := by
  refine ⟨fun err hsel => ⟨fun h137 => ⟨?_, ?_⟩, fun h137 => ⟨?_, ?_⟩⟩, fun hsel => ⟨?_, ?_⟩,
    fun rest exp1 o w1 hc h => ?_,
    ⟨by decide, by decide, by decide, by decide⟩, ⟨by decide, by decide⟩,
    ⟨by decide, by decide, by decide, by decide, by decide⟩⟩
  · rw [serialWait.eq_1 env exp chaosDetails pod w err pending hsel, if_pos h137]
  · rw [parallelWait.eq_1 env exp chaosDetails targetPodList w err pending hsel, if_pos h137]
  · rw [serialWait.eq_1 env exp chaosDetails pod w err pending hsel, if_neg h137]
  · rw [parallelWait.eq_1 env exp chaosDetails targetPodList w err pending hsel, if_neg h137]
  · exact serialWait.eq_2 env exp chaosDetails pod w pending hsel
  · exact parallelWait.eq_2 env exp chaosDetails targetPodList w pending hsel
  · rw [serialPods]
    simp only [hc, h]

end PodCPUHogExec

namespace EBSLoss

theorem parallelPrepare_appends (env : Env) (exp : ExperimentDetails) :
    ∀ (ids : List String) (att att1 : Attachments) (w w1 : World),
      parallelPrepare env exp ids att w = (none, att1, w1) →
      (∃ fetched : List String, fetched.length = ids.length ∧
        att1.ec2InstanceIDList = att.ec2InstanceIDList ++ fetched) ∧
      (∃ fetched : List String, fetched.length = ids.length ∧
        att1.deviceList = att.deviceList ++ fetched) := by
  intro ids
  induction ids with
  | nil =>
    intro att att1 w w1 h
    simp only [parallelPrepare, Prod.mk.injEq, true_and] at h
    obtain ⟨rfl, _⟩ := h
    exact ⟨⟨[], rfl, by simp⟩, ⟨[], rfl, by simp⟩⟩
  | cons volumeID rest ih =>
    intro att att1 w w1 h
    rw [parallelPrepare] at h
    simp only [World.call] at h
    split at h
    · simp at h
    · split at h
      · simp at h
      · obtain ⟨⟨f1, hl1, h1⟩, ⟨f2, hl2, h2⟩⟩ := ih _ _ _ _ h
        simp only at h1 h2
        rw [List.append_assoc] at h1 h2
        exact ⟨⟨_, by simp [hl1], h1⟩, ⟨_, by simp [hl2], h2⟩⟩

theorem parallelPass_attachments (env : Env) (exp : ExperimentDetails) (rd : ResultDetails)
    (ids : List String) (att : Attachments) (w : World) :
    (parallelPass env exp rd ids att w).2.1 =
      (parallelPrepare env exp ids att (injectEvent env exp w)).2.1 := by
  unfold parallelPass
  repeat' split
  all_goals simp_all

set_option maxRecDepth 100000 in
set_option maxHeartbeats 2000000 in
/-- C29 (defect): the slices `ec2InstanceIDList` and `deviceList` of
`InjectChaosInParallelMode` are declared before the duration loop and every pass
appends to them.  A pass that succeeds on `ids` from the slices `att` leaves
slices longer by the number of volumes, with the entries held before at their
indices: from the second pass on the slices hold more than one entry per
volume, and index `i` reads what the first pass fetched.  In the run on volume
`vol-1`, found on instance `i-0` as `/dev/sdf` in the first pass and on `i-9`
as `/dev/sdg` in the second, the second pass hands both instance ids to
`CheckEBSDetachmentInitialisation`, waits for the detachment from `i-0` and
attaches the volume back to `i-0` as `/dev/sdf`. -/
theorem C29_later_passes_read_the_attachments_of_the_first_pass :
    (∀ (env : Env) (exp : ExperimentDetails) (resultDetails : ResultDetails)
        (targetEBSVolumeIDList : List String) (att att1 : Attachments) (w w1 : World),
      parallelPass env exp resultDetails targetEBSVolumeIDList att w = (none, att1, w1) →
      (att1.ec2InstanceIDList.length =
          att.ec2InstanceIDList.length + targetEBSVolumeIDList.length ∧
        att1.deviceList.length = att.deviceList.length + targetEBSVolumeIDList.length) ∧
      (∀ i, i < att.ec2InstanceIDList.length →
        att1.ec2InstanceIDList.getD i "" = att.ec2InstanceIDList.getD i "") ∧
      (∀ i, i < att.deviceList.length →
        att1.deviceList.getD i "" = att.deviceList.getD i "")) ∧
    (∀ (env : Env) (exp : ExperimentDetails) (resultDetails : ResultDetails)
        (targetEBSVolumeIDList : List String) (start fuel : Nat) (duration : Int)
        (att att1 : Attachments) (w w1 : World),
      duration < exp.ChaosDuration →
      parallelPass env exp resultDetails targetEBSVolumeIDList att w = (none, att1, w1) →
      parallelLoop env exp resultDetails targetEBSVolumeIDList start (fuel + 1) duration att w =
        parallelLoop env exp resultDetails targetEBSVolumeIDList start fuel
          (w1.timeSince env start).1 att1 (w1.timeSince env start).2) ∧
    (InjectChaosInParallelMode movedEnv twoPassExperiment ["vol-1"] {} 2 {}).1 =
      .returned none ∧
    chrono sliceMark
        (InjectChaosInParallelMode movedEnv twoPassExperiment ["vol-1"] {} 2 {}).2.trace =
      [.checkEBSDetachmentInitialisation ["vol-1"] ["i-0"] "",
       .waitForVolumeDetachment "vol-1" "i-0" "" 0 0,
       .ebsVolumeAttach "vol-1" "i-0" "/dev/sdf" "",
       .checkEBSDetachmentInitialisation ["vol-1"] ["i-0", "i-9"] "",
       .waitForVolumeDetachment "vol-1" "i-0" "" 0 0,
       .ebsVolumeAttach "vol-1" "i-0" "/dev/sdf" ""] := by
  refine ⟨?_, ?_, by decide, by decide⟩
  · intro env exp resultDetails ids att att1 w w1 h
    have ha := parallelPass_attachments env exp resultDetails ids att w
    rw [h] at ha
    simp only at ha
    have hp : (parallelPrepare env exp ids att (injectEvent env exp w)).1 = none := by
      unfold parallelPass at h
      generalize parallelPrepare env exp ids att (injectEvent env exp w) = r at h
      obtain ⟨o, a, w2⟩ := r
      cases o with
      | none => rfl
      | some err => simp at h
    obtain ⟨⟨f1, hl1, h1⟩, ⟨f2, hl2, h2⟩⟩ := parallelPrepare_appends env exp ids att
      (parallelPrepare env exp ids att (injectEvent env exp w)).2.1
      (injectEvent env exp w)
      (parallelPrepare env exp ids att (injectEvent env exp w)).2.2
      (by rw [← hp])
    rw [← ha] at h1 h2
    refine ⟨⟨by rw [h1, List.length_append, hl1], by rw [h2, List.length_append, hl2]⟩,
      fun i hi => ?_, fun i hi => ?_⟩
    · rw [h1, List.getD_append _ _ _ _ hi]
    · rw [h2, List.getD_append _ _ _ _ hi]
  · intro env exp resultDetails ids start fuel duration att att1 w w1 hd h
    rw [parallelLoop.eq_def, if_pos hd]
    simp only [h]

end EBSLoss

end Litmus
